import Mathlib

/-!
# EternalModLoaderCpp: the sound container patcher

A shallow embedding of `src/SoundMods.cpp` (`GetDecodedOpusFileSize`,
`EncodeSoundMod`, `LoadSoundMods`, the non-`_WIN32` branch on an LP64,
little-endian target) and theorems about it.

Conventions of the embedding:
* a file and the memory mapping over it are one `List Byte` (the mapping is
  `MAP_SHARED`, so a store into `mem` is a store into the file);
* `int32_t`, `int16_t` values are `Int`s kept in range by `toInt32`, `toInt16`;
  `uint32_t` values are `Nat`s kept in range by `% 2^32`;
* an access outside the mapping is undefined behaviour in the source and is
  `none` here;
* what the program cannot decide by itself (whether `fopen` succeeds, how many
  bytes `fwrite` stores, what the external `opusenc`/`opusdec` do to the scratch
  files, whether `resize_file` throws) is read from a `World`.
-/

namespace EternalModLoader

/-! ## Bytes and fixed-width integers -/

/-- One `std::byte`. -/
abbrev Byte := Fin 256

/-- Conversion of an integer to `uint32_t`. -/
def toUInt32 (x : Int) : Nat := (x % 4294967296).toNat

/-- Conversion of an integer to `int32_t` (two's complement wrap-around). -/
def toInt32 (x : Int) : Int := (x + 2147483648) % 4294967296 - 2147483648

/-- Conversion of an integer to `int16_t` (two's complement wrap-around). -/
def toInt16 (x : Int) : Int := (x + 32768) % 65536 - 32768

/-- Conversion of an integer to `int64_t` (two's complement wrap-around). -/
def toInt64 (x : Int) : Int :=
  (x + 9223372036854775808) % 18446744073709551616 - 9223372036854775808

/-- The largest `unsigned long` (LP64). -/
def ULONG_MAX : Nat := 18446744073709551615

/-- The low byte of a number. -/
def byteOf (v : Nat) : Byte := ⟨v % 256, Nat.mod_lt _ (by decide)⟩

/-- Object representation of a 4-byte integer (little-endian), as copied by
`std::copy((std::byte*)&x, (std::byte*)&x + 4, ...)`. -/
def le32 (v : Nat) : List Byte :=
  [byteOf v, byteOf (v / 256), byteOf (v / 65536), byteOf (v / 16777216)]

/-- Value of an unsigned integer given by its little-endian object representation, as read by
`std::copy(mem + a, mem + b, (std::byte*)&x)`. -/
def fromLE : List Byte → Nat
  | [] => 0
  | b :: bs => b.val + 256 * fromLE bs

/-- The bytes `mem[pos, pos + n)`; `none` when the range leaves the mapping. -/
def readBytes (mem : List Byte) (pos n : Nat) : Option (List Byte) :=
  if pos + n ≤ mem.length then some ((mem.drop pos).take n) else none

/-- Reads a `uint32_t` at `mem + pos`. -/
def readU32 (mem : List Byte) (pos : Nat) : Option Nat :=
  (readBytes mem pos 4).map fromLE

/-- Reads a `uint16_t` at `mem + pos`. -/
def readU16 (mem : List Byte) (pos : Nat) : Option Nat :=
  (readBytes mem pos 2).map fromLE

/-- Stores `bs` at `mem + pos` (`std::copy` into the mapping); `none` when the range leaves
the mapping. -/
def writeBytes (mem : List Byte) (pos : Nat) (bs : List Byte) : Option (List Byte) :=
  if pos + bs.length ≤ mem.length then
    some (mem.take pos ++ bs ++ mem.drop (pos + bs.length))
  else none

/-! ## Text: `std::stoul`, `std::filesystem::path`, `SplitString` -/

/-- The characters `isspace` accepts in the "C" locale. -/
def isSpace (c : Char) : Bool :=
  c = ' ' || c = '\t' || c = '\n' || c = '\x0b' || c = '\x0c' || c = '\r'

/-- Value of a decimal digit. -/
def digitValue (c : Char) : Nat := c.toNat - 48

/-- Value of a string of decimal digits. -/
def decimalValue (ds : List Char) : Nat :=
  ds.foldl (fun acc c => 10 * acc + digitValue c) 0

/-- Removes an optional sign; the flag tells whether it was `-`. -/
def stripSign : List Char → Bool × List Char
  | '-' :: r => (true, r)
  | '+' :: r => (false, r)
  | s => (false, s)

/-- The call `std::stoul(s, nullptr, 10)`: leading white space is skipped, an optional sign is
taken, then the longest run of decimal digits is converted and whatever follows is ignored
(the position argument is `nullptr`). `none` stands for a thrown exception:
`std::invalid_argument` when there is no digit, `std::out_of_range` when the digits exceed
`ULONG_MAX`. A leading `-` negates the value in `unsigned long`. -/
def stoul (s : List Char) : Option Nat :=
  let signed := stripSign (s.dropWhile isSpace)
  let ds := signed.2.takeWhile Char.isDigit
  if ds = [] then none
  else if ULONG_MAX < decimalValue ds then none
  else if signed.1 then some ((ULONG_MAX + 1 - decimalValue ds) % (ULONG_MAX + 1))
  else some (decimalValue ds)

/-- The member `std::filesystem::path::filename()`: what follows the last `/`. -/
def pathFilename (p : List Char) : List Char :=
  (p.reverse.takeWhile (fun c => c != '/')).reverse

/-- The member `std::filesystem::path::extension()`: from the last period of the file name to
its end; empty for `.` and `..`, when there is no period, and when the only period is the first
character. -/
def pathExtension (p : List Char) : List Char :=
  let f := pathFilename p
  let tail := (f.reverse.takeWhile (fun c => c != '.')).reverse
  if f = ['.'] ∨ f = ['.', '.'] then []
  else if tail.length = f.length then []
  else if tail.length + 1 = f.length then []
  else f.drop (f.length - (tail.length + 1))

/-- The member `std::filesystem::path::stem()`: the file name without its extension. -/
def pathStem (p : List Char) : List Char :=
  let f := pathFilename p
  f.take (f.length - (pathExtension p).length)

/-- Modelled from the spec: `SplitString(s, delimiter)`, declared in `EternalModLoader.hpp` and
defined outside the files at hand. The spec has the caller "split on `_`, take the last
segment": the pieces of `s` between the occurrences of the delimiter, in order, empty pieces
kept, so that the result is never empty. -/
def SplitString : List Char → Char → List (List Char)
  | [], _ => [[]]
  | c :: cs, d =>
    if c = d then [] :: SplitString cs d
    else
      match SplitString cs d with
      | [] => [[c]]
      | p :: ps => (c :: p) :: ps

/-- Lines 121-140 of `LoadSoundMods`: the sound id of a mod file, from the stem of its name;
`-1` when none can be derived. The `unsigned long` from `std::stoul` is narrowed to the
`int32_t soundModId`. -/
def deriveSoundModId (soundFileNameStem : List Char) : Int :=
  match stoul soundFileNameStem with
  | some v => toInt32 v
  | none =>
    let splitName := SplitString soundFileNameStem '_'
    let idString := splitName.getLastD []
    let idStringData := SplitString idString '#'
    match idStringData with
    | [first, second] =>
      if first = ['i', 'd'] then
        match stoul second with
        | some v => toInt32 v
        | none => -1
      else -1
    | _ => -1

/-! ## The outside world -/

/-- The files of the working directory by name: the content, `none` when there is no such
file. -/
abbrev Files := String → Option (List Byte)

/-- Creates or replaces a file. -/
def Files.put (fs : Files) (name : String) (content : List Byte) : Files :=
  fun n => if n = name then some content else fs n

/-- The call `remove(name)`. -/
def Files.remove (fs : Files) (name : String) : Files :=
  fun n => if n = name then none else fs n

/-- The working directory together with the commands handed to `system` so far (oldest
first). -/
structure Scratch where
  files : Files
  commands : List String

/-- What the program does not decide by itself. -/
structure World where
  /-- Whether `fopen(name, mode)` returns a null pointer. -/
  fopenFails : String → String → Bool
  /-- The count returned by `fwrite` of the given bytes to the named file. -/
  fwriteCount : String → List Byte → Nat
  /-- The count returned by `fread` of that many bytes from the named file. -/
  freadCount : String → Nat → Nat
  /-- The call `system(command)`: the exit status and what the command leaves of the files. -/
  system : String → Files → Int × Files
  /-- Whether `std::filesystem::resize_file(path, size)` throws. -/
  resizeFails : String → Nat → Bool

/-- The decoder command line (non-`_WIN32`). -/
def opusdecCommand : String := "opusdec tmp.opus tmp.wav >/dev/null 2>&1"

/-- The encoder command line (non-`_WIN32`). -/
def opusencCommand : String := "opusenc tmp.wav tmp.opus >/dev/null 2>&1"

/-- Runs `system(command)` and records the command. -/
def runSystem (w : World) (command : String) (sc : Scratch) : Int × Scratch :=
  ((w.system command sc.files).1,
    { files := (w.system command sc.files).2, commands := sc.commands ++ [command] })

/-- The function `GetDecodedOpusFileSize` (lines 28-64): the returned `int32_t` and the scratch
files it leaves. -/
def GetDecodedOpusFileSize (w : World) (sc : Scratch) (FileBytes : List Byte) : Int × Scratch :=
  if w.fopenFails "tmp.opus" "wb" then (-1, sc)
  else
    let written := min (w.fwriteCount "tmp.opus" FileBytes) FileBytes.length
    let sc1 : Scratch := { sc with files := sc.files.put "tmp.opus" (FileBytes.take written) }
    if written ≠ FileBytes.length then (-1, sc1)
    else
      let run := runSystem w opusdecCommand sc1
      if run.1 ≠ 0 then (-1, run.2)
      else
        match run.2.files "tmp.wav" with
        | none => (-1, run.2)
        | some decoded =>
          let decSize := toInt64 decoded.length
          if decSize = 0 ∨ decSize = -1 then (-1, run.2)
          else (toInt32 (decSize + 20), { run.2 with files := run.2.files.remove "tmp.wav" })

/-- The call `FileBytes.resize(n)` of a byte vector. -/
def resizeVector (v : List Byte) (n : Nat) : List Byte :=
  v.take n ++ List.replicate (n - v.length) 0

/-- The function `EncodeSoundMod` (lines 66-110): the returned `int32_t`, the scratch files it
leaves, and `soundModFile.FileBytes` as it leaves them. -/
def EncodeSoundMod (w : World) (sc : Scratch) (FileBytes : List Byte) :
    Int × Scratch × List Byte :=
  if w.fopenFails "tmp.wav" "wb" then (-1, sc, FileBytes)
  else
    let written := min (w.fwriteCount "tmp.wav" FileBytes) FileBytes.length
    let sc1 : Scratch := { sc with files := sc.files.put "tmp.wav" (FileBytes.take written) }
    if written ≠ FileBytes.length then (-1, sc1, FileBytes)
    else
      let run := runSystem w opusencCommand sc1
      if run.1 ≠ 0 then (-1, run.2, FileBytes)
      else
        match run.2.files "tmp.opus" with
        | none => (-1, run.2, FileBytes)
        | some encoded =>
          let resized := resizeVector FileBytes encoded.length
          if resized.length = 0 then (-1, run.2, resized)
          else if w.fopenFails "tmp.opus" "rb" then (-1, run.2, resized)
          else
            let got := min (w.freadCount "tmp.opus" resized.length) resized.length
            let bytes := encoded.take got ++ resized.drop got
            if got ≠ resized.length then (-1, run.2, bytes)
            else (0, { run.2 with files := run.2.files.remove "tmp.ogg" }, bytes)

/-! ## `LoadSoundMods` -/

/-- One sound replacement taken from a mod. -/
structure SoundModFile where
  Name : String
  FileBytes : List Byte

/-- A sound container (`.snd` file) and the mod files that target it. -/
structure SoundContainer where
  Name : String
  Path : String
  ModFileList : List SoundModFile

/-- The lines `LoadSoundMods` prints. -/
inductive Output
  /-- The line "ERROR: Bad filename for sound file ..., skipping". -/
  | badFilename (name : String)
  /-- The line "ERROR: Failed to encode sound mod file ... - corrupted?". -/
  | encodeFailed (name : String)
  /-- The line "ERROR: Couldn't determine the sound file format for ..., skipping". -/
  | unknownFormat (name : String)
  /-- The line "ERROR: Failed to get decoded size for ... - corrupted file?". -/
  | decodedSizeFailed (name : String)
  /-- The line "ERROR: Failed to resize ...". -/
  | resizeFailed (path : String)
  /-- The line "WARNING: Format mismatch: sound file ... needs to be ... format." -/
  | formatMismatch (name : String) (needed : String)
  /-- The line "The sound will be replaced but it might not work in-game." -/
  | mightNotWork
  /-- The line "WARNING: Couldn't find sound with id ... in ...". -/
  | soundNotFound (soundModId : Int) (container : String)
  /-- The line "Replaced sound with id ... with ...". -/
  | replaced (soundModId : Int) (name : String)
  /-- The line "Number of sounds replaced: ... sound(s) in ...". -/
  | summary (fileCount : Int) (path : String)
  deriving DecidableEq

/-- Lines that start with "WARNING: ". -/
def Output.isWarning : Output → Bool
  | .formatMismatch _ _ => true
  | .soundNotFound _ _ => true
  | _ => false

/-- Lines that start with "ERROR: ". -/
def Output.isError : Output → Bool
  | .badFilename _ => true
  | .encodeFailed _ => true
  | .unknownFormat _ => true
  | .decodedSizeFailed _ => true
  | .resizeFailed _ => true
  | _ => false

/-- The locals set by lines 148-169 from the extension. -/
structure Inferred where
  decodedSize : Int
  needsEncoding : Bool
  needsDecoding : Bool
  format : Int
  deriving DecidableEq

/-- Lines 148-169 of `LoadSoundMods`: format inference from the file extension. -/
def inferFormat (soundExtension : List Char) (encodedSize : Int) : Inferred :=
  if soundExtension = ".wem".toList then
    { decodedSize := encodedSize, needsEncoding := false, needsDecoding := true, format := 3 }
  else if soundExtension = ".ogg".toList ∨ soundExtension = ".opus".toList then
    { decodedSize := encodedSize, needsEncoding := false, needsDecoding := true, format := 2 }
  else if soundExtension = ".wav".toList then
    { decodedSize := toInt32 (encodedSize + 20), needsEncoding := true, needsDecoding := false,
      format := 2 }
  else
    { decodedSize := encodedSize, needsEncoding := true, needsDecoding := true, format := -1 }

/-- What lines 121-205 hand over to the growth step. -/
structure Prepared where
  soundModId : Int
  FileBytes : List Byte
  encodedSize : Int
  decodedSize : Int
  format : Int
  scratch : Scratch

/-- Result of lines 121-205 for one mod file: `continue` after an error line, or the values the
rest of the loop body works with. -/
inductive Prepare
  | skip (line : Output) (scratch : Scratch)
  | ready (p : Prepared)

/-- Lines 190-205 of `LoadSoundMods`. -/
def queryDecodedSize (w : World) (name : String) (soundModId : Int) (sc : Scratch)
    (FileBytes : List Byte) (encodedSize decodedSize format : Int) (needsDecoding : Bool) :
    Prepare :=
  if format = -1 then .skip (.unknownFormat name) sc
  else if format = 2 ∧ needsDecoding = true then
    if (GetDecodedOpusFileSize w sc FileBytes).1 = -1 then
      .skip (.decodedSizeFailed name) (GetDecodedOpusFileSize w sc FileBytes).2
    else
      .ready { soundModId := soundModId, FileBytes := FileBytes, encodedSize := encodedSize,
               decodedSize := (GetDecodedOpusFileSize w sc FileBytes).1, format := format,
               scratch := (GetDecodedOpusFileSize w sc FileBytes).2 }
  else
    .ready { soundModId := soundModId, FileBytes := FileBytes, encodedSize := encodedSize,
             decodedSize := decodedSize, format := format, scratch := sc }

/-- Lines 121-205 of `LoadSoundMods`: sound id, format inference, encoding, decoded size. -/
def prepareSoundMod (w : World) (sc : Scratch) (soundModFile : SoundModFile) : Prepare :=
  let soundModId := deriveSoundModId (pathStem soundModFile.Name.toList)
  if soundModId = -1 then .skip (.badFilename soundModFile.Name) sc
  else
    let encodedSize := toInt32 soundModFile.FileBytes.length
    let inf := inferFormat (pathExtension soundModFile.Name.toList) encodedSize
    if inf.needsEncoding = true then
      let enc := EncodeSoundMod w sc soundModFile.FileBytes
      if enc.1 = -1 then .skip (.encodeFailed soundModFile.Name) enc.2.1
      else if 0 < enc.2.2.length then
        queryDecodedSize w soundModFile.Name soundModId enc.2.1 enc.2.2
          (toInt32 enc.2.2.length) inf.decodedSize 2 inf.needsDecoding
      else .skip (.encodeFailed soundModFile.Name) enc.2.1
    else
      queryDecodedSize w soundModFile.Name soundModId sc soundModFile.FileBytes
        encodedSize inf.decodedSize inf.format inf.needsDecoding

/-- What the loop of `LoadSoundMods` carries from one mod file to the next. -/
structure LoaderState where
  /-- The container file, which is also the mapping `mem`. -/
  mem : List Byte
  /-- The scratch files and the external commands run so far. -/
  scratch : Scratch
  /-- The lines printed so far, oldest first. -/
  output : List Output
  /-- The local `fileCount`. -/
  fileCount : Int
  /-- The stores made into the mapping so far (offset and length), oldest first. -/
  stores : List (Nat × Nat)

/-- The locals of the scan loop (lines 247-276). -/
structure ScanState where
  mem : List Byte
  pos : Nat
  soundFound : Bool
  format : Int
  output : List Output
  stores : List (Nat × Nat)
  /-- The loads the loop has made from the mapping so far (offset and length), oldest first. -/
  loads : List (Nat × Nat)

/-- The call `std::filesystem::resize_file(path, newSize)`: the file is cut, or extended with
zero bytes. -/
def resizeFile (file : List Byte) (newSize : Nat) : List Byte :=
  file.take newSize ++ List.replicate (newSize - file.length) 0

/-- Lines 207-209 of `LoadSoundMods`: the `uint32_t soundModOffset` taken from the file size. -/
def soundModOffset (mem : List Byte) : Nat := mem.length % 4294967296

/-- Line 209 of `LoadSoundMods`: `newContainerSize`. The sum is computed in `size_t` and does
not wrap around: `soundModOffset` is below `2^32` and a byte vector holds fewer than `2^63`
bytes. -/
def newContainerSize (mem FileBytes : List Byte) : Nat :=
  soundModOffset mem + FileBytes.length

/-- Lines 226-239 of `LoadSoundMods` when `resize_file` does not throw: the container is resized
to `newContainerSize`, mapped again, and the payload is copied to `mem + soundModOffset`. The
call `mmap` is taken to succeed: on failure it returns `MAP_FAILED`, not `NULL`, so the test at
line 230 never fires. -/
def growContainer (mem FileBytes : List Byte) : Option (List Byte) :=
  writeBytes (resizeFile mem (newContainerSize mem FileBytes)) (soundModOffset mem) FileBytes

/-- The body of the scan loop, lines 248-275, for one info record. -/
def scanRecord (name : String) (soundModId encodedSize decodedSize : Int) (offset : Nat)
    (st : ScanState) : Option ScanState :=
  match readU32 st.mem (st.pos + 8) with
  | none => none
  | some soundId =>
    if soundId ≠ toUInt32 soundModId then
      some { st with pos := st.pos + 8 + 4 + 20, loads := st.loads ++ [(st.pos + 8, 4)] }
    else
      let pos := st.pos + 8 + 4
      match writeBytes st.mem pos (le32 (toUInt32 encodedSize)) with
      | none => none
      | some mem1 =>
        match writeBytes mem1 (pos + 4) (le32 offset) with
        | none => none
        | some mem2 =>
          match writeBytes mem2 (pos + 8) (le32 (toUInt32 decodedSize)) with
          | none => none
          | some mem3 =>
            match readU16 mem3 (pos + 12) with
            | none => none
            | some currentFormat =>
              if (currentFormat : Int) ≠ st.format then
                some { mem := mem3, pos := pos + 12 + 8, soundFound := true,
                       format := toInt16 currentFormat,
                       output := st.output ++
                         [.formatMismatch name (if currentFormat = 3 then "WEM" else "OPUS"),
                          .mightNotWork],
                       stores := st.stores ++ [(pos, 4), (pos + 4, 4), (pos + 8, 4)],
                       loads := st.loads ++ [(st.pos + 8, 4), (pos + 12, 2)] }
              else
                some { mem := mem3, pos := pos + 12 + 8, soundFound := true,
                       format := st.format, output := st.output,
                       stores := st.stores ++ [(pos, 4), (pos + 4, 4), (pos + 8, 4)],
                       loads := st.loads ++ [(st.pos + 8, 4), (pos + 12, 2)] }

/-- The scan loop, lines 247-276: `j` records are visited. -/
def scanInfoTable (name : String) (soundModId encodedSize decodedSize : Int) (offset : Nat) :
    Nat → ScanState → Option ScanState
  | 0, st => some st
  | j + 1, st =>
    match scanRecord name soundModId encodedSize decodedSize offset st with
    | none => none
    | some st1 => scanInfoTable name soundModId encodedSize decodedSize offset j st1

/-- How the loop body ends for one mod file. -/
inductive Step
  /-- The loop goes on with the next mod file (`continue`, or the end of the body). -/
  | next (s : LoaderState)
  /-- The function returns at once (line 236). -/
  | returned (s : LoaderState)
  /-- An access outside the mapping. -/
  | fault

/-- Lines 207-284 of `LoadSoundMods` for a mod file that got through lines 121-205. -/
def patchContainer (w : World) (soundContainer : SoundContainer) (s : LoaderState)
    (name : String) (p : Prepared) : Step :=
  if w.resizeFails soundContainer.Path (newContainerSize s.mem p.FileBytes) = true then
    .returned { s with scratch := p.scratch,
                       output := s.output ++ [.resizeFailed soundContainer.Path] }
  else
    match growContainer s.mem p.FileBytes with
    | none => .fault
    | some mem =>
      match readU32 mem 4, readU32 mem 8 with
      | some infoSize, some headerSize =>
        match scanInfoTable name p.soundModId p.encodedSize p.decodedSize (soundModOffset s.mem)
            ((infoSize + 4294967296 - headerSize) % 4294967296 / 32)
            { mem := mem, pos := (headerSize + 12) % 4294967296, soundFound := false,
              format := p.format, output := s.output,
              stores := s.stores ++ [(soundModOffset s.mem, p.FileBytes.length)],
              loads := [] } with
        | none => .fault
        | some st =>
          if st.soundFound = false then
            .next { mem := st.mem, scratch := p.scratch,
                    output := st.output ++ [.soundNotFound p.soundModId soundContainer.Name],
                    fileCount := s.fileCount, stores := st.stores }
          else
            .next { mem := st.mem, scratch := p.scratch,
                    output := st.output ++ [.replaced p.soundModId name],
                    fileCount := s.fileCount + 1, stores := st.stores }
      | _, _ => .fault

/-- The loop body of `LoadSoundMods` (lines 121-284) for one mod file. -/
def processSoundMod (w : World) (soundContainer : SoundContainer) (s : LoaderState)
    (soundModFile : SoundModFile) : Step :=
  match prepareSoundMod w s.scratch soundModFile with
  | .skip line scratch => .next { s with scratch := scratch, output := s.output ++ [line] }
  | .ready p => patchContainer w soundContainer s soundModFile.Name p

/-- The loop of `LoadSoundMods` over the mod files; `none` after an access outside the
mapping. The flag tells whether the loop ran to its end (no `return` at line 236). -/
def loadLoop (w : World) (soundContainer : SoundContainer) :
    List SoundModFile → LoaderState → Option (LoaderState × Bool)
  | [], s => some (s, true)
  | f :: rest, s =>
    match processSoundMod w soundContainer s f with
    | .fault => none
    | .returned s1 => some (s1, false)
    | .next s1 => loadLoop w soundContainer rest s1

/-- The function `LoadSoundMods` (lines 113-291) on a container whose file and mapping are
`mem`: the state it leaves, `none` after an access outside the mapping. -/
def LoadSoundMods (w : World) (soundContainer : SoundContainer) (mem : List Byte)
    (scratch : Scratch) : Option LoaderState :=
  match loadLoop w soundContainer soundContainer.ModFileList
      { mem := mem, scratch := scratch, output := [], fileCount := 0, stores := [] } with
  | none => none
  | some (s, false) => some s
  | some (s, true) =>
    if 0 < s.fileCount then
      some { s with output := s.output ++ [.summary s.fileCount soundContainer.Path] }
    else some s

/-! ## The info table, read back

A sound container is laid out as a header, the info table (32-byte records) and the payloads.
The functions below read one record taken by itself, with the same offsets as the scan loop. -/

/-- The sound id of a record (bytes 8-11). -/
def recId (r : List Byte) : Nat := fromLE ((r.drop 8).take 4)

/-- The encoded size of a record (bytes 12-15). -/
def recEncodedSize (r : List Byte) : Nat := fromLE ((r.drop 12).take 4)

/-- The payload offset of a record (bytes 16-19). -/
def recOffset (r : List Byte) : Nat := fromLE ((r.drop 16).take 4)

/-- The decoded size of a record (bytes 20-23). -/
def recDecodedSize (r : List Byte) : Nat := fromLE ((r.drop 20).take 4)

/-- The format code of a record (bytes 24-25). -/
def recFormat (r : List Byte) : Nat := fromLE ((r.drop 24).take 2)

/-- What lines 254-263 make of one record: a record that carries the sound id gets the three
fields stored over its bytes 12-23, any other record is passed over. -/
def rewriteRecord (soundModId encodedSize decodedSize : Int) (offset : Nat) (r : List Byte) :
    List Byte :=
  if recId r = toUInt32 soundModId then
    r.take 12 ++ le32 (toUInt32 encodedSize) ++ le32 offset ++ le32 (toUInt32 decodedSize) ++
      r.drop 24
  else r

/-- The stores lines 261-263 make while the records of a table that starts at `pos` are
visited. -/
def fieldStores (soundModId : Int) : Nat → List (List Byte) → List (Nat × Nat)
  | _, [] => []
  | pos, r :: rs =>
    (if recId r = toUInt32 soundModId then [(pos + 12, 4), (pos + 16, 4), (pos + 20, 4)]
     else []) ++ fieldStores soundModId (pos + 32) rs

/-- The loads lines 251 and 267 make while the records of a table that starts at `pos` are
visited: the sound id of every record, the format code of the records that carry the id. -/
def fieldLoads (soundModId : Int) : Nat → List (List Byte) → List (Nat × Nat)
  | _, [] => []
  | pos, r :: rs =>
    (if recId r = toUInt32 soundModId then [(pos + 8, 4), (pos + 24, 2)]
     else [(pos + 8, 4)]) ++ fieldLoads soundModId (pos + 32) rs

/-- The layout the scan loop assumes: the file is the header `hdr`, then the records `recs` of
the info table, then `rest`; the header holds `infoSize` at byte 4 and `headerSize` at byte 8,
the table starts at `headerSize + 12` and has `(infoSize - headerSize) / 32` records (both
computed in `uint32_t`, as lines 245-247 do). -/
def SoundLayout (mem hdr : List Byte) (recs : List (List Byte)) (rest : List Byte) : Prop :=
  mem = hdr ++ recs.flatten ++ rest ∧
  12 ≤ hdr.length ∧
  hdr.length = (fromLE ((hdr.drop 8).take 4) + 12) % 4294967296 ∧
  recs.length =
    (fromLE ((hdr.drop 4).take 4) + 4294967296 - fromLE ((hdr.drop 8).take 4)) % 4294967296 / 32 ∧
  ∀ r ∈ recs, r.length = 32

/-- Whether a stem begins, after white space and an optional sign, with a decimal digit: the
stems `std::stoul` converts or rejects as out of range. -/
def startsWithNumber (s : List Char) : Bool :=
  match (stripSign (s.dropWhile isSpace)).2 with
  | [] => false
  | c :: _ => c.isDigit

/-! ## Sample data -/

/-- A record with the given fields, eight bytes `7` in front and six bytes `9` behind. -/
def demoRecord (id enc off dec fmt : Nat) : List Byte :=
  List.replicate 8 7 ++ le32 id ++ le32 enc ++ le32 off ++ le32 dec ++
    [byteOf fmt, byteOf (fmt / 256)] ++ List.replicate 6 9

/-- The header of the sample container: `infoSize = 96`, `headerSize = 0`. -/
def demoHeader : List Byte := le32 1 ++ le32 96 ++ le32 0

/-- The three records of the sample container: ids 5, 42 and 42. -/
def demoRecords : List (List Byte) :=
  [demoRecord 5 10 108 10 3, demoRecord 42 4 118 4 2, demoRecord 42 4 118 4 3]

/-- The payload area of the sample container. -/
def demoRest : List Byte := List.replicate 14 1

/-- A sample container of 122 bytes. -/
def demoMem : List Byte := demoHeader ++ demoRecords.flatten ++ demoRest

/-- A world where every call succeeds, `opusenc` leaves a three-byte `tmp.opus` and `opusdec`
a five-byte `tmp.wav`. -/
def demoWorld : World where
  fopenFails := fun _ _ => false
  fwriteCount := fun _ b => b.length
  freadCount := fun _ n => n
  system := fun c fs =>
    if c = opusencCommand then (0, fs.put "tmp.opus" [1, 2, 3])
    else (0, fs.put "tmp.wav" [1, 2, 3, 4, 5])
  resizeFails := fun _ _ => false

/-- An empty working directory, no command run yet. -/
def demoScratch : Scratch := { files := fun _ => none, commands := [] }

/-- The sample container without mod files. -/
def demoContainer : SoundContainer :=
  { Name := "sfx.snd", Path := "base/sfx.snd", ModFileList := [] }

/-- The loop state at the start of `LoadSoundMods` on the sample container. -/
def demoState : LoaderState :=
  { mem := demoMem, scratch := demoScratch, output := [], fileCount := 0, stores := [] }

/-- A sample mod file: five bytes of WEM audio for sound id 42. -/
def demoWem : SoundModFile := { Name := "foo_id#42.wem", FileBytes := [1, 2, 3, 4, 5] }

/-- The sample container with the mod file `demoWem`. -/
def demoContainerWem : SoundContainer :=
  { Name := "sfx.snd", Path := "base/sfx.snd", ModFileList := [demoWem] }

/-- A mod file named after its sound id. -/
def demo42Wav : SoundModFile := { Name := "42.wav", FileBytes := [1, 2] }

/-- A mod file with the sound id at the end of its name. -/
def demoIdOgg : SoundModFile := { Name := "foo_bar_id#42.ogg", FileBytes := [3, 3] }

/-- A mod file named after the largest 4-byte sound id. -/
def demoMaxId : SoundModFile := { Name := "4294967295.wav", FileBytes := [1, 2] }

/-- A mod file for sound id 9, which no record of the sample container carries. -/
def demo9Wem : SoundModFile := { Name := "9.wem", FileBytes := [1, 2] }

/-- What lines 121-205 make of `demo9Wem`. -/
def demo9WemPrepared : Prepared :=
  { soundModId := 9, FileBytes := [1, 2], encodedSize := 2, decodedSize := 2, format := 3,
    scratch := demoScratch }

/-- A first mod file for sound id 42 (lower priority, earlier in the list). -/
def demoA : SoundModFile := { Name := "42.wem", FileBytes := [1, 2, 3] }

/-- A second mod file for sound id 42 (higher priority, later in the list). -/
def demoB : SoundModFile := { Name := "x_id#42.wem", FileBytes := [4, 5] }

/-- A world where every call succeeds except the external tools, which exit with status 1 and
leave the files as they are. -/
def demoFailingWorld : World where
  fopenFails := fun _ _ => false
  fwriteCount := fun _ b => b.length
  freadCount := fun _ n => n
  system := fun _ fs => (1, fs)
  resizeFails := fun _ _ => false

/-- Line 242 of `LoadSoundMods`: the `uint32_t infoSize` read at `mem + 4`. -/
def infoSizeOf (mem : List Byte) : Nat := fromLE ((mem.drop 4).take 4)

/-- Line 243 of `LoadSoundMods`: the `uint32_t headerSize` read at `mem + 8`. -/
def headerSizeOf (mem : List Byte) : Nat := fromLE ((mem.drop 8).take 4)

/-- A container image of 44 bytes whose header has `infoSize = 0` and `headerSize = 32`. -/
def wrapMem : List Byte := le32 1 ++ le32 0 ++ le32 32 ++ List.replicate 32 0

/-- The three records of the 1000-byte sample: ids 5, 42 and 7; record #2 has a 50-byte
payload at offset 950. -/
def sampleRecords : List (List Byte) :=
  [demoRecord 5 10 108 10 3, demoRecord 42 50 950 50 3, demoRecord 7 20 930 20 3]

/-- The payload area of the 1000-byte sample. -/
def sampleRest : List Byte := List.replicate 892 0

/-- A sample container of 1000 bytes with three records. -/
def sampleMem : List Byte := demoHeader ++ sampleRecords.flatten ++ sampleRest

/-- A mod file of 100 bytes of WEM audio for sound id 42. -/
def sampleWem : SoundModFile := { Name := "42.wem", FileBytes := List.replicate 100 7 }

/-- The 1000-byte sample with the mod file `sampleWem`. -/
def sampleContainer : SoundContainer :=
  { Name := "sfx.snd", Path := "base/sfx.snd", ModFileList := [sampleWem] }

/-! ## `main`: the start of a run (lines 62-159 of `EternalModLoader.cpp`) -/

/-- Modelled from the spec: `ResourceDataEntry`, declared in `EternalModLoader.hpp` outside the
files at hand. The spec gives a catalog entry as "content hash → {type name, stream-kind
tag}". -/
structure ResourceDataEntry where
  typeName : String
  streamTag : Nat
  deriving DecidableEq

/-- The constant `Version`. -/
def Version : Int := 9

/-- The constant `ResourceDataFileName`. -/
def ResourceDataFileName : String := "rs_data"

/-- The global `Separator` (`std::filesystem::path::preferred_separator`, non-`_WIN32`). -/
def Separator : String := "/"

/-- What `main` asks of the file system and of `ParseResourceData`, which is defined outside
the files at hand. -/
structure MainEnv where
  /-- The call `std::filesystem::exists(path)`. -/
  pathExists : String → Bool
  /-- The call `ParseResourceData(path)`: the map it returns, `none` when it throws. -/
  ParseResourceData : String → Option (List (Nat × ResourceDataEntry))

/-- The lines `main` prints in lines 62-159. -/
inductive MainLine
  /-- The usage text (lines 78-87). -/
  | usage (argv0 : String)
  /-- The version number (line 93). -/
  | version (v : Int)
  /-- The line "ERROR: Game directory does not exist!". -/
  | gameDirectoryMissing
  /-- The line "INFO: Verbose logging is enabled." -/
  | verboseEnabled
  /-- The line "INFO: Slow mod loading mode is enabled." -/
  | slowModeEnabled
  /-- The line "INFO: Texture compression is enabled." -/
  | textureCompressionEnabled
  /-- The line "INFO: Multi-threading is disabled." -/
  | multiThreadingDisabled
  /-- The line "ERROR: Unknown argument: ...". -/
  | unknownArgument (arg : String)
  /-- The line "ERROR: Failed to parse rs_data". -/
  | parseFailed (file : String)
  /-- The line "WARNING: rs_data was not found! There will be issues ...". -/
  | resourceDataNotFound (file : String)
  deriving DecidableEq

/-- The globals and locals of `main` that lines 97-159 set. -/
structure MainState where
  BasePath : String
  listResources : Bool
  Verbose : Bool
  SlowMode : Bool
  CompressTextures : Bool
  MultiThreading : Bool
  ResourceDataMap : List (Nat × ResourceDataEntry)
  /-- The lines printed so far, oldest first. -/
  output : List MainLine
  deriving DecidableEq

/-- The globals as initialised at lines 38-45, with `BasePath` as set at line 97. -/
def initialMainState (BasePath : String) : MainState :=
  { BasePath := BasePath, listResources := false, Verbose := false, SlowMode := false,
    CompressTextures := false, MultiThreading := true, ResourceDataMap := [], output := [] }

/-- Lines 107-133 of `main`: the loop over `argv[2]`, `argv[3]`, ...; `error` carries the
state at the `return 1` of line 130. -/
def parseArguments : List String → MainState → Except MainState MainState
  | [], st => .ok st
  | a :: rest, st =>
    if a = "--list-res" then parseArguments rest { st with listResources := true }
    else if a = "--verbose" then
      parseArguments rest { st with Verbose := true, output := st.output ++ [.verboseEnabled] }
    else if a = "--slow" then
      parseArguments rest { st with SlowMode := true, output := st.output ++ [.slowModeEnabled] }
    else if a = "--compress-textures" then
      parseArguments rest { st with CompressTextures := true,
                                    output := st.output ++ [.textureCompressionEnabled] }
    else if a = "--disable-multithreading" then
      parseArguments rest { st with MultiThreading := false,
                                    output := st.output ++ [.multiThreadingDisabled] }
    else .error { st with output := st.output ++ [.unknownArgument a] }

/-- Lines 139-159 of `main`: the catalog `rs_data` is parsed unless the run only lists
resources. -/
def loadResourceData (env : MainEnv) (st : MainState) : MainState :=
  if st.listResources = false then
    if env.pathExists (st.BasePath ++ ResourceDataFileName) = true then
      match env.ParseResourceData (st.BasePath ++ ResourceDataFileName) with
      | some parsed =>
        if parsed.isEmpty = true then
          { st with ResourceDataMap := parsed,
                    output := st.output ++ [.parseFailed ResourceDataFileName] }
        else { st with ResourceDataMap := parsed }
      | none => { st with output := st.output ++ [.parseFailed ResourceDataFileName] }
    else if st.Verbose = true then
      { st with output := st.output ++ [.resourceDataNotFound ResourceDataFileName] }
    else st
  else st

/-- How lines 62-159 of `main` end. -/
inductive MainResult
  /-- A `return` with the given exit code. -/
  | exit (code : Int) (output : List MainLine)
  /-- The run goes on to mod discovery (line 161) and patching with this state. -/
  | findMods (st : MainState)
  deriving DecidableEq

/-- Lines 62-159 of `main`, for `argv[0]` and the remaining arguments. -/
def main (env : MainEnv) (argv0 : String) (args : List String) : MainResult :=
  match args with
  | [] => .exit 1 [.usage argv0]
  | arg1 :: rest =>
    if arg1 = "--version" then .exit Version [.version Version]
    else if env.pathExists (arg1 ++ Separator ++ "base" ++ Separator) = false then
      .exit 1 [.gameDirectoryMissing]
    else
      match parseArguments rest (initialMainState (arg1 ++ Separator ++ "base" ++ Separator)) with
      | .error st => .exit 1 st.output
      | .ok st => .findMods (loadResourceData env st)

/-- A game directory `/game` whose `base` folder exists and holds no `rs_data`. -/
def demoMainEnv : MainEnv :=
  { pathExists := fun p => p = "/game/base/", ParseResourceData := fun _ => none }

/-- A game directory `/game` whose `rs_data` exists and cannot be parsed. -/
def demoCorruptEnv : MainEnv :=
  { pathExists := fun _ => true, ParseResourceData := fun _ => none }

/-! ### Sample data beyond 4 GiB -/

/-- The payload area of a container of `2^32 + 44` bytes. -/
def cutRest : List Byte := List.replicate 4294967232 0

/-- A container of `2^32 + 44` bytes: the header and the three records of the sample, then
`2^32 - 64` bytes of payloads. Its length modulo `2^32` is `44`, the end of the first
record. -/
def cutMem : List Byte := demoHeader ++ demoRecords.flatten ++ cutRest

/-- A mod file of 64 bytes for sound id 9, which no record of the sample carries. -/
def demo9Long : SoundModFile := { Name := "9.wem", FileBytes := List.replicate 64 7 }

/-- A mod file of 64 bytes for sound id 42 whose bytes 8-11 read as the number 42. -/
def demo42Long : SoundModFile :=
  { Name := "42.wem", FileBytes := List.replicate 8 7 ++ le32 42 ++ List.replicate 52 7 }

/-- A mod file of one byte for sound id 9. -/
def demo9Short : SoundModFile := { Name := "9.wem", FileBytes := [1] }

/-- The container `sfx.snd` with the mod file `demo9Long`. -/
def demoContainer9Long : SoundContainer :=
  { Name := "sfx.snd", Path := "base/sfx.snd", ModFileList := [demo9Long] }

/-- The container `sfx.snd` with the mod file `demo42Long`. -/
def demoContainer42Long : SoundContainer :=
  { Name := "sfx.snd", Path := "base/sfx.snd", ModFileList := [demo42Long] }

/-- The container `sfx.snd` with the mod file `demo9Short`. -/
def demoContainer9Short : SoundContainer :=
  { Name := "sfx.snd", Path := "base/sfx.snd", ModFileList := [demo9Short] }

/-- The sample container with the mod files `demoA`, `demo9Wem` and `demoB`, in this order:
between the two mod files for sound id 42 comes one for sound id 9. -/
def demoContainerA9B : SoundContainer :=
  { Name := "sfx.snd", Path := "base/sfx.snd", ModFileList := [demoA, demo9Wem, demoB] }

/-- The sample container with three mod files for sound id 42: `demoA`, `demoB` and
`demoWem`, in this order. -/
def demoContainerABW : SoundContainer :=
  { Name := "sfx.snd", Path := "base/sfx.snd", ModFileList := [demoA, demoB, demoWem] }

/-- Modelled from the spec: the values of the JSON library `jsonxx`, which lies outside the
files at hand; the spec calls it "a generic JSON text representation" and gives the file as
JSON `{files:[{name}], mapFileRefs:[{file,map}], maps:[{name}]}`. An object is given by its
members. `jsonxx::Number` is a floating-point type; its values are modelled by rationals (the
numbers `Dump` writes are `int32_t` values, which every floating-point type of C++ holds
exactly). -/
inductive Json
  | null
  | bool (b : Bool)
  | number (n : ℚ)
  | string (s : String)
  | array (items : List Json)
  | object (members : List (String × Json))

/-- The member stored under a key, if any. -/
def objectGet : List (String × Json) → String → Option Json
  | [], _ => none
  | (k, v) :: ms, key => if k = key then some v else objectGet ms key

/-- The statement `object << key << value`: the member is added, or replaced when the key is
there already. -/
def objectPut : List (String × Json) → String → Json → List (String × Json)
  | [], key, v => [(key, v)]
  | (k, x) :: ms, key, v => if k = key then (k, v) :: ms else (k, x) :: objectPut ms key v

/-- The call `object.get<jsonxx::Array>(key)`; `none` stands for the failed assertion when the
member is missing or no array. -/
def getArray (members : List (String × Json)) (key : String) : Option (List Json) :=
  match objectGet members key with
  | some (.array items) => some items
  | _ => none

/-- The call `object.get<jsonxx::String>(key)`. -/
def getString (members : List (String × Json)) (key : String) : Option String :=
  match objectGet members key with
  | some (.string s) => some s
  | _ => none

/-- The call `object.get<jsonxx::Number>(key)`. -/
def getNumber (members : List (String × Json)) (key : String) : Option ℚ :=
  match objectGet members key with
  | some (.number n) => some n
  | _ => none

/-! ### Modelled from the spec: JSON text

The text side of `jsonxx` (`Object::json()`, `Object::parse`) lies outside the files at hand.
It is modelled as JSON text: objects, arrays, strings with escapes, decimal numbers, the
literals `true`, `false` and `null`, white space between the tokens. -/

/-- Modelled from the spec: a hexadecimal digit of an escape. -/
def hexDigit (n : Nat) : Char :=
  if n < 10 then Char.ofNat (48 + n) else Char.ofNat (87 + n)

/-- Modelled from the spec: one character of a JSON string as written: the quote, the reverse
solidus and the control characters are escaped. -/
def escapeChar (c : Char) : List Char :=
  if c = '"' then ['\\', '"']
  else if c = '\\' then ['\\', '\\']
  else if c.toNat < 32 then
    ['\\', 'u', '0', '0', hexDigit (c.toNat / 16), hexDigit (c.toNat % 16)]
  else [c]

/-- Modelled from the spec: the characters of a JSON string as written, between the quotes. -/
def escapeString : List Char → List Char
  | [] => []
  | c :: cs => escapeChar c ++ escapeString cs

/-- The first `k` decimals of `r / d`, for `r < d`. -/
def fractionDigits : Nat → Nat → Nat → List Char
  | 0, _, _ => []
  | k + 1, r, d => Nat.digitChar (10 * r / d) :: fractionDigits k (10 * r % d) d

/-- Modelled from the spec: a JSON number as written: an integer by its decimal digits, any
other number with six decimals. -/
def printNumber (q : ℚ) : List Char :=
  (if q.num < 0 then ['-'] else []) ++ Nat.toDigits 10 (q.num.natAbs / q.den) ++
    (if q.den = 1 then [] else '.' :: fractionDigits 6 (q.num.natAbs % q.den) q.den)

mutual
/-- Modelled from the spec: the text of a JSON value, without white space. -/
def printJson : Json → List Char
  | .null => ['n', 'u', 'l', 'l']
  | .bool b => if b then ['t', 'r', 'u', 'e'] else ['f', 'a', 'l', 's', 'e']
  | .number q => printNumber q
  | .string s => '"' :: escapeString s.toList ++ ['"']
  | .array [] => ['[', ']']
  | .array (v :: vs) => '[' :: printJson v ++ printItemsTail vs
  | .object [] => ['{', '}']
  | .object ((k, v) :: ms) =>
    '{' :: '"' :: escapeString k.toList ++ '"' :: ':' :: printJson v ++ printMembersTail ms
/-- The text of the elements of an array after the first one, with the closing bracket. -/
def printItemsTail : List Json → List Char
  | [] => [']']
  | v :: vs => ',' :: printJson v ++ printItemsTail vs
/-- The text of the members of an object after the first one, with the closing brace. -/
def printMembersTail : List (String × Json) → List Char
  | [] => ['}']
  | (k, v) :: ms =>
    ',' :: '"' :: escapeString k.toList ++ '"' :: ':' :: printJson v ++ printMembersTail ms
end

/-- Modelled from the spec: the call `Object::json()`. -/
def objectJson (members : List (String × Json)) : String :=
  String.mk (printJson (.object members))

/-- Modelled from the spec: JSON white space. -/
def isWhitespace (c : Char) : Bool :=
  c = ' ' || c = '\t' || c = '\n' || c = '\r'

/-- Skips white space. -/
def skipWhitespace (cs : List Char) : List Char := cs.dropWhile isWhitespace

/-- Value of a hexadecimal digit. -/
def hexValue (c : Char) : Option Nat :=
  if c.isDigit then some (c.toNat - 48)
  else if 97 ≤ c.toNat ∧ c.toNat ≤ 102 then some (c.toNat - 87)
  else if 65 ≤ c.toNat ∧ c.toNat ≤ 70 then some (c.toNat - 55)
  else none

/-- The character a one-letter escape stands for. -/
def unescapeChar (c : Char) : Option Char :=
  if c = '"' then some '"'
  else if c = '\\' then some '\\'
  else if c = '/' then some '/'
  else if c = 'b' then some '\x08'
  else if c = 'f' then some '\x0c'
  else if c = 'n' then some '\n'
  else if c = 'r' then some '\r'
  else if c = 't' then some '\t'
  else none

/-- Modelled from the spec: reads a JSON string after its opening quote: the characters up to
the closing quote, escapes resolved, and the text that follows. -/
def parseStringBody : List Char → Option (List Char × List Char)
  | [] => none
  | c :: rest =>
    if c = '"' then some ([], rest)
    else if c = '\\' then
      match rest with
      | [] => none
      | e :: rest1 =>
        if e = 'u' then
          match rest1 with
          | h1 :: h2 :: h3 :: h4 :: rest2 =>
            match hexValue h1, hexValue h2, hexValue h3, hexValue h4 with
            | some a, some b, some c1, some d =>
              (parseStringBody rest2).map
                (fun r => (Char.ofNat (4096 * a + 256 * b + 16 * c1 + d) :: r.1, r.2))
            | _, _, _, _ => none
          | _ => none
        else
          match unescapeChar e with
          | some x => (parseStringBody rest1).map (fun r => (x :: r.1, r.2))
          | none => none
    else (parseStringBody rest).map (fun r => (c :: r.1, r.2))

/-- Modelled from the spec: reads a JSON number without sign: decimal digits and an optional
fraction. -/
def parseUnsigned (cs : List Char) : Option (ℚ × List Char) :=
  if cs.takeWhile Char.isDigit = [] then none
  else
    match cs.dropWhile Char.isDigit with
    | [] => some ((decimalValue (cs.takeWhile Char.isDigit) : ℚ), [])
    | c :: r =>
      if c = '.' then
        some ((decimalValue (cs.takeWhile Char.isDigit) : ℚ) +
            (decimalValue (r.takeWhile Char.isDigit) : ℚ) /
              10 ^ (r.takeWhile Char.isDigit).length,
          r.dropWhile Char.isDigit)
      else some ((decimalValue (cs.takeWhile Char.isDigit) : ℚ), c :: r)

/-- Modelled from the spec: reads a JSON number: an optional minus sign, decimal digits, an
optional fraction. -/
def parseNumber : List Char → Option (ℚ × List Char)
  | [] => none
  | c :: cs =>
    if c = '-' then (parseUnsigned cs).map (fun r => (-r.1, r.2))
    else parseUnsigned (c :: cs)

mutual
/-- Modelled from the spec: reads one JSON value and returns it with the text that follows;
`fuel` bounds the number of nested and consecutive values. -/
def parseValue : Nat → List Char → Option (Json × List Char)
  | 0, _ => none
  | fuel + 1, cs =>
    match skipWhitespace cs with
    | [] => none
    | c :: rest =>
      if c = '"' then
        (parseStringBody rest).map (fun r => (Json.string (String.mk r.1), r.2))
      else if c = '[' then
        match skipWhitespace rest with
        | [] => none
        | c1 :: rest1 =>
          if c1 = ']' then some (.array [], rest1)
          else
            match parseValue fuel (c1 :: rest1) with
            | none => none
            | some (v, rest2) =>
              (parseItemsTail fuel rest2).map (fun r => (Json.array (v :: r.1), r.2))
      else if c = '{' then
        match skipWhitespace rest with
        | [] => none
        | c1 :: rest1 =>
          if c1 = '}' then some (.object [], rest1)
          else
            (parseMembers fuel (c1 :: rest1)).map
              (fun r => (Json.object (r.1.foldl (fun acc m => objectPut acc m.1 m.2) []), r.2))
      else if (c :: rest).take 4 = ['t', 'r', 'u', 'e'] then some (.bool true, rest.drop 3)
      else if (c :: rest).take 5 = ['f', 'a', 'l', 's', 'e'] then
        some (.bool false, rest.drop 4)
      else if (c :: rest).take 4 = ['n', 'u', 'l', 'l'] then some (.null, rest.drop 3)
      else (parseNumber (c :: rest)).map (fun r => (Json.number r.1, r.2))
/-- Reads what follows an element of an array: the closing bracket, or a comma and the
elements that remain. -/
def parseItemsTail : Nat → List Char → Option (List Json × List Char)
  | 0, _ => none
  | fuel + 1, cs =>
    match skipWhitespace cs with
    | [] => none
    | c :: rest =>
      if c = ']' then some ([], rest)
      else if c = ',' then
        match parseValue fuel rest with
        | none => none
        | some (v, rest1) => (parseItemsTail fuel rest1).map (fun r => (v :: r.1, r.2))
      else none
/-- Reads the members of an object up to the closing brace. -/
def parseMembers : Nat → List Char → Option (List (String × Json) × List Char)
  | 0, _ => none
  | fuel + 1, cs =>
    match skipWhitespace cs with
    | [] => none
    | c :: rest =>
      if c = '"' then
        match parseStringBody rest with
        | none => none
        | some (key, rest1) =>
          match skipWhitespace rest1 with
          | [] => none
          | c1 :: rest2 =>
            if c1 = ':' then
              match parseValue fuel rest2 with
              | none => none
              | some (v, rest3) =>
                match skipWhitespace rest3 with
                | [] => none
                | c2 :: rest4 =>
                  if c2 = '}' then some ([(String.mk key, v)], rest4)
                  else if c2 = ',' then
                    (parseMembers fuel rest4).map
                      (fun r => ((String.mk key, v) :: r.1, r.2))
                  else none
            else none
      else none
end

/-- Modelled from the spec: the call `Object::parse(text)`: the members read, `none` when it
returns `false`. The fuel never runs out: every value takes at least one character. -/
def objectParse (text : String) : Option (List (String × Json)) :=
  match parseValue (text.length + 1) text.toList with
  | some (.object members, rest) => if skipWhitespace rest = [] then some members else none
  | _ => none

/-- The value `v`, as `printJson` writes it, is read back by `parseValue` with any fuel from `e`
on, whatever follows it, as long as that is not the continuation of a number. -/
def Reads (e : Nat) (v : Json) : Prop :=
  (∃ (d : Char) (t : List Char), printJson v = d :: t ∧ isWhitespace d = false ∧ d ≠ ']') ∧
  ∀ fuel, e ≤ fuel → ∀ rest : List Char,
    (∀ c ∈ rest.head?, c.isDigit = false ∧ c ≠ '.') →
    parseValue fuel (printJson v ++ rest) = some (v, rest)

/-- Modelled from the spec: `PackageMapSpecFile`, declared in `PackageMapSpec.hpp` outside the
files at hand; the spec has `files:[{name}]`. -/
structure PackageMapSpecFile where
  Name : String
  deriving DecidableEq

/-- Modelled from the spec: `PackageMapSpecMapFileRef`, declared in `PackageMapSpec.hpp`; the
spec has `mapFileRefs:[{file,map}]`, two `int32_t` indices. -/
structure PackageMapSpecMapFileRef where
  File : Int
  Map : Int
  deriving DecidableEq

/-- Modelled from the spec: `PackageMapSpecMap`, declared in `PackageMapSpec.hpp`; the spec has
`maps:[{name}]`. -/
structure PackageMapSpecMap where
  Name : String
  deriving DecidableEq

/-- Modelled from the spec: the members `Files`, `MapFileRefs`, `Maps` of the class
`PackageMapSpec`, declared in `PackageMapSpec.hpp`. -/
structure PackageMapSpec where
  Files : List PackageMapSpecFile
  MapFileRefs : List PackageMapSpecMapFileRef
  Maps : List PackageMapSpecMap
  deriving DecidableEq

/-- Conversion of a floating-point value to `int32_t` (lines 51-52): the fraction is dropped
(rounding toward zero); a value that does not fit is undefined behaviour in the source and is
`none` here. -/
def numberToInt32 (q : ℚ) : Option Int :=
  let truncated : Int :=
    if 0 ≤ q.num then q.num / (q.den : Int) else -((-q.num) / (q.den : Int))
  if -2147483648 ≤ truncated ∧ truncated ≤ 2147483647 then some truncated else none

/-- Lines 39-43 of the constructor: one `PackageMapSpecFile` per element of `files`. -/
def readFiles : List Json → Option (List PackageMapSpecFile)
  | [] => some []
  | .object file :: rest =>
    match getString file "name", readFiles rest with
    | some name, some files => some ({ Name := name } :: files)
    | _, _ => none
  | _ :: _ => none

/-- Lines 49-54 of the constructor: one `PackageMapSpecMapFileRef` per element of
`mapFileRefs`; the numbers are converted to `int32_t`. -/
def readMapFileRefs : List Json → Option (List PackageMapSpecMapFileRef)
  | [] => some []
  | .object mapFileRef :: rest =>
    match getNumber mapFileRef "file", getNumber mapFileRef "map", readMapFileRefs rest with
    | some file, some map, some refs =>
      match numberToInt32 file, numberToInt32 map with
      | some File, some Map => some ({ File := File, Map := Map } :: refs)
      | _, _ => none
    | _, _, _ => none
  | _ :: _ => none

/-- Lines 60-64 of the constructor: one `PackageMapSpecMap` per element of `maps`. -/
def readMaps : List Json → Option (List PackageMapSpecMap)
  | [] => some []
  | .object map :: rest =>
    match getString map "name", readMaps rest with
    | some name, some maps => some ({ Name := name } :: maps)
    | _, _ => none
  | _ :: _ => none

/-- The constructor `PackageMapSpec::PackageMapSpec(json)` (lines 30-65); `none` when an
assertion of `jsonxx` fails or a conversion is undefined. The result of `parse` is not tested:
after a failed parse the object is empty. -/
def PackageMapSpec.fromJson (json : String) : Option PackageMapSpec :=
  let packageMapSpecJson := (objectParse json).getD []
  match getArray packageMapSpecJson "files" with
  | none => none
  | some files =>
    match readFiles files with
    | none => none
    | some Files =>
      match getArray packageMapSpecJson "mapFileRefs" with
      | none => none
      | some mapFileRefs =>
        match readMapFileRefs mapFileRefs with
        | none => none
        | some MapFileRefs =>
          match getArray packageMapSpecJson "maps" with
          | none => none
          | some maps =>
            match readMaps maps with
            | none => none
            | some Maps => some { Files := Files, MapFileRefs := MapFileRefs, Maps := Maps }

/-- Lines 74-100 of `PackageMapSpec::Dump`: the object that is handed to `json()`. -/
def PackageMapSpec.dumpObject (p : PackageMapSpec) : List (String × Json) :=
  let files := p.Files.map (fun file => Json.object (objectPut [] "name" (.string file.Name)))
  let mapFileRefs := p.MapFileRefs.map (fun mapFileRef =>
    Json.object (objectPut (objectPut [] "file" (.number mapFileRef.File)) "map"
      (.number mapFileRef.Map)))
  let maps := p.Maps.map (fun map => Json.object (objectPut [] "name" (.string map.Name)))
  objectPut (objectPut (objectPut [] "files" (.array files)) "mapFileRefs" (.array mapFileRefs))
    "maps" (.array maps)

/-- The function `PackageMapSpec::Dump` (lines 72-103). -/
def PackageMapSpec.Dump (p : PackageMapSpec) : String :=
  objectJson p.dumpObject

/-- A sample `PackageMapSpec`; the second file name holds a quote, a reverse solidus and a
line feed. -/
def demoPackageMapSpec : PackageMapSpec :=
  { Files := [{ Name := "gameresources.resources" }, { Name := "e1\"m1\\intro\n.resources" }],
    MapFileRefs := [{ File := 0, Map := 0 }, { File := 1, Map := 1 },
      { File := -2147483648, Map := 2147483647 }],
    Maps := [{ Name := "common" }, { Name := "game/sp/e1m1_intro/e1m1_intro" }] }

/-! ## Bytes and integers: lemmas -/

theorem toUInt32_toInt32 (x : Int) : toUInt32 (toInt32 x) = toUInt32 x := by
  unfold toUInt32 toInt32; omega

theorem toUInt32_natCast (n : Nat) : toUInt32 (n : Int) = n % 4294967296 := by
  unfold toUInt32; omega

theorem toUInt32_lt (x : Int) : toUInt32 x < 4294967296 := by
  unfold toUInt32; omega

theorem fromLE_le32 (v : Nat) : fromLE (le32 v) = v % 4294967296 := by
  simp [le32, fromLE, byteOf]; omega

theorem le32_length (v : Nat) : (le32 v).length = 4 := rfl

theorem readBytes_mid (pre r post : List Byte) (k n : Nat) (h : k + n ≤ r.length) :
    readBytes (pre ++ r ++ post) (pre.length + k) n = some ((r.drop k).take n) := by
  unfold readBytes
  rw [if_pos (by simp only [List.length_append]; omega)]
  rw [List.append_assoc, List.drop_append, List.drop_append_of_le_length (by omega),
    List.take_append_of_le_length (by simp only [List.length_drop]; omega)]

theorem writeBytes_mid (pre r post bs : List Byte) (k : Nat) (h : k + bs.length ≤ r.length) :
    writeBytes (pre ++ r ++ post) (pre.length + k) bs =
      some (pre ++ (r.take k ++ bs ++ r.drop (k + bs.length)) ++ post) := by
  unfold writeBytes
  rw [if_pos (by simp only [List.length_append]; omega)]
  rw [List.append_assoc pre r post, List.take_append, List.take_append_of_le_length (by omega),
    Nat.add_assoc, List.drop_append, List.drop_append_of_le_length (by omega)]
  simp only [List.append_assoc]

/-! ## One record, the whole table -/

theorem record_cases (r : List Byte) (h : r.length = 32) :
    ∃ b0 b1 b2 b3 b4 b5 b6 b7 b8 b9 b10 b11 b12 b13 b14 b15 b16 b17 b18 b19 b20 b21 b22 b23 b24 b25 b26 b27 b28 b29 b30 b31 : Byte, r = [b0, b1, b2, b3, b4, b5, b6, b7, b8, b9, b10, b11, b12, b13, b14, b15, b16, b17, b18, b19, b20, b21, b22, b23, b24, b25, b26, b27, b28, b29, b30, b31] := by
  rcases r with _ | ⟨b0, _ | ⟨b1, _ | ⟨b2, _ | ⟨b3, _ | ⟨b4, _ | ⟨b5, _ | ⟨b6, _ | ⟨b7, _ | ⟨b8, _ | ⟨b9, _ | ⟨b10, _ | ⟨b11, _ | ⟨b12, _ | ⟨b13, _ | ⟨b14, _ | ⟨b15, _ | ⟨b16, _ | ⟨b17, _ | ⟨b18, _ | ⟨b19, _ | ⟨b20, _ | ⟨b21, _ | ⟨b22, _ | ⟨b23, _ | ⟨b24, _ | ⟨b25, _ | ⟨b26, _ | ⟨b27, _ | ⟨b28, _ | ⟨b29, _ | ⟨b30, _ | ⟨b31, _ | ⟨_, _⟩⟩⟩⟩⟩⟩⟩⟩⟩⟩⟩⟩⟩⟩⟩⟩⟩⟩⟩⟩⟩⟩⟩⟩⟩⟩⟩⟩⟩⟩⟩⟩⟩ <;> simp at h
  exact ⟨b0, b1, b2, b3, b4, b5, b6, b7, b8, b9, b10, b11, b12, b13, b14, b15, b16, b17, b18, b19, b20, b21, b22, b23, b24, b25, b26, b27, b28, b29, b30, b31, rfl⟩

theorem field_cases (a : List Byte) (h : a.length = 4) :
    ∃ a0 a1 a2 a3 : Byte, a = [a0, a1, a2, a3] := by
  rcases a with _ | ⟨a0, _ | ⟨a1, _ | ⟨a2, _ | ⟨a3, _ | ⟨_, _⟩⟩⟩⟩⟩ <;> simp at h
  exact ⟨a0, a1, a2, a3, rfl⟩

/-- Three 4-byte stores at bytes 12, 16 and 20 of a record, one after the other. -/
theorem three_stores (r a b c : List Byte) (hr : r.length = 32) (ha : a.length = 4)
    (hb : b.length = 4) (hc : c.length = 4) :
    (r.take 12 ++ a ++ r.drop (12 + a.length)).length = 32 ∧
    ((r.take 12 ++ a ++ r.drop (12 + a.length)).take 16 ++ b ++
      (r.take 12 ++ a ++ r.drop (12 + a.length)).drop (16 + b.length)).length = 32 ∧
    (((r.take 12 ++ a ++ r.drop (12 + a.length)).take 16 ++ b ++
      (r.take 12 ++ a ++ r.drop (12 + a.length)).drop (16 + b.length)).take 20 ++ c ++
      ((r.take 12 ++ a ++ r.drop (12 + a.length)).take 16 ++ b ++
      (r.take 12 ++ a ++ r.drop (12 + a.length)).drop (16 + b.length)).drop (20 + c.length)) =
      r.take 12 ++ a ++ b ++ c ++ r.drop 24 := by
  obtain ⟨b0, b1, b2, b3, b4, b5, b6, b7, b8, b9, b10, b11, b12, b13, b14, b15, b16, b17, b18, b19, b20, b21, b22, b23, b24, b25, b26, b27, b28, b29, b30, b31, rfl⟩ := record_cases r hr
  obtain ⟨a0, a1, a2, a3, rfl⟩ := field_cases a ha
  obtain ⟨c0, c1, c2, c3, rfl⟩ := field_cases b hb
  obtain ⟨d0, d1, d2, d3, rfl⟩ := field_cases c hc
  exact ⟨rfl, rfl, rfl⟩

theorem rewritten_tail (r a b c : List Byte) (hr : r.length = 32) (ha : a.length = 4)
    (hb : b.length = 4) (hc : c.length = 4) :
    (r.take 12 ++ a ++ b ++ c ++ r.drop 24).length = 32 ∧
    (r.take 12 ++ a ++ b ++ c ++ r.drop 24).drop 24 = r.drop 24 ∧
    (r.take 12 ++ a ++ b ++ c ++ r.drop 24).take 12 = r.take 12 ∧
    ((r.take 12 ++ a ++ b ++ c ++ r.drop 24).drop 12).take 4 = a ∧
    ((r.take 12 ++ a ++ b ++ c ++ r.drop 24).drop 16).take 4 = b ∧
    ((r.take 12 ++ a ++ b ++ c ++ r.drop 24).drop 20).take 4 = c := by
  obtain ⟨b0, b1, b2, b3, b4, b5, b6, b7, b8, b9, b10, b11, b12, b13, b14, b15, b16, b17, b18, b19, b20, b21, b22, b23, b24, b25, b26, b27, b28, b29, b30, b31, rfl⟩ := record_cases r hr
  obtain ⟨a0, a1, a2, a3, rfl⟩ := field_cases a ha
  obtain ⟨c0, c1, c2, c3, rfl⟩ := field_cases b hb
  obtain ⟨d0, d1, d2, d3, rfl⟩ := field_cases c hc
  exact ⟨rfl, rfl, rfl, rfl, rfl, rfl⟩

theorem scanRecord_mid (name : String) (id e d : Int) (off : Nat) (pre r post : List Byte)
    (hr : r.length = 32) (b : Bool) (f : Int) (o : List Output) (t ld : List (Nat × Nat)) :
    ∃ f' o', scanRecord name id e d off
        { mem := pre ++ r ++ post, pos := pre.length, soundFound := b, format := f,
          output := o, stores := t, loads := ld } =
      some { mem := pre ++ rewriteRecord id e d off r ++ post, pos := pre.length + 32,
             soundFound := b || decide (recId r = toUInt32 id), format := f',
             output := o ++ o',
             stores := t ++ (if recId r = toUInt32 id then
               [(pre.length + 12, 4), (pre.length + 16, 4), (pre.length + 20, 4)] else []),
             loads := ld ++ (if recId r = toUInt32 id then
               [(pre.length + 8, 4), (pre.length + 24, 2)] else [(pre.length + 8, 4)]) } ∧
      (∀ l ∈ o', l.isWarning = true ∨ l = Output.mightNotWork) ∧
      (recId r ≠ toUInt32 id → o' = [] ∧ f' = f) := by
  unfold scanRecord
  simp only [readU32, readBytes_mid pre r post 8 4 (by omega), Option.map_some']
  by_cases hid : recId r = toUInt32 id
  · have hid' : fromLE ((r.drop 8).take 4) = toUInt32 id := hid
    obtain ⟨h1, h2, h3⟩ := three_stores r (le32 (toUInt32 e)) (le32 off) (le32 (toUInt32 d)) hr
      rfl rfl rfl
    obtain ⟨h4, h5, -⟩ := rewritten_tail r (le32 (toUInt32 e)) (le32 off) (le32 (toUInt32 d)) hr
      rfl rfl rfl
    simp only [hid', ne_eq, not_true_eq_false, if_false, Nat.add_assoc, Nat.reduceAdd]
    rw [writeBytes_mid pre r post _ 12 (by simp only [le32_length]; omega)]
    simp only []
    rw [writeBytes_mid pre _ post _ 16 (by rw [h1, le32_length]; omega)]
    simp only []
    rw [writeBytes_mid pre _ post _ 20 (by rw [h2, le32_length]; omega)]
    simp only [readU16]
    rw [h3, readBytes_mid pre _ post 24 2 (by omega), h5]
    simp only [Option.map_some', rewriteRecord, hid, if_true, decide_True, Bool.or_true]
    by_cases hf : ((fromLE ((r.drop 24).take 2) : Nat) : Int) = f
    · refine ⟨f, [], ?_, by simp, fun h => absurd trivial h⟩
      simp [hf]
    · refine ⟨toInt16 (fromLE ((r.drop 24).take 2)),
        [.formatMismatch name (if fromLE ((r.drop 24).take 2) = 3 then "WEM" else "OPUS"),
         .mightNotWork], ?_, ?_, fun h => absurd trivial h⟩
      · simp [hf]
      · intro l hl
        simp only [List.mem_cons, List.mem_singleton, List.not_mem_nil, or_false] at hl
        rcases hl with rfl | rfl
        · left; rfl
        · right; rfl
  · have hid' : fromLE ((r.drop 8).take 4) ≠ toUInt32 id := hid
    refine ⟨f, [], ?_, by simp, fun _ => ⟨rfl, rfl⟩⟩
    simp [rewriteRecord, hid, hid', Nat.add_assoc]

theorem rewriteRecord_length (id e d : Int) (off : Nat) (r : List Byte) (hr : r.length = 32) :
    (rewriteRecord id e d off r).length = 32 := by
  unfold rewriteRecord
  split
  · exact (rewritten_tail r (le32 _) (le32 _) (le32 _) hr rfl rfl rfl).1
  · exact hr

theorem scanInfoTable_mid (name : String) (id e d : Int) (off : Nat) :
    ∀ (recs : List (List Byte)) (pre post : List Byte) (b : Bool) (f : Int) (o : List Output)
      (t ld : List (Nat × Nat)), (∀ r ∈ recs, r.length = 32) →
    ∃ f' o', scanInfoTable name id e d off recs.length
        { mem := pre ++ recs.flatten ++ post, pos := pre.length, soundFound := b, format := f,
          output := o, stores := t, loads := ld } =
      some { mem := pre ++ (recs.map (rewriteRecord id e d off)).flatten ++ post,
             pos := pre.length + 32 * recs.length,
             soundFound := b || recs.any (fun r => decide (recId r = toUInt32 id)),
             format := f', output := o ++ o',
             stores := t ++ fieldStores id pre.length recs,
             loads := ld ++ fieldLoads id pre.length recs } ∧
      (∀ l ∈ o', l.isWarning = true ∨ l = Output.mightNotWork) ∧
      ((∀ r ∈ recs, recId r ≠ toUInt32 id) → o' = [] ∧ f' = f) := by
  intro recs
  induction recs with
  | nil =>
    intro pre post b f o t ld _
    exact ⟨f, [], by simp [scanInfoTable, fieldStores, fieldLoads], by simp,
      fun _ => ⟨rfl, rfl⟩⟩
  | cons r rs ih =>
    intro pre post b f o t ld hlen
    have hr : r.length = 32 := hlen r (List.mem_cons_self _ _)
    have hrs : ∀ x ∈ rs, x.length = 32 := fun x hx => hlen x (List.mem_cons_of_mem _ hx)
    obtain ⟨f1, o1, h1, hw1, hn1⟩ :=
      scanRecord_mid name id e d off pre r (rs.flatten ++ post) hr b f o t ld
    obtain ⟨f2, o2, h2, hw2, hn2⟩ :=
      ih (pre ++ rewriteRecord id e d off r) post
        (b || decide (recId r = toUInt32 id)) f1 (o ++ o1)
        (t ++ (if recId r = toUInt32 id then
          [(pre.length + 12, 4), (pre.length + 16, 4), (pre.length + 20, 4)] else []))
        (ld ++ (if recId r = toUInt32 id then
          [(pre.length + 8, 4), (pre.length + 24, 2)] else [(pre.length + 8, 4)])) hrs
    refine ⟨f2, o1 ++ o2, ?_, ?_, ?_⟩
    · have hm : pre ++ (r :: rs).flatten ++ post = pre ++ r ++ (rs.flatten ++ post) := by
        simp [List.append_assoc]
      rw [List.length_cons, scanInfoTable, hm, h1]
      simp only []
      have hm2 : pre ++ rewriteRecord id e d off r ++ (rs.flatten ++ post) =
          pre ++ rewriteRecord id e d off r ++ rs.flatten ++ post := by
        simp [List.append_assoc]
      have hp : pre.length + 32 = (pre ++ rewriteRecord id e d off r).length := by
        rw [List.length_append, rewriteRecord_length id e d off r hr]
      rw [hm2, hp, h2]
      simp only [List.length_append, rewriteRecord_length id e d off r hr, List.map_cons,
        List.flatten_cons, List.any_cons, fieldStores, fieldLoads, List.append_assoc,
        Bool.or_assoc, Nat.mul_add, Nat.add_assoc]
      simp [Nat.add_comm]
    · intro l hl
      rcases List.mem_append.mp hl with h | h
      · exact hw1 l h
      · exact hw2 l h
    · intro hno
      obtain ⟨ho1, hf1⟩ := hn1 (hno r (List.mem_cons_self _ _))
      obtain ⟨ho2, hf2⟩ := hn2 (fun x hx => hno x (List.mem_cons_of_mem _ hx))
      exact ⟨by rw [ho1, ho2]; rfl, by rw [hf2, hf1]⟩

theorem readBytes_head (hdr post : List Byte) (k n : Nat) (h : k + n ≤ hdr.length) :
    readBytes (hdr ++ post) k n = some ((hdr.drop k).take n) := by
  simpa using readBytes_mid [] hdr post k n h

/-- The growth step in general: the file is cut or extended to `soundModOffset + n` bytes and
the payload is stored at `soundModOffset`, so it ends up after the first `soundModOffset` bytes
of the old file. -/
theorem growContainer_eq_take (mem FileBytes : List Byte) :
    growContainer mem FileBytes = some (mem.take (soundModOffset mem) ++ FileBytes) := by
  have ho : soundModOffset mem ≤ mem.length := by unfold soundModOffset; omega
  unfold growContainer writeBytes resizeFile newContainerSize
  rw [if_pos (by simp only [List.length_append, List.length_take, List.length_replicate]; omega)]
  rw [List.take_append_of_le_length (by simp only [List.length_take]; omega), List.take_take,
    List.drop_eq_nil_of_le (by
      simp only [List.length_append, List.length_take, List.length_replicate]; omega)]
  simp [Nat.min_eq_left (Nat.le_add_right _ _)]

/-- The growth step on a container shorter than `2^32` bytes appends the payload. -/
theorem growContainer_eq_append (mem FileBytes : List Byte) (h : mem.length < 4294967296) :
    growContainer mem FileBytes = some (mem ++ FileBytes) := by
  rw [growContainer_eq_take]
  have : soundModOffset mem = mem.length := by unfold soundModOffset; omega
  rw [this, List.take_length]

/-- The rest of the loop body on a container with the assumed layout: the payload is appended,
the table is rewritten record by record, and the loop goes on. -/
theorem patchContainer_layout (w : World) (c : SoundContainer) (s : LoaderState) (name : String)
    (p : Prepared) (hdr : List Byte) (recs : List (List Byte)) (rest : List Byte)
    (hlay : SoundLayout s.mem hdr recs rest) (hL : s.mem.length < 4294967296)
    (hres : w.resizeFails c.Path (newContainerSize s.mem p.FileBytes) = false) :
    ∃ o', patchContainer w c s name p =
      .next { mem := hdr ++ (recs.map (rewriteRecord p.soundModId p.encodedSize p.decodedSize
                s.mem.length)).flatten ++ (rest ++ p.FileBytes),
              scratch := p.scratch,
              output := s.output ++ o' ++
                [if recs.any (fun r => decide (recId r = toUInt32 p.soundModId)) = true
                 then .replaced p.soundModId name else .soundNotFound p.soundModId c.Name],
              fileCount := s.fileCount +
                (if recs.any (fun r => decide (recId r = toUInt32 p.soundModId)) = true
                 then 1 else 0),
              stores := s.stores ++ [(s.mem.length, p.FileBytes.length)] ++
                fieldStores p.soundModId hdr.length recs } ∧
      (∀ l ∈ o', l.isWarning = true ∨ l = Output.mightNotWork) ∧
      ((∀ r ∈ recs, recId r ≠ toUInt32 p.soundModId) → o' = []) := by
  obtain ⟨hmem, h12, hpos, hcount, hlen⟩ := hlay
  have hoff : soundModOffset s.mem = s.mem.length := by unfold soundModOffset; omega
  obtain ⟨f', o', hscan, hw, hn⟩ := scanInfoTable_mid name p.soundModId p.encodedSize
    p.decodedSize s.mem.length recs hdr (rest ++ p.FileBytes) false p.format s.output
    (s.stores ++ [(s.mem.length, p.FileBytes.length)]) [] hlen
  refine ⟨o', ?_, hw, fun h => (hn h).1⟩
  have hgrown : s.mem ++ p.FileBytes = hdr ++ (recs.flatten ++ (rest ++ p.FileBytes)) := by
    rw [hmem]; simp [List.append_assoc]
  unfold patchContainer
  rw [hres, growContainer_eq_append _ _ hL]
  simp only [Bool.false_eq_true, if_false, readU32]
  rw [hgrown, readBytes_head hdr _ 4 4 (by omega), readBytes_head hdr _ 8 4 (by omega)]
  simp only [Option.map_some', hoff]
  rw [← hpos, ← hcount, ← List.append_assoc, hscan]
  by_cases hany : recs.any (fun r => decide (recId r = toUInt32 p.soundModId)) = true
  · simp [hany]
  · simp [hany]

/-! ## Lines 121-205: what reaches the growth step -/

theorem queryDecodedSize_ready (w : World) (name : String) (id : Int) (sc : Scratch)
    (fb : List Byte) (e d fmt : Int) (nd : Bool) (p : Prepared)
    (h : queryDecodedSize w name id sc fb e d fmt nd = .ready p) :
    p.soundModId = id ∧ p.FileBytes = fb ∧ p.encodedSize = e ∧ p.format = fmt ∧ fmt ≠ -1 := by
  unfold queryDecodedSize at h
  split at h
  · exact absurd h (by simp)
  · rename_i hfmt
    split at h
    · split at h
      · exact absurd h (by simp)
      · injection h with h
        subst h
        exact ⟨rfl, rfl, rfl, rfl, hfmt⟩
    · injection h with h
      subst h
      exact ⟨rfl, rfl, rfl, rfl, hfmt⟩

theorem prepareSoundMod_ready (w : World) (sc : Scratch) (f : SoundModFile) (p : Prepared)
    (h : prepareSoundMod w sc f = .ready p) :
    p.soundModId = deriveSoundModId (pathStem f.Name.toList) ∧ p.soundModId ≠ -1 ∧
      p.encodedSize = toInt32 p.FileBytes.length := by
  unfold prepareSoundMod at h
  simp only [] at h
  split at h
  · exact absurd h (by simp)
  · rename_i hid
    split at h
    · split at h
      · exact absurd h (by simp)
      · split at h
        · obtain ⟨h1, h2, h3, -, -⟩ := queryDecodedSize_ready _ _ _ _ _ _ _ _ _ _ h
          exact ⟨h1, by rw [h1]; exact hid, by rw [h3, h2]⟩
        · exact absurd h (by simp)
    · obtain ⟨h1, h2, h3, -, -⟩ := queryDecodedSize_ready _ _ _ _ _ _ _ _ _ _ h
      exact ⟨h1, by rw [h1]; exact hid, by rw [h3, h2]⟩

theorem processSoundMod_of_ready (w : World) (c : SoundContainer) (s : LoaderState)
    (f : SoundModFile) (p : Prepared) (h : prepareSoundMod w s.scratch f = .ready p) :
    processSoundMod w c s f = patchContainer w c s f.Name p := by
  unfold processSoundMod; rw [h]

theorem processSoundMod_of_skip (w : World) (c : SoundContainer) (s : LoaderState)
    (f : SoundModFile) (line : Output) (sc : Scratch)
    (h : prepareSoundMod w s.scratch f = .skip line sc) :
    processSoundMod w c s f = .next { s with scratch := sc, output := s.output ++ [line] } := by
  unfold processSoundMod; rw [h]

/-! ## Rewritten records and the stores that rewrite them -/

theorem rewriteRecord_of_ne (id e d : Int) (off : Nat) (r : List Byte)
    (h : recId r ≠ toUInt32 id) : rewriteRecord id e d off r = r := by
  unfold rewriteRecord; rw [if_neg h]

theorem rewriteRecord_fields (id e d : Int) (off : Nat) (r : List Byte) (hr : r.length = 32)
    (h : recId r = toUInt32 id) :
    recId (rewriteRecord id e d off r) = recId r ∧
    recEncodedSize (rewriteRecord id e d off r) = toUInt32 e ∧
    recOffset (rewriteRecord id e d off r) = off % 4294967296 ∧
    recDecodedSize (rewriteRecord id e d off r) = toUInt32 d ∧
    recFormat (rewriteRecord id e d off r) = recFormat r ∧
    (rewriteRecord id e d off r).take 12 = r.take 12 ∧
    (rewriteRecord id e d off r).drop 24 = r.drop 24 := by
  obtain ⟨-, h2, h3, h4, h5, h6⟩ :=
    rewritten_tail r (le32 (toUInt32 e)) (le32 off) (le32 (toUInt32 d)) hr rfl rfl rfl
  have hrw : rewriteRecord id e d off r =
      r.take 12 ++ le32 (toUInt32 e) ++ le32 off ++ le32 (toUInt32 d) ++ r.drop 24 := by
    unfold rewriteRecord; rw [if_pos h]
  have hid : ((rewriteRecord id e d off r).drop 8).take 4 = (r.drop 8).take 4 := by
    have : ((rewriteRecord id e d off r).take 12).drop 8 = (r.take 12).drop 8 := by rw [hrw, h3]
    rw [List.drop_take, List.drop_take] at this
    have h' := congrArg (List.take 4) this
    simpa [List.take_take] using h'
  refine ⟨?_, ?_, ?_, ?_, ?_, ?_, ?_⟩
  · unfold recId; rw [hid]
  · unfold recEncodedSize; rw [hrw, h4, fromLE_le32]
    exact Nat.mod_eq_of_lt (toUInt32_lt e)
  · unfold recOffset; rw [hrw, h5, fromLE_le32]
  · unfold recDecodedSize; rw [hrw, h6, fromLE_le32]
    exact Nat.mod_eq_of_lt (toUInt32_lt d)
  · unfold recFormat; rw [hrw, h2]
  · rw [hrw, h3]
  · rw [hrw, h2]

theorem SoundLayout_rewrite (mem hdr : List Byte) (recs : List (List Byte))
    (rest extra : List Byte) (id e d : Int) (off : Nat) (hlay : SoundLayout mem hdr recs rest) :
    SoundLayout (hdr ++ (recs.map (rewriteRecord id e d off)).flatten ++ (rest ++ extra)) hdr
      (recs.map (rewriteRecord id e d off)) (rest ++ extra) := by
  obtain ⟨-, h12, hpos, hcount, hlen⟩ := hlay
  refine ⟨rfl, h12, hpos, by rw [List.length_map]; exact hcount, ?_⟩
  intro r hr
  obtain ⟨r0, hr0, rfl⟩ := List.mem_map.mp hr
  exact rewriteRecord_length id e d off r0 (hlen r0 hr0)

theorem flatten_length_32 (recs : List (List Byte)) (h : ∀ r ∈ recs, r.length = 32) :
    recs.flatten.length = 32 * recs.length := by
  induction recs with
  | nil => rfl
  | cons r rs ih =>
    have h1 := h r (List.mem_cons_self _ _)
    have h2 := ih (fun x hx => h x (List.mem_cons_of_mem _ hx))
    simp only [List.flatten_cons, List.length_append, List.length_cons, h1, h2]
    omega

theorem growContainer_of_length_eq (mem FileBytes : List Byte)
    (h : mem.length = 4294967296) :
    soundModOffset mem = 0 ∧ growContainer mem FileBytes = some FileBytes := by
  have ho : soundModOffset mem = 0 := by unfold soundModOffset; rw [h]
  exact ⟨ho, by rw [growContainer_eq_take, ho, List.take_zero, List.nil_append]⟩

/-- C1, evaluated where it fails: on a container of exactly `2^32` bytes and a one-byte payload
the offset `soundModOffset` is `0` instead of the old end of the file, and the growth step
leaves a file of one byte, the payload, instead of `2^32 + 1` bytes. -/
theorem growContainer_four_GiB :
    soundModOffset (List.replicate 4294967296 (0 : Byte)) = 0 ∧
    growContainer (List.replicate 4294967296 (0 : Byte)) [1] = some [1] :=
  growContainer_of_length_eq _ _ (List.length_replicate _ _)

theorem demo_layout : SoundLayout demoState.mem demoHeader demoRecords demoRest := by
  unfold SoundLayout
  decide

theorem rewritten_layout_length (hdr : List Byte) (recs : List (List Byte))
    (rest extra : List Byte) (id e d : Int) (off : Nat) (h : ∀ r ∈ recs, r.length = 32) :
    (hdr ++ (recs.map (rewriteRecord id e d off)).flatten ++ (rest ++ extra)).length =
      (hdr ++ recs.flatten ++ rest).length + extra.length := by
  have h1 := flatten_length_32 recs h
  have h2 := flatten_length_32 (recs.map (rewriteRecord id e d off)) (by
    intro r hr
    obtain ⟨r0, hr0, rfl⟩ := List.mem_map.mp hr
    exact rewriteRecord_length id e d off r0 (h r0 hr0))
  simp only [List.length_append, h1, h2, List.length_map]
  omega

/-- The invariant of the loop: layout and `offset + encodedSize ≤ length`, kept by every mod
file as long as the container is shorter than `2^32` bytes when the mod file is taken up. -/
theorem loadLoop_keeps_records_inside (w : World) (c : SoundContainer) :
    ∀ (items : List SoundModFile) (s : LoaderState) (recs : List (List Byte)) (hdr rest : List Byte),
      SoundLayout s.mem hdr recs rest →
      (∀ r ∈ recs, recOffset r + recEncodedSize r ≤ s.mem.length) →
      (∀ (k : Nat) (s1 : LoaderState) (b : Bool),
        loadLoop w c (items.take k) s = some (s1, b) → s1.mem.length < 4294967296) →
      ∃ (s1 : LoaderState) (b : Bool) (recs1 : List (List Byte)) (rest1 : List Byte),
        loadLoop w c items s = some (s1, b) ∧ SoundLayout s1.mem hdr recs1 rest1 ∧
        recs1.length = recs.length ∧ s.mem.length ≤ s1.mem.length ∧
        ∀ r ∈ recs1, recOffset r + recEncodedSize r ≤ s1.mem.length := by
  intro items
  induction items with
  | nil =>
    intro s recs hdr rest hlay hinv _
    exact ⟨s, true, recs, rest, rfl, hlay, rfl, Nat.le_refl _, hinv⟩
  | cons f fs ih =>
    intro s recs hdr rest hlay hinv hstay
    have hL : s.mem.length < 4294967296 := hstay 0 s true rfl
    have hstep : ∀ s', processSoundMod w c s f = .next s' →
        ∀ (k : Nat) (s1 : LoaderState) (b : Bool),
          loadLoop w c (fs.take k) s' = some (s1, b) → s1.mem.length < 4294967296 := by
      intro s' hs' k s1 b hk
      apply hstay (k + 1) s1 b
      rw [List.take_succ_cons, loadLoop, hs']
      exact hk
    cases hprep : prepareSoundMod w s.scratch f with
    | skip line sc =>
      have hp := processSoundMod_of_skip w c s f line sc hprep
      obtain ⟨s1, b, recs1, rest1, h1, h2, h3, h4, h5⟩ :=
        ih { s with scratch := sc, output := s.output ++ [line] } recs hdr rest hlay hinv
          (hstep _ hp)
      refine ⟨s1, b, recs1, rest1, ?_, h2, h3, h4, h5⟩
      rw [loadLoop, hp]
      exact h1
    | ready p =>
      have hp := processSoundMod_of_ready w c s f p hprep
      cases hres : w.resizeFails c.Path (newContainerSize s.mem p.FileBytes) with
      | true =>
        refine ⟨{ s with scratch := p.scratch,
                         output := s.output ++ [.resizeFailed c.Path] }, false, recs, rest,
          ?_, hlay, rfl, Nat.le_refl _, hinv⟩
        rw [loadLoop, hp]
        unfold patchContainer
        rw [hres]
        rfl
      | false =>
        obtain ⟨o', hpatch, -, -⟩ :=
          patchContainer_layout w c s f.Name p hdr recs rest hlay hL hres
        rw [← hp] at hpatch
        have hlen := rewritten_layout_length hdr recs rest p.FileBytes p.soundModId
          p.encodedSize p.decodedSize s.mem.length hlay.2.2.2.2
        rw [← hlay.1] at hlen
        obtain ⟨s1, b, recs1, rest1, h1, h2, h3, h4, h5⟩ :=
          ih _ (recs.map (rewriteRecord p.soundModId p.encodedSize p.decodedSize s.mem.length))
            hdr (rest ++ p.FileBytes)
            (SoundLayout_rewrite s.mem hdr recs rest p.FileBytes _ _ _ _ hlay)
            (by
              intro r hr
              obtain ⟨r0, hr0, rfl⟩ := List.mem_map.mp hr
              show _ ≤ (hdr ++ _ ++ (rest ++ p.FileBytes)).length
              rw [hlen]
              by_cases hid : recId r0 = toUInt32 p.soundModId
              · obtain ⟨-, g2, g3, -⟩ := rewriteRecord_fields p.soundModId p.encodedSize
                  p.decodedSize s.mem.length r0 (hlay.2.2.2.2 r0 hr0) hid
                obtain ⟨-, -, henc⟩ := prepareSoundMod_ready w s.scratch f p hprep
                rw [g2, g3, henc, toUInt32_toInt32, toUInt32_natCast]
                have := Nat.mod_le p.FileBytes.length 4294967296
                have := Nat.mod_le s.mem.length 4294967296
                omega
              · rw [rewriteRecord_of_ne _ _ _ _ _ hid]
                have := hinv r0 hr0
                omega)
            (hstep _ hpatch)
        refine ⟨s1, b, recs1, rest1, ?_, h2, by rw [h3, List.length_map], ?_, h5⟩
        · rw [loadLoop, hpatch]
          exact h1
        · have : s.mem.length ≤ (hdr ++ (recs.map (rewriteRecord p.soundModId p.encodedSize
              p.decodedSize s.mem.length)).flatten ++ (rest ++ p.FileBytes)).length := by
            rw [hlen]; omega
          exact Nat.le_trans this h4

theorem processSoundMod_congr (w : World) (c c' : SoundContainer) (hN : c'.Name = c.Name)
    (hP : c'.Path = c.Path) (s : LoaderState) (f : SoundModFile) :
    processSoundMod w c' s f = processSoundMod w c s f := by
  unfold processSoundMod patchContainer
  rw [hN, hP]

theorem loadLoop_congr (w : World) (c c' : SoundContainer) (hN : c'.Name = c.Name)
    (hP : c'.Path = c.Path) :
    ∀ (l : List SoundModFile) (s : LoaderState), loadLoop w c' l s = loadLoop w c l s := by
  intro l
  induction l with
  | nil => intro s; rfl
  | cons f fs ih =>
    intro s
    rw [loadLoop, loadLoop, processSoundMod_congr w c c' hN hP]
    cases processSoundMod w c s f with
    | fault => rfl
    | returned s1 => rfl
    | next s1 => exact ih s1

/-- What `LoadSoundMods` adds to its loop: at most the summary line. -/
theorem LoadSoundMods_of_loadLoop (w : World) (c : SoundContainer) (mem : List Byte)
    (scratch : Scratch) (s1 : LoaderState) (b : Bool)
    (h : loadLoop w c c.ModFileList
      { mem := mem, scratch := scratch, output := [], fileCount := 0, stores := [] } =
        some (s1, b)) :
    ∃ s2, LoadSoundMods w c mem scratch = some s2 ∧ s2.mem = s1.mem ∧
      s2.fileCount = s1.fileCount ∧ s2.stores = s1.stores ∧ s2.scratch = s1.scratch := by
  unfold LoadSoundMods
  rw [h]
  cases b with
  | false => exact ⟨s1, rfl, rfl, rfl, rfl, rfl⟩
  | true =>
    simp only []
    split
    · exact ⟨_, rfl, rfl, rfl, rfl, rfl⟩
    · exact ⟨s1, rfl, rfl, rfl, rfl, rfl⟩

/-- C3: a container with the assumed layout in which every info record has
`offset + encodedSize ≤ containerLength`, patched by `LoadSoundMods` with any list of mod files
such that the container stays below `2^32` bytes (before the first mod file and after each
one). Then `LoadSoundMods` returns, the header and the number of records are as before, the
container has not shrunk, and every info record still has
`offset + encodedSize ≤ containerLength`. -/
theorem records_stay_inside_container (w : World) (c : SoundContainer) (mem : List Byte)
    (scratch : Scratch) (hdr : List Byte) (recs : List (List Byte)) (rest : List Byte)
    (hlay : SoundLayout mem hdr recs rest)
    (hinv : ∀ r ∈ recs, recOffset r + recEncodedSize r ≤ mem.length)
    (hstay : ∀ (k : Nat) (s1 : LoaderState),
      LoadSoundMods w { c with ModFileList := c.ModFileList.take k } mem scratch = some s1 →
        s1.mem.length < 4294967296) :
    ∃ (s1 : LoaderState) (recs1 : List (List Byte)) (rest1 : List Byte),
      LoadSoundMods w c mem scratch = some s1 ∧ SoundLayout s1.mem hdr recs1 rest1 ∧
      recs1.length = recs.length ∧ mem.length ≤ s1.mem.length ∧
      ∀ r ∈ recs1, recOffset r + recEncodedSize r ≤ s1.mem.length := by
  obtain ⟨s1, b, recs1, rest1, h1, h2, h3, h4, h5⟩ :=
    loadLoop_keeps_records_inside w c c.ModFileList
      { mem := mem, scratch := scratch, output := [], fileCount := 0, stores := [] }
      recs hdr rest hlay hinv (by
        intro k s1 b hk
        have hk' : loadLoop w { c with ModFileList := c.ModFileList.take k }
            ({ c with ModFileList := c.ModFileList.take k } : SoundContainer).ModFileList
            { mem := mem, scratch := scratch, output := [], fileCount := 0, stores := [] } =
            some (s1, b) := by
          exact (loadLoop_congr w c { c with ModFileList := c.ModFileList.take k } rfl rfl
            _ _).trans hk
        obtain ⟨s2, g1, g2, -⟩ := LoadSoundMods_of_loadLoop w _ mem scratch s1 b hk'
        rw [← g2]
        exact hstay k s2 g1)
  obtain ⟨s2, g1, g2, -⟩ := LoadSoundMods_of_loadLoop w c mem scratch s1 b h1
  refine ⟨s2, recs1, rest1, g1, by rw [g2]; exact h2, h3, by rw [g2]; exact h4, ?_⟩
  rw [g2]
  exact h5

set_option maxRecDepth 20000 in
theorem demo_wem_length :
    ∀ k : Nat, Option.map (fun s => s.mem.length)
      (LoadSoundMods demoWorld { demoContainerWem with
        ModFileList := demoContainerWem.ModFileList.take k } demoMem demoScratch) =
      some (if k = 0 then 122 else 127) := by
  intro k
  cases k with
  | zero => decide
  | succ k =>
    have h1 : demoContainerWem.ModFileList.take (k + 1) = [demoWem] := by
      simp [demoContainerWem]
    rw [h1, if_neg (Nat.succ_ne_zero k)]
    decide

/-- C3 at the sample container patched with `foo_id#42.wem`. -/
theorem records_stay_inside_container_witness :
    SoundLayout demoMem demoHeader demoRecords demoRest ∧
    (∀ r ∈ demoRecords, recOffset r + recEncodedSize r ≤ demoMem.length) ∧
    ∃ (s1 : LoaderState) (recs1 : List (List Byte)) (rest1 : List Byte),
      LoadSoundMods demoWorld demoContainerWem demoMem demoScratch = some s1 ∧
      SoundLayout s1.mem demoHeader recs1 rest1 ∧
      recs1.length = demoRecords.length ∧ demoMem.length ≤ s1.mem.length ∧
      ∀ r ∈ recs1, recOffset r + recEncodedSize r ≤ s1.mem.length :=
  ⟨demo_layout, by decide,
    records_stay_inside_container demoWorld demoContainerWem demoMem demoScratch demoHeader
      demoRecords demoRest demo_layout (by decide) (by
        intro k s1 h
        have h1 := demo_wem_length k
        rw [h] at h1
        simp only [Option.map_some', Option.some.injEq] at h1
        rw [h1]
        split <;> omega)⟩

/-! ## Sound ids from file names -/

theorem digitChar_digit : ∀ k : Nat, k < 10 →
    (Nat.digitChar k).isDigit = true ∧ digitValue (Nat.digitChar k) = k := by
  decide

theorem decimalValue_append_single (l : List Char) (c : Char) :
    decimalValue (l ++ [c]) = 10 * decimalValue l + digitValue c := by
  unfold decimalValue
  rw [List.foldl_append]
  rfl

theorem toDigitsCore_digits : ∀ (fuel n : Nat) (ds : List Char), n < fuel →
    ∃ l : List Char, Nat.toDigitsCore 10 fuel n ds = l ++ ds ∧ l ≠ [] ∧
      (∀ c ∈ l, c.isDigit = true) ∧ decimalValue l = n := by
  intro fuel
  induction fuel with
  | zero => intro n ds h; omega
  | succ fuel ih =>
    intro n ds h
    obtain ⟨hd, hv⟩ := digitChar_digit (n % 10) (Nat.mod_lt _ (by decide))
    unfold Nat.toDigitsCore
    simp only []
    by_cases h0 : n / 10 = 0
    · rw [if_pos h0]
      refine ⟨[Nat.digitChar (n % 10)], rfl, by simp, ?_, ?_⟩
      · intro c hc
        rw [List.mem_singleton] at hc
        rw [hc]; exact hd
      · have : decimalValue [Nat.digitChar (n % 10)] = 10 * 0 + digitValue (Nat.digitChar (n % 10)) :=
          rfl
        rw [this, hv]
        omega
    · rw [if_neg h0]
      obtain ⟨l, hl, -, hdig, hval⟩ := ih (n / 10) (Nat.digitChar (n % 10) :: ds) (by omega)
      refine ⟨l ++ [Nat.digitChar (n % 10)], by rw [hl]; simp, by simp, ?_, ?_⟩
      · intro c hc
        rcases List.mem_append.mp hc with h1 | h1
        · exact hdig c h1
        · rw [List.mem_singleton] at h1
          rw [h1]; exact hd
      · rw [decimalValue_append_single, hval, hv]
        omega

/-- The decimal digits of `n`, as `std::to_string` writes them: not empty, digits only, and
their value is `n`. -/
theorem toDigits_digits (n : Nat) :
    Nat.toDigits 10 n ≠ [] ∧ (∀ c ∈ Nat.toDigits 10 n, c.isDigit = true) ∧
      decimalValue (Nat.toDigits 10 n) = n := by
  obtain ⟨l, hl, hne, hdig, hval⟩ := toDigitsCore_digits (n + 1) n [] (by omega)
  unfold Nat.toDigits
  rw [hl, List.append_nil]
  exact ⟨hne, hdig, hval⟩

theorem isDigit_ne (c x : Char) (h : c.isDigit = true) (hx : x.isDigit = false) : c ≠ x := by
  intro e
  rw [e, hx] at h
  exact Bool.noConfusion h

theorem isDigit_not_space (c : Char) (h : c.isDigit = true) : isSpace c = false := by
  unfold isSpace
  simp [isDigit_ne c ' ' h (by decide), isDigit_ne c '\t' h (by decide),
    isDigit_ne c '\n' h (by decide), isDigit_ne c '\x0b' h (by decide),
    isDigit_ne c '\x0c' h (by decide), isDigit_ne c '\r' h (by decide)]

theorem stripSign_digit (c : Char) (cs : List Char) (h : c.isDigit = true) :
    stripSign (c :: cs) = (false, c :: cs) := by
  have h1 := isDigit_ne c '-' h (by decide)
  have h2 := isDigit_ne c '+' h (by decide)
  unfold stripSign
  split
  · rename_i heq; injection heq with e1 e2; exact absurd e1 h1
  · rename_i heq; injection heq with e1 e2; exact absurd e1 h2
  · rfl

/-- On a non-empty string of digits, `std::stoul` returns their value unless it exceeds
`ULONG_MAX`. -/
theorem stoul_digits (l : List Char) (hne : l ≠ []) (hdig : ∀ c ∈ l, c.isDigit = true)
    (hmax : decimalValue l ≤ ULONG_MAX) : stoul l = some (decimalValue l) := by
  obtain ⟨c, cs, rfl⟩ := List.exists_cons_of_ne_nil hne
  have hc := hdig c (List.mem_cons_self _ _)
  have hdrop : (c :: cs).dropWhile isSpace = c :: cs :=
    List.dropWhile_cons_of_neg (by rw [isDigit_not_space c hc]; simp)
  have htake : (c :: cs).takeWhile Char.isDigit = c :: cs :=
    List.takeWhile_eq_self_iff.mpr hdig
  unfold stoul
  simp only [hdrop, stripSign_digit c cs hc, htake]
  rw [if_neg (by simp), if_neg (by omega)]
  simp

theorem stoul_toDigits (n : Nat) (h : n ≤ ULONG_MAX) : stoul (Nat.toDigits 10 n) = some n := by
  obtain ⟨hne, hdig, hval⟩ := toDigits_digits n
  have := stoul_digits _ hne hdig (by rw [hval]; exact h)
  rw [hval] at this
  exact this

theorem startsWithNumber_false (s : List Char) (h : startsWithNumber s = false) :
    stoul s = none := by
  unfold startsWithNumber at h
  unfold stoul
  simp only []
  split at h
  · rename_i heq
    rw [heq]
    simp
  · rename_i c cs heq
    rw [heq, List.takeWhile_cons, h]
    simp

theorem toInt32_of_lt (n : Nat) (h : n < 4294967295) :
    toInt32 n ≠ -1 ∧ toUInt32 (toInt32 n) = n := by
  refine ⟨?_, ?_⟩
  · unfold toInt32; omega
  · rw [toUInt32_toInt32, toUInt32_natCast]
    exact Nat.mod_eq_of_lt (by omega)

theorem SplitString_of_not_mem (d : Char) :
    ∀ s : List Char, d ∉ s → SplitString s d = [s] := by
  intro s
  induction s with
  | nil => intro _; rfl
  | cons c cs ih =>
    intro h
    have hc : c ≠ d := fun e => h (by rw [e]; exact List.mem_cons_self _ _)
    have hcs : d ∉ cs := fun e => h (List.mem_cons_of_mem _ e)
    unfold SplitString
    rw [if_neg hc, ih hcs]

theorem SplitString_append (d : Char) (b : List Char) :
    ∀ a : List Char, d ∉ a → SplitString (a ++ d :: b) d = a :: SplitString b d := by
  intro a
  induction a with
  | nil => intro _; simp [SplitString]
  | cons c cs ih =>
    intro h
    have hc : c ≠ d := fun e => h (by rw [e]; exact List.mem_cons_self _ _)
    have hcs : d ∉ cs := fun e => h (List.mem_cons_of_mem _ e)
    rw [List.cons_append, SplitString, if_neg hc, ih hcs]

/-- The id taken from a last segment `id#` followed by digits. -/
theorem deriveSoundModId_of_id_segment (stem ds : List Char) (hs : stoul stem = none)
    (hseg : (SplitString stem '_').getLastD [] = 'i' :: 'd' :: '#' :: ds)
    (hne : ds ≠ []) (hdig : ∀ c ∈ ds, c.isDigit = true) (hmax : decimalValue ds ≤ ULONG_MAX) :
    deriveSoundModId stem = toInt32 (decimalValue ds) := by
  have hno : '#' ∉ ds := fun hm => isDigit_ne '#' '#' (hdig _ hm) (by decide) rfl
  have hsplit : SplitString ('i' :: 'd' :: '#' :: ds) '#' = [['i', 'd'], ds] := by
    have := SplitString_append '#' ds ['i', 'd'] (by decide)
    rw [SplitString_of_not_mem '#' ds hno] at this
    exact this
  unfold deriveSoundModId
  rw [hs]
  simp only [hseg, hsplit, if_true, stoul_digits ds hne hdig hmax]

theorem prepareSoundMod_bad_name (w : World) (sc : Scratch) (f : SoundModFile)
    (h : deriveSoundModId (pathStem f.Name.toList) = -1) :
    prepareSoundMod w sc f = .skip (.badFilename f.Name) sc := by
  unfold prepareSoundMod
  simp only [h, if_true]

theorem queryDecodedSize_not_bad_name (w : World) (name : String) (id : Int) (sc sc' : Scratch)
    (fb : List Byte) (e d fmt : Int) (nd : Bool) (line : Output)
    (h : queryDecodedSize w name id sc fb e d fmt nd = .skip line sc') :
    line.isError = true ∧ ∀ n, line ≠ .badFilename n := by
  unfold queryDecodedSize at h
  split at h
  · injection h with h1 h2
    subst h1
    exact ⟨rfl, fun n => by simp⟩
  · split at h
    · split at h
      · injection h with h1 h2
        subst h1
        exact ⟨rfl, fun n => by simp⟩
      · exact absurd h (by simp)
    · exact absurd h (by simp)

theorem prepareSoundMod_good_name (w : World) (sc sc' : Scratch) (f : SoundModFile)
    (line : Output) (hid : deriveSoundModId (pathStem f.Name.toList) ≠ -1)
    (h : prepareSoundMod w sc f = .skip line sc') : ∀ n, line ≠ .badFilename n := by
  unfold prepareSoundMod at h
  simp only [hid, if_false] at h
  split at h
  · split at h
    · injection h with h1 h2
      subst h1
      exact fun n => by simp
    · split at h
      · exact (queryDecodedSize_not_bad_name _ _ _ _ _ _ _ _ _ _ _ h).2
      · injection h with h1 h2
        subst h1
        exact fun n => by simp
  · exact (queryDecodedSize_not_bad_name _ _ _ _ _ _ _ _ _ _ _ h).2

/-- C4, as amended: for every sound id `n < 2^32 - 1`, a mod file whose stem is the decimal
digits of `n`, or whose stem does not begin with a number (after white space and a sign) and
has the last `_`-separated segment `id#` followed by the decimal digits of `n`, gets sound
id `n`: the `int32_t soundModId` is `n` narrowed to 32 bits, which is not `-1` and compares
equal to the `uint32_t` id `n` of a record; the file is not rejected as a bad file name, and
whenever it reaches the scan its id is `n`. A file named `track.mp3` is skipped with the
bad-file-name error. -/
theorem sound_id_from_name (n : Nat) (hn : n < 4294967295) (f : SoundModFile)
    (hstem : pathStem f.Name.toList = Nat.toDigits 10 n ∨
      (startsWithNumber (pathStem f.Name.toList) = false ∧
        (SplitString (pathStem f.Name.toList) '_').getLastD [] =
          'i' :: 'd' :: '#' :: Nat.toDigits 10 n)) :
    deriveSoundModId (pathStem f.Name.toList) = toInt32 n ∧
    toInt32 n ≠ -1 ∧ toUInt32 (toInt32 n) = n ∧
    (∀ w sc line sc', prepareSoundMod w sc f = .skip line sc' → line ≠ .badFilename f.Name) ∧
    (∀ w sc p, prepareSoundMod w sc f = .ready p → toUInt32 p.soundModId = n) ∧
    (∀ w sc bytes, prepareSoundMod w sc { Name := "track.mp3", FileBytes := bytes } =
      .skip (.badFilename "track.mp3") sc) := by
  obtain ⟨hne, hdig, hval⟩ := toDigits_digits n
  have hmax : n ≤ ULONG_MAX := by unfold ULONG_MAX; omega
  obtain ⟨h1, h2⟩ := toInt32_of_lt n hn
  have hid : deriveSoundModId (pathStem f.Name.toList) = toInt32 n := by
    rcases hstem with h | ⟨hs, hseg⟩
    · unfold deriveSoundModId
      rw [h, stoul_toDigits n hmax]
    · have := deriveSoundModId_of_id_segment _ _ (startsWithNumber_false _ hs) hseg hne hdig
        (by rw [hval]; exact hmax)
      rw [hval] at this
      exact this
  refine ⟨hid, h1, h2, ?_, ?_, ?_⟩
  · intro w sc line sc' h
    exact prepareSoundMod_good_name w sc sc' f line (by rw [hid]; exact h1) h f.Name
  · intro w sc p h
    rw [(prepareSoundMod_ready w sc f p h).1, hid]
    exact h2
  · intro w sc bytes
    have h : deriveSoundModId (pathStem "track.mp3".toList) = -1 := by decide
    exact prepareSoundMod_bad_name w sc _ h

/-- C4 as amended, at `42.wav` and at `foo_bar_id#42.ogg`. -/
theorem sound_id_from_name_witness :
    pathStem demo42Wav.Name.toList = Nat.toDigits 10 42 ∧
    deriveSoundModId (pathStem demo42Wav.Name.toList) = toInt32 42 ∧
    startsWithNumber (pathStem demoIdOgg.Name.toList) = false ∧
    (SplitString (pathStem demoIdOgg.Name.toList) '_').getLastD [] =
      'i' :: 'd' :: '#' :: Nat.toDigits 10 42 ∧
    deriveSoundModId (pathStem demoIdOgg.Name.toList) = toInt32 42 :=
  ⟨by decide, (sound_id_from_name 42 (by decide) demo42Wav (Or.inl (by decide))).1,
    by decide, by decide,
    (sound_id_from_name 42 (by decide) demoIdOgg (Or.inr ⟨by decide, by decide⟩)).1⟩

/-- C4 as stated fails at `n = 2^32 - 1`: the stem of `4294967295.wav` is the decimal digits of
a sound id below `2^32`, yet the narrowed id is `-1` and the file is skipped with the
bad-file-name error. -/
theorem sound_id_4294967295_rejected :
    (4294967295 : Nat) < 4294967296 ∧
    pathStem demoMaxId.Name.toList = Nat.toDigits 10 4294967295 ∧
    deriveSoundModId (pathStem demoMaxId.Name.toList) = -1 ∧
    prepareSoundMod demoWorld demoScratch demoMaxId =
      .skip (.badFilename "4294967295.wav") demoScratch :=
  ⟨by decide, by decide, by decide, prepareSoundMod_bad_name _ _ _ (by decide)⟩

theorem EncodeSoundMod_ok (w : World) (sc : Scratch) (bytes : List Byte)
    (h : (EncodeSoundMod w sc bytes).1 ≠ -1) :
    (EncodeSoundMod w sc bytes).1 = 0 ∧
    (EncodeSoundMod w sc bytes).2.1.commands = sc.commands ++ [opusencCommand] ∧
    (w.system opusencCommand (sc.files.put "tmp.wav" bytes)).2 "tmp.opus" =
      some (EncodeSoundMod w sc bytes).2.2 := by
  simp only [EncodeSoundMod] at h ⊢
  split at h
  · exact absurd rfl h
  · rename_i hopen
    rw [if_neg hopen]
    split at h
    · exact absurd rfl h
    · rename_i hwr
      rw [if_neg hwr]
      have hwr' : min (w.fwriteCount "tmp.wav" bytes) bytes.length = bytes.length := by
        simpa using hwr
      simp only [hwr', List.take_length] at h ⊢
      split at h
      · exact absurd rfl h
      · rename_i hrun
        rw [if_neg hrun]
        split at h
        · exact absurd rfl h
        · rename_i encoded henc
          have henc' : (w.system opusencCommand (sc.files.put "tmp.wav" bytes)).2 "tmp.opus" =
              some encoded := henc
          split at h
          · exact absurd rfl h
          · rename_i hsz
            rw [if_neg hsz]
            split at h
            · exact absurd rfl h
            · rename_i hopen2
              rw [if_neg hopen2]
              split at h
              · exact absurd rfl h
              · rename_i hrd
                rw [if_neg hrd]
                have hrd' : min (w.freadCount "tmp.opus" (resizeVector bytes encoded.length).length)
                    (resizeVector bytes encoded.length).length =
                    (resizeVector bytes encoded.length).length := by
                  simpa using hrd
                have hlen : (resizeVector bytes encoded.length).length = encoded.length := by
                  unfold resizeVector
                  simp only [List.length_append, List.length_take, List.length_replicate]
                  omega
                refine ⟨rfl, rfl, ?_⟩
                simp only [hrd']
                rw [henc', List.drop_eq_nil_of_le (Nat.le_refl _), List.append_nil, hlen,
                  List.take_length]

theorem inferFormat_wem (ext : List Char) (e : Int) (h : ext = ".wem".toList) :
    inferFormat ext e =
      { decodedSize := e, needsEncoding := false, needsDecoding := true, format := 3 } := by
  unfold inferFormat; rw [if_pos h]

theorem map_rewriteRecord_of_no_match (id e d : Int) (off : Nat) (recs : List (List Byte))
    (h : ∀ r ∈ recs, recId r ≠ toUInt32 id) : recs.map (rewriteRecord id e d off) = recs := by
  induction recs with
  | nil => rfl
  | cons r rs ih =>
    rw [List.map_cons, rewriteRecord_of_ne id e d off r (h r (List.mem_cons_self _ _)),
      ih (fun x hx => h x (List.mem_cons_of_mem _ hx))]

theorem fieldStores_of_no_match (id : Int) :
    ∀ (recs : List (List Byte)) (pos : Nat), (∀ r ∈ recs, recId r ≠ toUInt32 id) →
      fieldStores id pos recs = [] := by
  intro recs
  induction recs with
  | nil => intro pos _; rfl
  | cons r rs ih =>
    intro pos h
    unfold fieldStores
    rw [if_neg (h r (List.mem_cons_self _ _)),
      ih (pos + 32) (fun x hx => h x (List.mem_cons_of_mem _ hx))]
    rfl

theorem any_of_no_match (id : Int) (recs : List (List Byte))
    (h : ∀ r ∈ recs, recId r ≠ toUInt32 id) :
    recs.any (fun r => decide (recId r = toUInt32 id)) = false := by
  rw [Bool.eq_false_iff]
  intro hany
  obtain ⟨r, hr, hid⟩ := List.any_eq_true.mp hany
  exact h r hr (by simpa using hid)

/-- A mod file that reaches the scan and matches no record: the payload is appended, nothing
else changes, one warning. -/
theorem processSoundMod_no_match (w : World) (c : SoundContainer) (s : LoaderState)
    (f : SoundModFile) (p : Prepared) (hdr : List Byte) (recs : List (List Byte))
    (rest : List Byte) (hlay : SoundLayout s.mem hdr recs rest)
    (hL : s.mem.length < 4294967296) (hprep : prepareSoundMod w s.scratch f = .ready p)
    (hres : w.resizeFails c.Path (newContainerSize s.mem p.FileBytes) = false)
    (hno : ∀ r ∈ recs, recId r ≠ toUInt32 p.soundModId) :
    processSoundMod w c s f =
      .next { mem := s.mem ++ p.FileBytes, scratch := p.scratch,
              output := s.output ++ [.soundNotFound p.soundModId c.Name],
              fileCount := s.fileCount,
              stores := s.stores ++ [(s.mem.length, p.FileBytes.length)] } := by
  obtain ⟨o', hpatch, -, ho⟩ := patchContainer_layout w c s f.Name p hdr recs rest hlay hL hres
  rw [processSoundMod_of_ready w c s f p hprep, hpatch, ho hno,
    map_rewriteRecord_of_no_match _ _ _ _ _ hno, fieldStores_of_no_match _ _ _ hno,
    any_of_no_match _ _ hno, hlay.1]
  simp

/-- Below 4 GiB an unmatched sound id leaves the table alone: a mod file that reaches the scan
of a well laid out container shorter than `2^32` bytes and whose sound id no info record
carries. The loop goes on; the old content of the
container is a prefix of the new one, so the info table (the bytes from `headerSize + 12` to
the end of the last record) reads the same before and after; exactly one line is printed, the
warning "Couldn't find sound"; `fileCount` is not incremented and no store is made into the
table. -/
theorem unmatched_id_leaves_table (w : World) (c : SoundContainer) (s : LoaderState)
    (f : SoundModFile) (p : Prepared) (hdr : List Byte) (recs : List (List Byte))
    (rest : List Byte) (hlay : SoundLayout s.mem hdr recs rest)
    (hL : s.mem.length < 4294967296) (hprep : prepareSoundMod w s.scratch f = .ready p)
    (hres : w.resizeFails c.Path (newContainerSize s.mem p.FileBytes) = false)
    (hno : ∀ r ∈ recs, recId r ≠ toUInt32 p.soundModId) :
    ∃ s1, processSoundMod w c s f = .next s1 ∧
      s1.mem = s.mem ++ p.FileBytes ∧
      readBytes s.mem hdr.length (32 * recs.length) = some recs.flatten ∧
      readBytes s1.mem hdr.length (32 * recs.length) = some recs.flatten ∧
      s1.output = s.output ++ [.soundNotFound p.soundModId c.Name] ∧
      (Output.soundNotFound p.soundModId c.Name).isWarning = true ∧
      s1.fileCount = s.fileCount ∧
      s1.stores = s.stores ++ [(s.mem.length, p.FileBytes.length)] := by
  have hfl := flatten_length_32 recs hlay.2.2.2.2
  have hread : ∀ post : List Byte,
      readBytes (hdr ++ recs.flatten ++ post) hdr.length (32 * recs.length) =
        some recs.flatten := by
    intro post
    have := readBytes_mid hdr recs.flatten post 0 (32 * recs.length) (by omega)
    rw [Nat.add_zero, List.drop_zero, ← hfl, List.take_length] at this
    rw [← hfl]
    exact this
  refine ⟨_, processSoundMod_no_match w c s f p hdr recs rest hlay hL hprep hres hno, rfl,
    ?_, ?_, rfl, rfl, rfl, rfl⟩
  · rw [hlay.1]
    exact hread rest
  · show readBytes (s.mem ++ p.FileBytes) _ _ = _
    rw [hlay.1, List.append_assoc (hdr ++ recs.flatten)]
    exact hread (rest ++ p.FileBytes)

theorem demo_9_prepared :
    prepareSoundMod demoWorld demoState.scratch demo9Wem = .ready demo9WemPrepared := by
  rfl

theorem demo_no_9 : ∀ r ∈ demoRecords, recId r ≠ toUInt32 demo9WemPrepared.soundModId := by
  decide

theorem demo_length_lt : demoState.mem.length < 4294967296 := by
  decide

/-- The mod file `9.wem` on the sample container. -/
theorem unmatched_id_leaves_table_witness :
    SoundLayout demoState.mem demoHeader demoRecords demoRest ∧
    demoState.mem.length < 4294967296 ∧
    prepareSoundMod demoWorld demoState.scratch demo9Wem = .ready demo9WemPrepared ∧
    (∀ r ∈ demoRecords, recId r ≠ toUInt32 demo9WemPrepared.soundModId) ∧
    ∃ s1, processSoundMod demoWorld demoContainer demoState demo9Wem = .next s1 ∧
      s1.mem = demoMem ++ [1, 2] ∧
      s1.output = [.soundNotFound 9 "sfx.snd"] ∧ s1.fileCount = 0 := by
  have hno := demo_no_9
  have hL := demo_length_lt
  refine ⟨demo_layout, hL, demo_9_prepared, hno, ?_⟩
  obtain ⟨s1, h1, h2, -, -, h5, -, h7, -⟩ :=
    unmatched_id_leaves_table demoWorld demoContainer demoState demo9Wem demo9WemPrepared
      demoHeader demoRecords demoRest demo_layout hL demo_9_prepared rfl hno
  exact ⟨s1, h1, h2, h5, h7⟩

theorem prepareSoundMod_skip_isError (w : World) (sc sc' : Scratch) (f : SoundModFile)
    (line : Output) (h : prepareSoundMod w sc f = .skip line sc') : line.isError = true := by
  unfold prepareSoundMod at h
  simp only [] at h
  split at h
  · injection h with h1 h2
    subst h1
    rfl
  · split at h
    · split at h
      · injection h with h1 h2
        subst h1
        rfl
      · split at h
        · exact (queryDecodedSize_not_bad_name _ _ _ _ _ _ _ _ _ _ _ h).1
        · injection h with h1 h2
          subst h1
          rfl
    · exact (queryDecodedSize_not_bad_name _ _ _ _ _ _ _ _ _ _ _ h).1

/-- C8 as stated fails for "no matching sound id": `9.wem` matches no record of the sample
container, the warning is printed, and yet the container is two bytes longer than before: the
payload was appended before the scan. -/
theorem unmatched_item_grows_container :
    (∀ r ∈ demoRecords, recId r ≠ toUInt32 demo9WemPrepared.soundModId) ∧
    ∃ s1, processSoundMod demoWorld demoContainer demoState demo9Wem = .next s1 ∧
      s1.output = [.soundNotFound 9 "sfx.snd"] ∧
      s1.mem = demoState.mem ++ [1, 2] ∧
      s1.mem.length = demoState.mem.length + 2 ∧
      s1.mem ≠ demoState.mem := by
  refine ⟨demo_no_9, _, processSoundMod_no_match demoWorld demoContainer demoState demo9Wem
    demo9WemPrepared demoHeader demoRecords demoRest demo_layout demo_length_lt
    demo_9_prepared rfl demo_no_9, rfl, rfl, ?_, ?_⟩
  · show (demoState.mem ++ [1, 2]).length = _
    rw [List.length_append]; rfl
  · show demoState.mem ++ [1, 2] ≠ demoState.mem
    intro h
    have := congrArg List.length h
    rw [List.length_append] at this
    simp at this

/-- C8, as amended: a mod file that fails before the growth step (bad file name, failed
encoding, failed decoded-size query) prints one error line and leaves the container, its
length and `fileCount` as they were; a mod file that reaches the scan of a well laid out
container shorter than `2^32` bytes and whose sound id no record carries leaves every byte of
the old container in place and `fileCount` as it was, but its payload has been appended, so the
container is longer by the payload length. In both cases the loop goes on with the remaining
mod files. -/
theorem failed_item_effect (w : World) (c : SoundContainer) (s : LoaderState)
    (f : SoundModFile) (items : List SoundModFile) :
    (∀ line sc, prepareSoundMod w s.scratch f = .skip line sc →
      ∃ s1, processSoundMod w c s f = .next s1 ∧ s1.mem = s.mem ∧
        s1.fileCount = s.fileCount ∧ s1.stores = s.stores ∧
        s1.output = s.output ++ [line] ∧ line.isError = true ∧
        loadLoop w c (f :: items) s = loadLoop w c items s1) ∧
    (∀ p hdr recs rest, SoundLayout s.mem hdr recs rest → s.mem.length < 4294967296 →
      prepareSoundMod w s.scratch f = .ready p →
      w.resizeFails c.Path (newContainerSize s.mem p.FileBytes) = false →
      (∀ r ∈ recs, recId r ≠ toUInt32 p.soundModId) →
      ∃ s1, processSoundMod w c s f = .next s1 ∧ s1.mem = s.mem ++ p.FileBytes ∧
        s1.mem.length = s.mem.length + p.FileBytes.length ∧
        s1.fileCount = s.fileCount ∧
        s1.output = s.output ++ [.soundNotFound p.soundModId c.Name] ∧
        loadLoop w c (f :: items) s = loadLoop w c items s1) := by
  constructor
  · intro line sc h
    have hp := processSoundMod_of_skip w c s f line sc h
    exact ⟨_, hp, rfl, rfl, rfl, rfl, prepareSoundMod_skip_isError w _ _ f line h,
      by rw [loadLoop, hp]⟩
  · intro p hdr recs rest hlay hL hprep hres hno
    have hp := processSoundMod_no_match w c s f p hdr recs rest hlay hL hprep hres hno
    exact ⟨_, hp, rfl, List.length_append _ _, rfl, rfl, by rw [loadLoop, hp]⟩

theorem demo_max_id_bad : deriveSoundModId (pathStem demoMaxId.Name.toList) = -1 := by
  decide

/-- C8 as amended, at three mod files on the sample container: `4294967295.wav`, skipped for
its name; `42.wav` with an encoder that exits with status 1; `9.wem`, which no record
matches. -/
theorem failed_item_effect_witness :
    (prepareSoundMod demoWorld demoState.scratch demoMaxId =
        .skip (.badFilename "4294967295.wav") demoScratch ∧
      ∃ s1, processSoundMod demoWorld demoContainer demoState demoMaxId = .next s1 ∧
        s1.mem = demoState.mem) ∧
    (∃ s1, processSoundMod demoFailingWorld demoContainer demoState demo42Wav = .next s1 ∧
      s1.mem = demoState.mem ∧ s1.output = [.encodeFailed "42.wav"]) ∧
    (∃ s1, processSoundMod demoWorld demoContainer demoState demo9Wem = .next s1 ∧
      s1.mem = demoState.mem ++ [1, 2] ∧
      s1.fileCount = 0 ∧ s1.output = [.soundNotFound 9 "sfx.snd"]) := by
  have h : prepareSoundMod demoWorld demoState.scratch demoMaxId =
      .skip (.badFilename "4294967295.wav") demoScratch :=
    prepareSoundMod_bad_name _ _ _ demo_max_id_bad
  have h' : prepareSoundMod demoFailingWorld demoState.scratch demo42Wav =
      .skip (.encodeFailed "42.wav")
        (EncodeSoundMod demoFailingWorld demoScratch demo42Wav.FileBytes).2.1 := rfl
  obtain ⟨s1, h1, h2, -⟩ :=
    (failed_item_effect demoWorld demoContainer demoState demoMaxId []).1 _ _ h
  obtain ⟨s2, k1, k2, -, -, k5, -⟩ :=
    (failed_item_effect demoFailingWorld demoContainer demoState demo42Wav []).1 _ _ h'
  obtain ⟨s3, m1, m2, -, m4, m5, -⟩ :=
    (failed_item_effect demoWorld demoContainer demoState demo9Wem []).2 demo9WemPrepared
      demoHeader demoRecords demoRest demo_layout demo_length_lt demo_9_prepared rfl demo_no_9
  exact ⟨⟨h, s1, h1, h2⟩, ⟨s2, k1, k2, k5⟩, ⟨s3, m1, m2, m4, m5⟩⟩

theorem rewriteRecord_twice (id e1 d1 e2 d2 : Int) (o1 o2 : Nat) (r : List Byte)
    (hr : r.length = 32) :
    rewriteRecord id e2 d2 o2 (rewriteRecord id e1 d1 o1 r) = rewriteRecord id e2 d2 o2 r := by
  by_cases h : recId r = toUInt32 id
  · obtain ⟨g1, -, -, -, -, g6, g7⟩ := rewriteRecord_fields id e1 d1 o1 r hr h
    have h' : recId (rewriteRecord id e1 d1 o1 r) = toUInt32 id := by rw [g1, h]
    have hout : ∀ x : List Byte, recId x = toUInt32 id → rewriteRecord id e2 d2 o2 x =
        x.take 12 ++ le32 (toUInt32 e2) ++ le32 o2 ++ le32 (toUInt32 d2) ++ x.drop 24 := by
      intro x hx
      unfold rewriteRecord
      rw [if_pos hx]
    rw [hout _ h', hout _ h, g6, g7]
  · rw [rewriteRecord_of_ne id e1 d1 o1 r h]

theorem map_rewriteRecord_twice (id e1 d1 e2 d2 : Int) (o1 o2 : Nat)
    (recs : List (List Byte)) (h : ∀ r ∈ recs, r.length = 32) :
    (recs.map (rewriteRecord id e1 d1 o1)).map (rewriteRecord id e2 d2 o2) =
      recs.map (rewriteRecord id e2 d2 o2) := by
  rw [List.map_map]
  apply List.map_congr_left
  intro r hr
  exact rewriteRecord_twice id e1 d1 e2 d2 o1 o2 r (h r hr)

/-- A mod file that reaches the scan and matches some record: what is needed to go on with the
next mod file. -/
theorem processSoundMod_match (w : World) (c : SoundContainer) (s : LoaderState)
    (f : SoundModFile) (p : Prepared) (hdr : List Byte) (recs : List (List Byte))
    (rest : List Byte) (hlay : SoundLayout s.mem hdr recs rest)
    (hL : s.mem.length < 4294967296) (hprep : prepareSoundMod w s.scratch f = .ready p)
    (hres : w.resizeFails c.Path (newContainerSize s.mem p.FileBytes) = false)
    (hex : ∃ r ∈ recs, recId r = toUInt32 p.soundModId) :
    ∃ s1, processSoundMod w c s f = .next s1 ∧
      s1.mem = hdr ++ (recs.map (rewriteRecord p.soundModId p.encodedSize p.decodedSize
        s.mem.length)).flatten ++ (rest ++ p.FileBytes) ∧
      s1.scratch = p.scratch ∧ s1.fileCount = s.fileCount + 1 := by
  obtain ⟨o', hpatch, -, -⟩ := patchContainer_layout w c s f.Name p hdr recs rest hlay hL hres
  have hany : recs.any (fun r => decide (recId r = toUInt32 p.soundModId)) = true := by
    obtain ⟨r, hr, hid⟩ := hex
    exact List.any_eq_true.mpr ⟨r, hr, by simpa using hid⟩
  rw [hany] at hpatch
  simp only [if_true] at hpatch
  exact ⟨_, (processSoundMod_of_ready w c s f p hprep).trans hpatch, rfl, rfl, rfl⟩

/-- After every successful `EncodeSoundMod` the encoder's `tmp.opus` is still there: the only
file removed is `tmp.ogg`. -/
theorem EncodeSoundMod_leaves_tmp_opus (w : World) (sc : Scratch) (bytes : List Byte)
    (h : (EncodeSoundMod w sc bytes).1 ≠ -1) :
    (EncodeSoundMod w sc bytes).2.1.files "tmp.opus" = some (EncodeSoundMod w sc bytes).2.2 := by
  obtain ⟨-, -, h3⟩ := EncodeSoundMod_ok w sc bytes h
  rw [← h3]
  simp only [EncodeSoundMod] at h ⊢
  split at h
  · exact absurd rfl h
  · rename_i hopen
    rw [if_neg hopen]
    split at h
    · exact absurd rfl h
    · rename_i hwr
      rw [if_neg hwr]
      have hwr' : min (w.fwriteCount "tmp.wav" bytes) bytes.length = bytes.length := by
        simpa using hwr
      simp only [hwr', List.take_length] at h ⊢
      split at h
      · exact absurd rfl h
      · rename_i hrun
        rw [if_neg hrun]
        split at h
        · exact absurd rfl h
        · split at h
          · exact absurd rfl h
          · rename_i hsz
            rw [if_neg hsz]
            split at h
            · exact absurd rfl h
            · rename_i hopen2
              rw [if_neg hopen2]
              split at h
              · exact absurd rfl h
              · rename_i hrd
                rw [if_neg hrd]
                simp [Files.remove, runSystem]

/-- C10, evaluated where it fails. With working tools, `EncodeSoundMod` returns 0 and leaves
both `tmp.wav` and `tmp.opus` (it removes `tmp.ogg`, which it never created), and
`GetDecodedOpusFileSize` returns the decoded size and leaves `tmp.opus`. With tools that exit
with status 1, both functions return `-1` and leave the scratch file they wrote. -/
theorem scratch_files_left_behind :
    (EncodeSoundMod demoWorld demoScratch [1, 2]).1 = 0 ∧
    (EncodeSoundMod demoWorld demoScratch [1, 2]).2.1.files "tmp.wav" = some [1, 2] ∧
    (EncodeSoundMod demoWorld demoScratch [1, 2]).2.1.files "tmp.opus" = some [1, 2, 3] ∧
    (GetDecodedOpusFileSize demoWorld demoScratch [3, 3]).1 = 25 ∧
    (GetDecodedOpusFileSize demoWorld demoScratch [3, 3]).2.files "tmp.opus" = some [3, 3] ∧
    (GetDecodedOpusFileSize demoWorld demoScratch [3, 3]).2.files "tmp.wav" = none ∧
    (EncodeSoundMod demoFailingWorld demoScratch [1, 2]).1 = -1 ∧
    (EncodeSoundMod demoFailingWorld demoScratch [1, 2]).2.1.files "tmp.wav" = some [1, 2] ∧
    (GetDecodedOpusFileSize demoFailingWorld demoScratch [3, 3]).1 = -1 ∧
    (GetDecodedOpusFileSize demoFailingWorld demoScratch [3, 3]).2.files "tmp.opus" =
      some [3, 3] := by
  decide

/-! ## The scan stays inside the info table -/

theorem fromLE_take4_lt (l : List Byte) : fromLE (l.take 4) < 4294967296 := by
  rcases l with _ | ⟨a, _ | ⟨b, _ | ⟨c, _ | ⟨d, l⟩⟩⟩⟩ <;> simp [fromLE] <;> omega

theorem exists_chunks32 : ∀ (j : Nat) (l : List Byte), l.length = 32 * j →
    ∃ recs : List (List Byte), recs.flatten = l ∧ recs.length = j ∧
      ∀ r ∈ recs, r.length = 32 := by
  intro j
  induction j with
  | zero =>
    intro l hl
    have : l = [] := List.eq_nil_of_length_eq_zero (by omega)
    exact ⟨[], by rw [this]; rfl, rfl, by simp⟩
  | succ j ih =>
    intro l hl
    obtain ⟨recs, h1, h2, h3⟩ := ih (l.drop 32) (by rw [List.length_drop]; omega)
    refine ⟨l.take 32 :: recs, ?_, by rw [List.length_cons, h2], ?_⟩
    · rw [List.flatten_cons, h1, List.take_append_drop]
    · intro r hr
      rcases List.mem_cons.mp hr with h | h
      · rw [h, List.length_take]; omega
      · exact h3 r h

/-- A container whose header fields fit its length has the layout the scan assumes. -/
theorem layout_of_header (mem : List Byte)
    (hfit : headerSizeOf mem + 12 + 32 * ((infoSizeOf mem - headerSizeOf mem) / 32) ≤ mem.length)
    (hle : headerSizeOf mem ≤ infoSizeOf mem) (hL : mem.length < 4294967296) :
    ∃ recs : List (List Byte),
      SoundLayout mem (mem.take (headerSizeOf mem + 12)) recs
        (mem.drop (headerSizeOf mem + 12 + 32 * ((infoSizeOf mem - headerSizeOf mem) / 32))) ∧
      recs.length = (infoSizeOf mem - headerSizeOf mem) / 32 := by
  have hi : infoSizeOf mem < 4294967296 := fromLE_take4_lt _
  obtain ⟨recs, h1, h2, h3⟩ := exists_chunks32 ((infoSizeOf mem - headerSizeOf mem) / 32)
    ((mem.drop (headerSizeOf mem + 12)).take (32 * ((infoSizeOf mem - headerSizeOf mem) / 32)))
    (by rw [List.length_take, List.length_drop]; omega)
  have hlen : (mem.take (headerSizeOf mem + 12)).length = headerSizeOf mem + 12 := by
    rw [List.length_take]; omega
  have hh : ((mem.take (headerSizeOf mem + 12)).drop 8).take 4 = (mem.drop 8).take 4 := by
    rw [List.drop_take, List.take_take, Nat.min_eq_left (by omega)]
  have hi4 : ((mem.take (headerSizeOf mem + 12)).drop 4).take 4 = (mem.drop 4).take 4 := by
    rw [List.drop_take, List.take_take, Nat.min_eq_left (by omega)]
  refine ⟨recs, ⟨?_, by omega, ?_, ?_, h3⟩, h2⟩
  · have e : mem.drop (headerSizeOf mem + 12 + 32 * ((infoSizeOf mem - headerSizeOf mem) / 32)) =
        (mem.drop (headerSizeOf mem + 12)).drop
          (32 * ((infoSizeOf mem - headerSizeOf mem) / 32)) := by
      rw [List.drop_drop]
    rw [h1, List.append_assoc, e, List.take_append_drop, List.take_append_drop]
  · rw [hlen, hh]
    show _ = (headerSizeOf mem + 12) % 4294967296
    omega
  · rw [h2, hh, hi4]
    show _ = (infoSizeOf mem + 4294967296 - headerSizeOf mem) % 4294967296 / 32
    omega

theorem fieldLoads_inside (id : Int) :
    ∀ (recs : List (List Byte)) (pos : Nat) (x : Nat × Nat),
      x ∈ fieldLoads id pos recs → pos ≤ x.1 ∧ x.1 + x.2 ≤ pos + 32 * recs.length := by
  intro recs
  induction recs with
  | nil => intro pos x hx; simp [fieldLoads] at hx
  | cons r rs ih =>
    intro pos x hx
    unfold fieldLoads at hx
    rw [List.length_cons]
    rcases List.mem_append.mp hx with h | h
    · split at h
      · simp only [List.mem_cons, List.mem_singleton, List.not_mem_nil, or_false] at h
        rcases h with rfl | rfl <;> simp only <;> omega
      · simp only [List.mem_singleton] at h
        subst h
        simp only
        omega
    · have := ih (pos + 32) x h
      omega

theorem fieldStores_inside (id : Int) :
    ∀ (recs : List (List Byte)) (pos : Nat) (x : Nat × Nat),
      x ∈ fieldStores id pos recs → pos ≤ x.1 ∧ x.1 + x.2 ≤ pos + 32 * recs.length := by
  intro recs
  induction recs with
  | nil => intro pos x hx; simp [fieldStores] at hx
  | cons r rs ih =>
    intro pos x hx
    unfold fieldStores at hx
    rw [List.length_cons]
    rcases List.mem_append.mp hx with h | h
    · split at h
      · simp only [List.mem_cons, List.mem_singleton, List.not_mem_nil, or_false] at h
        rcases h with rfl | rfl | rfl <;> simp only <;> omega
      · simp at h
    · have := ih (pos + 32) x h
      omega

theorem drop_append_of_length (a b : List Byte) (n : Nat) (h : a.length = n) :
    (a ++ b).drop n = b := by
  subst h
  exact List.drop_left _ _

theorem patchContainer_wrapMem :
    patchContainer demoWorld demoContainer
      { mem := wrapMem, scratch := demoScratch, output := [], fileCount := 0, stores := [] }
      "9.wem" demo9WemPrepared = .fault := by
  rfl

/-- Below 4 GiB the scan stays inside the info table: a container image shorter than `2^32`
bytes whose header fields satisfy
`headerSize ≤ infoSize` and `headerSize + 12 + 32 * ((infoSize - headerSize) / 32) ≤ length`.
The code computes the table start `headerSize + 12` and the record count
`(infoSize - headerSize) / 32` without wrap-around; the loop body never ends in an access
outside the mapping; after `k` records, matching or not, `pos` is `headerSize + 12 + 32 * k`, so
exactly `(infoSize - headerSize) / 32` records are visited, 32 bytes apart; every load and
every store of the loop lies inside the table; the header, what follows the table and the
appended payload are as before the scan. Without `headerSize ≤ infoSize` the count wraps: the
image `wrapMem` (`infoSize = 0`, `headerSize = 32`, 44 bytes) satisfies the length condition,
the count is `134217727` and the scan leaves the mapping. -/
theorem scan_stays_inside_table (w : World) (c : SoundContainer) (s : LoaderState)
    (name : String) (p : Prepared)
    (hle : headerSizeOf s.mem ≤ infoSizeOf s.mem)
    (hfit : headerSizeOf s.mem + 12 + 32 * ((infoSizeOf s.mem - headerSizeOf s.mem) / 32) ≤
      s.mem.length)
    (hL : s.mem.length < 4294967296) :
    growContainer s.mem p.FileBytes = some (s.mem ++ p.FileBytes) ∧
    readU32 (s.mem ++ p.FileBytes) 4 = some (infoSizeOf s.mem) ∧
    readU32 (s.mem ++ p.FileBytes) 8 = some (headerSizeOf s.mem) ∧
    (headerSizeOf s.mem + 12) % 4294967296 = headerSizeOf s.mem + 12 ∧
    (infoSizeOf s.mem + 4294967296 - headerSizeOf s.mem) % 4294967296 / 32 =
      (infoSizeOf s.mem - headerSizeOf s.mem) / 32 ∧
    patchContainer w c s name p ≠ .fault ∧
    (∀ k, k ≤ (infoSizeOf s.mem - headerSizeOf s.mem) / 32 →
      ∃ stk, scanInfoTable name p.soundModId p.encodedSize p.decodedSize (soundModOffset s.mem)
          k { mem := s.mem ++ p.FileBytes, pos := (headerSizeOf s.mem + 12) % 4294967296,
              soundFound := false, format := p.format, output := s.output,
              stores := s.stores ++ [(soundModOffset s.mem, p.FileBytes.length)],
              loads := [] } = some stk ∧
        stk.pos = headerSizeOf s.mem + 12 + 32 * k) ∧
    (∃ st newStores,
      scanInfoTable name p.soundModId p.encodedSize p.decodedSize (soundModOffset s.mem)
          ((infoSizeOf s.mem + 4294967296 - headerSizeOf s.mem) % 4294967296 / 32)
          { mem := s.mem ++ p.FileBytes, pos := (headerSizeOf s.mem + 12) % 4294967296,
            soundFound := false, format := p.format, output := s.output,
            stores := s.stores ++ [(soundModOffset s.mem, p.FileBytes.length)],
            loads := [] } = some st ∧
      st.pos = headerSizeOf s.mem + 12 + 32 * ((infoSizeOf s.mem - headerSizeOf s.mem) / 32) ∧
      (∀ a ∈ st.loads, headerSizeOf s.mem + 12 ≤ a.1 ∧
        a.1 + a.2 ≤ headerSizeOf s.mem + 12 +
          32 * ((infoSizeOf s.mem - headerSizeOf s.mem) / 32)) ∧
      st.stores = s.stores ++ [(soundModOffset s.mem, p.FileBytes.length)] ++ newStores ∧
      (∀ a ∈ newStores, headerSizeOf s.mem + 12 ≤ a.1 ∧
        a.1 + a.2 ≤ headerSizeOf s.mem + 12 +
          32 * ((infoSizeOf s.mem - headerSizeOf s.mem) / 32)) ∧
      st.mem.length = s.mem.length + p.FileBytes.length ∧
      st.mem.take (headerSizeOf s.mem + 12) = s.mem.take (headerSizeOf s.mem + 12) ∧
      st.mem.drop (headerSizeOf s.mem + 12 +
          32 * ((infoSizeOf s.mem - headerSizeOf s.mem) / 32)) =
        s.mem.drop (headerSizeOf s.mem + 12 +
          32 * ((infoSizeOf s.mem - headerSizeOf s.mem) / 32)) ++ p.FileBytes ∧
      st.mem.drop s.mem.length = p.FileBytes) ∧
    (headerSizeOf wrapMem + 12 + 32 * ((infoSizeOf wrapMem - headerSizeOf wrapMem) / 32) ≤
        wrapMem.length ∧
      ¬ headerSizeOf wrapMem ≤ infoSizeOf wrapMem ∧
      (infoSizeOf wrapMem + 4294967296 - headerSizeOf wrapMem) % 4294967296 / 32 = 134217727 ∧
      patchContainer demoWorld demoContainer
        { mem := wrapMem, scratch := demoScratch, output := [], fileCount := 0, stores := [] }
        "9.wem" demo9WemPrepared = .fault) := by
  have hi : infoSizeOf s.mem < 4294967296 := fromLE_take4_lt _
  obtain ⟨recs, hlay, hcount⟩ := layout_of_header s.mem hfit hle hL
  have hlen32 := hlay.2.2.2.2
  have hhdr : (s.mem.take (headerSizeOf s.mem + 12)).length = headerSizeOf s.mem + 12 := by
    rw [List.length_take]; omega
  have hstart : (headerSizeOf s.mem + 12) % 4294967296 = headerSizeOf s.mem + 12 := by omega
  have hj : (infoSizeOf s.mem + 4294967296 - headerSizeOf s.mem) % 4294967296 / 32 =
      (infoSizeOf s.mem - headerSizeOf s.mem) / 32 := by omega
  have hoff : soundModOffset s.mem = s.mem.length := by unfold soundModOffset; omega
  have hfl := flatten_length_32 recs hlen32
  refine ⟨growContainer_eq_append _ _ hL, ?_, ?_, hstart, hj, ?_, ?_, ?_, ?_⟩
  · unfold readU32 infoSizeOf
    rw [readBytes_head s.mem _ 4 4 (by omega)]; rfl
  · unfold readU32 headerSizeOf
    rw [readBytes_head s.mem _ 8 4 (by omega)]; rfl
  · cases hres : w.resizeFails c.Path (newContainerSize s.mem p.FileBytes) with
    | true =>
      unfold patchContainer
      rw [hres]
      simp
    | false =>
      obtain ⟨o', hpatch, -, -⟩ := patchContainer_layout w c s name p _ recs _ hlay hL hres
      rw [hpatch]
      simp
  · intro k hk
    have hk' : k ≤ recs.length := by omega
    have hsplit : s.mem ++ p.FileBytes = s.mem.take (headerSizeOf s.mem + 12) ++
        (recs.take k).flatten ++ ((recs.drop k).flatten ++
          (s.mem.drop (headerSizeOf s.mem + 12 +
            32 * ((infoSizeOf s.mem - headerSizeOf s.mem) / 32)) ++ p.FileBytes)) := by
      have hm := hlay.1
      have : recs.flatten = (recs.take k).flatten ++ (recs.drop k).flatten := by
        rw [← List.flatten_append, List.take_append_drop]
      rw [this] at hm
      conv_lhs => rw [hm]
      simp only [List.append_assoc]
    obtain ⟨f', o', hscan, -, -⟩ := scanInfoTable_mid name p.soundModId p.encodedSize
      p.decodedSize (soundModOffset s.mem) (recs.take k) (s.mem.take (headerSizeOf s.mem + 12))
      ((recs.drop k).flatten ++ (s.mem.drop (headerSizeOf s.mem + 12 +
        32 * ((infoSizeOf s.mem - headerSizeOf s.mem) / 32)) ++ p.FileBytes))
      false p.format s.output (s.stores ++ [(soundModOffset s.mem, p.FileBytes.length)]) []
      (fun r hr => hlen32 r (List.mem_of_mem_take hr))
    rw [List.length_take, Nat.min_eq_left hk', hhdr] at hscan
    rw [hstart, hsplit, hscan]
    exact ⟨_, rfl, rfl⟩
  · obtain ⟨f', o', hscan, -, -⟩ := scanInfoTable_mid name p.soundModId p.encodedSize
      p.decodedSize (soundModOffset s.mem) recs (s.mem.take (headerSizeOf s.mem + 12))
      (s.mem.drop (headerSizeOf s.mem + 12 +
        32 * ((infoSizeOf s.mem - headerSizeOf s.mem) / 32)) ++ p.FileBytes)
      false p.format s.output (s.stores ++ [(soundModOffset s.mem, p.FileBytes.length)]) []
      hlen32
    have hsplit : s.mem ++ p.FileBytes = s.mem.take (headerSizeOf s.mem + 12) ++
        recs.flatten ++ (s.mem.drop (headerSizeOf s.mem + 12 +
            32 * ((infoSizeOf s.mem - headerSizeOf s.mem) / 32)) ++ p.FileBytes) := by
      conv_lhs => rw [hlay.1]
      simp only [List.append_assoc]
    rw [hcount, hhdr] at hscan
    rw [hstart, hj, hsplit, hscan]
    have hfl2 := flatten_length_32 (recs.map (rewriteRecord p.soundModId p.encodedSize
        p.decodedSize (soundModOffset s.mem))) (by
      intro r hr
      obtain ⟨r0, hr0, rfl⟩ := List.mem_map.mp hr
      exact rewriteRecord_length _ _ _ _ r0 (hlen32 r0 hr0))
    rw [List.length_map] at hfl2
    have hlenrest : (s.mem.drop (headerSizeOf s.mem + 12 +
        32 * ((infoSizeOf s.mem - headerSizeOf s.mem) / 32))).length =
        s.mem.length - (headerSizeOf s.mem + 12 +
          32 * ((infoSizeOf s.mem - headerSizeOf s.mem) / 32)) := List.length_drop _ _
    refine ⟨_, fieldStores p.soundModId (headerSizeOf s.mem + 12) recs, rfl, rfl, ?_, rfl, ?_,
      ?_, ?_, ?_, ?_⟩
    · intro a ha
      have := fieldLoads_inside p.soundModId recs (headerSizeOf s.mem + 12) a
        (by simpa using ha)
      rw [hcount] at this
      exact this
    · intro a ha
      have := fieldStores_inside p.soundModId recs (headerSizeOf s.mem + 12) a ha
      rw [hcount] at this
      exact this
    · simp only [List.length_append, hfl2, hhdr, hlenrest, hcount]
      omega
    · simp only []
      rw [List.append_assoc, List.take_append_of_le_length (by omega), List.take_take,
        Nat.min_self]
    · exact drop_append_of_length _ _ _ (by rw [List.length_append, hfl2, hhdr, hcount])
    · show List.drop _ (_ ++ _ ++ (_ ++ _)) = _
      rw [← List.append_assoc]
      exact drop_append_of_length _ _ _ (by
        simp only [List.length_append, hfl2, hhdr, hlenrest, hcount]
        omega)
  · exact ⟨by decide, by decide, by decide, patchContainer_wrapMem⟩

theorem demo_header_fits :
    headerSizeOf demoState.mem ≤ infoSizeOf demoState.mem ∧
    headerSizeOf demoState.mem + 12 +
      32 * ((infoSizeOf demoState.mem - headerSizeOf demoState.mem) / 32) ≤
        demoState.mem.length := by
  decide

/-- The scan of the sample container for `9.wem`. -/
theorem scan_stays_inside_table_witness :
    headerSizeOf demoState.mem ≤ infoSizeOf demoState.mem ∧
    headerSizeOf demoState.mem + 12 +
      32 * ((infoSizeOf demoState.mem - headerSizeOf demoState.mem) / 32) ≤
        demoState.mem.length ∧
    demoState.mem.length < 4294967296 ∧
    growContainer demoState.mem demo9WemPrepared.FileBytes =
      some (demoState.mem ++ demo9WemPrepared.FileBytes) ∧
    patchContainer demoWorld demoContainer demoState "9.wem" demo9WemPrepared ≠ .fault :=
  ⟨demo_header_fits.1, demo_header_fits.2, demo_length_lt,
    (scan_stays_inside_table demoWorld demoContainer demoState "9.wem" demo9WemPrepared
      demo_header_fits.1 demo_header_fits.2 demo_length_lt).1,
    (scan_stays_inside_table demoWorld demoContainer demoState "9.wem" demo9WemPrepared
      demo_header_fits.1 demo_header_fits.2 demo_length_lt).2.2.2.2.2.1⟩

/-! ## The end-to-end example -/

theorem prepareSoundMod_wem (w : World) (sc : Scratch) (f : SoundModFile)
    (hid : deriveSoundModId (pathStem f.Name.toList) ≠ -1)
    (hext : pathExtension f.Name.toList = ".wem".toList) :
    prepareSoundMod w sc f =
      .ready { soundModId := deriveSoundModId (pathStem f.Name.toList),
               FileBytes := f.FileBytes, encodedSize := toInt32 f.FileBytes.length,
               decodedSize := toInt32 f.FileBytes.length, format := 3, scratch := sc } := by
  unfold prepareSoundMod
  simp only [if_neg hid, inferFormat_wem _ _ hext]
  simp [queryDecodedSize]

/-- One `.wem` mod file for the second of three records. -/
theorem LoadSoundMods_single_wem (w : World) (c : SoundContainer) (mem : List Byte)
    (scratch : Scratch) (f : SoundModFile) (hdr r1 r2 r3 rest : List Byte)
    (hitems : c.ModFileList = [f])
    (hlay : SoundLayout mem hdr [r1, r2, r3] rest)
    (hL : mem.length + f.FileBytes.length < 2147483648)
    (hid : deriveSoundModId (pathStem f.Name.toList) ≠ -1)
    (hext : pathExtension f.Name.toList = ".wem".toList)
    (h1 : recId r1 ≠ toUInt32 (deriveSoundModId (pathStem f.Name.toList)))
    (h2 : recId r2 = toUInt32 (deriveSoundModId (pathStem f.Name.toList)))
    (h3 : recId r3 ≠ toUInt32 (deriveSoundModId (pathStem f.Name.toList)))
    (hres : ∀ size, w.resizeFails c.Path size = false) :
    ∃ (s1 : LoaderState) (r2' : List Byte),
      LoadSoundMods w c mem scratch = some s1 ∧
      s1.mem = hdr ++ [r1, r2', r3].flatten ++ (rest ++ f.FileBytes) ∧
      s1.mem.length = mem.length + f.FileBytes.length ∧
      recOffset r2' = mem.length ∧ recEncodedSize r2' = f.FileBytes.length ∧
      recDecodedSize r2' = f.FileBytes.length ∧
      recId r2' = recId r2 ∧ recFormat r2' = recFormat r2 ∧
      r2'.take 12 = r2.take 12 ∧ r2'.drop 24 = r2.drop 24 ∧
      s1.fileCount = 1 := by
  have hlen32 := hlay.2.2.2.2
  have hr2 : r2.length = 32 := hlen32 r2 (by simp)
  have hprep := prepareSoundMod_wem w scratch f hid hext
  obtain ⟨s', hs1, hm1, -, hc1⟩ := processSoundMod_match w c
    { mem := mem, scratch := scratch, output := [], fileCount := 0, stores := [] } f _
    hdr [r1, r2, r3] rest hlay (by show mem.length < _; omega) hprep (hres _)
    ⟨r2, by simp, h2⟩
  have hloop : loadLoop w c c.ModFileList
      { mem := mem, scratch := scratch, output := [], fileCount := 0, stores := [] } =
      some (s', true) := by
    rw [hitems, loadLoop, hs1]
    rfl
  obtain ⟨s1, g1, g2, g3, -⟩ := LoadSoundMods_of_loadLoop w c mem scratch s' true hloop
  obtain ⟨k1, k2, k3, k4, k5, k6, k7⟩ := rewriteRecord_fields
    (deriveSoundModId (pathStem f.Name.toList)) (toInt32 f.FileBytes.length)
    (toInt32 f.FileBytes.length) mem.length r2 hr2 h2
  have hlen := rewritten_layout_length hdr [r1, r2, r3] rest f.FileBytes
    (deriveSoundModId (pathStem f.Name.toList)) (toInt32 f.FileBytes.length)
    (toInt32 f.FileBytes.length) mem.length hlen32
  rw [← hlay.1] at hlen
  have hsz : toUInt32 (toInt32 (f.FileBytes.length : Int)) = f.FileBytes.length := by
    rw [toUInt32_toInt32, toUInt32_natCast]
    exact Nat.mod_eq_of_lt (by omega)
  have hm1' : s'.mem = hdr ++ ([r1, r2, r3].map (rewriteRecord
      (deriveSoundModId (pathStem f.Name.toList)) (toInt32 f.FileBytes.length)
      (toInt32 f.FileBytes.length) mem.length)).flatten ++ (rest ++ f.FileBytes) := hm1
  refine ⟨s1, rewriteRecord (deriveSoundModId (pathStem f.Name.toList))
    (toInt32 f.FileBytes.length) (toInt32 f.FileBytes.length) mem.length r2, g1, ?_, ?_, ?_,
    ?_, ?_, k1, k5, k6, k7, ?_⟩
  · rw [g2, hm1', List.map_cons, List.map_cons, List.map_cons, List.map_nil,
      rewriteRecord_of_ne _ _ _ _ r1 h1, rewriteRecord_of_ne _ _ _ _ r3 h3]
  · rw [g2, hm1', hlen]
  · rw [k3]; exact Nat.mod_eq_of_lt (by omega)
  · rw [k2, hsz]
  · rw [k4, hsz]
  · rw [g3, hc1]; rfl

theorem sample_layout : SoundLayout sampleMem demoHeader sampleRecords sampleRest :=
  ⟨rfl, by decide, by decide, by decide, by decide⟩

theorem sample_length : sampleMem.length = 1000 := by
  have h1 : demoHeader.length = 12 := rfl
  have h2 : sampleRecords.flatten.length = 96 := by decide
  have h3 : sampleRest.length = 892 := List.length_replicate _ _
  unfold sampleMem
  rw [List.length_append, List.length_append, h1, h2, h3]

theorem sample_payload_length : sampleWem.FileBytes.length = 100 :=
  List.length_replicate _ _

theorem sample_ids :
    deriveSoundModId (pathStem sampleWem.Name.toList) ≠ -1 ∧
    pathExtension sampleWem.Name.toList = ".wem".toList ∧
    recId (demoRecord 5 10 108 10 3) ≠
      toUInt32 (deriveSoundModId (pathStem sampleWem.Name.toList)) ∧
    recId (demoRecord 42 50 950 50 3) =
      toUInt32 (deriveSoundModId (pathStem sampleWem.Name.toList)) ∧
    recId (demoRecord 7 20 930 20 3) ≠
      toUInt32 (deriveSoundModId (pathStem sampleWem.Name.toList)) ∧
    recEncodedSize (demoRecord 42 50 950 50 3) = 50 ∧
    recOffset (demoRecord 42 50 950 50 3) = 950 := by
  decide

theorem sample_resize_ok : ∀ size, demoWorld.resizeFails sampleContainer.Path size = false :=
  fun _ => rfl

/-- C12 as stated fails: the sample container has 1000 bytes and three records, record #2
(sound id 42) has an old payload of 50 bytes at offset 950, and `42.wem` brings 100 new bytes.
After `LoadSoundMods` the container has 1100 bytes, not 1050: the new payload is appended and
the old one stays where it was. -/
theorem sample_length_is_1100 :
    sampleMem.length = 1000 ∧ sampleRecords.length = 3 ∧
    recEncodedSize (demoRecord 42 50 950 50 3) = 50 ∧
    sampleWem.FileBytes.length = 100 ∧
    ∃ s1, LoadSoundMods demoWorld sampleContainer sampleMem demoScratch = some s1 ∧
      s1.mem.length = 1100 ∧ s1.mem.length ≠ 1050 := by
  obtain ⟨s1, r2', h1, -, h3, -⟩ := LoadSoundMods_single_wem demoWorld sampleContainer
    sampleMem demoScratch sampleWem demoHeader _ _ _ sampleRest rfl sample_layout
    (by rw [sample_length, sample_payload_length]; decide) sample_ids.1 sample_ids.2.1
    sample_ids.2.2.1 sample_ids.2.2.2.1 sample_ids.2.2.2.2.1 sample_resize_ok
  rw [sample_length, sample_payload_length] at h3
  exact ⟨sample_length, rfl, sample_ids.2.2.2.2.2.1, sample_payload_length, s1, h1, h3,
    by rw [h3]; decide⟩

/-- C12, as amended: a container of 1000 bytes with three records and one `.wem` mod file of
100 bytes (no transcoding) whose sound id is the id of record #2 only. After `LoadSoundMods`
the container has 1100 bytes (the payload is appended; the old payload of record #2, 50 bytes
in the example, is not reclaimed); record #2 has offset 1000, the old end of the file, and
size 100, its id, format code and other bytes are as before; records #1 and #3, the header
and the old payloads are unchanged. -/
theorem end_to_end_example (w : World) (c : SoundContainer) (mem : List Byte)
    (scratch : Scratch) (f : SoundModFile) (hdr r1 r2 r3 rest : List Byte)
    (hitems : c.ModFileList = [f])
    (hlay : SoundLayout mem hdr [r1, r2, r3] rest)
    (hsize : mem.length = 1000)
    (hnew : f.FileBytes.length = 100)
    (hid : deriveSoundModId (pathStem f.Name.toList) ≠ -1)
    (hext : pathExtension f.Name.toList = ".wem".toList)
    (h1 : recId r1 ≠ toUInt32 (deriveSoundModId (pathStem f.Name.toList)))
    (h2 : recId r2 = toUInt32 (deriveSoundModId (pathStem f.Name.toList)))
    (h3 : recId r3 ≠ toUInt32 (deriveSoundModId (pathStem f.Name.toList)))
    (hres : ∀ size, w.resizeFails c.Path size = false) :
    ∃ (s1 : LoaderState) (r2' : List Byte),
      LoadSoundMods w c mem scratch = some s1 ∧
      s1.mem = hdr ++ [r1, r2', r3].flatten ++ (rest ++ f.FileBytes) ∧
      s1.mem.length = 1100 ∧
      recOffset r2' = 1000 ∧ recEncodedSize r2' = 100 ∧
      recId r2' = recId r2 ∧ recFormat r2' = recFormat r2 ∧
      r2'.take 12 = r2.take 12 ∧ r2'.drop 24 = r2.drop 24 := by
  obtain ⟨s1, r2', g1, g2, g3, g4, g5, -, g7, g8, g9, g10, -⟩ :=
    LoadSoundMods_single_wem w c mem scratch f hdr r1 r2 r3 rest hitems hlay
      (by omega) hid hext h1 h2 h3 hres
  exact ⟨s1, r2', g1, g2, by omega, by omega, by omega, g7, g8, g9, g10⟩

/-- C12 as amended, at the 1000-byte sample container and `42.wem`. -/
theorem end_to_end_example_witness :
    SoundLayout sampleMem demoHeader sampleRecords sampleRest ∧
    sampleMem.length = 1000 ∧ sampleWem.FileBytes.length = 100 ∧
    ∃ (s1 : LoaderState) (r2' : List Byte),
      LoadSoundMods demoWorld sampleContainer sampleMem demoScratch = some s1 ∧
      s1.mem.length = 1100 ∧ recOffset r2' = 1000 ∧ recEncodedSize r2' = 100 ∧
      s1.mem = demoHeader ++
        [demoRecord 5 10 108 10 3, r2', demoRecord 7 20 930 20 3].flatten ++
        (sampleRest ++ sampleWem.FileBytes) := by
  obtain ⟨s1, r2', g1, g2, g3, g4, g5, -⟩ :=
    end_to_end_example demoWorld sampleContainer sampleMem demoScratch sampleWem demoHeader
      _ _ _ sampleRest rfl sample_layout sample_length sample_payload_length sample_ids.1
      sample_ids.2.1 sample_ids.2.2.1 sample_ids.2.2.2.1 sample_ids.2.2.2.2.1 sample_resize_ok
  exact ⟨sample_layout, sample_length, sample_payload_length, s1, r2', g1, g3, g4, g5, g2⟩

/-! ## The catalog -/

theorem parseArguments_keeps (args : List String) :
    ∀ (s0 st : MainState), parseArguments args s0 = .ok st →
      st.ResourceDataMap = s0.ResourceDataMap ∧ st.BasePath = s0.BasePath := by
  induction args with
  | nil =>
    intro s0 st h
    simp only [parseArguments, Except.ok.injEq] at h
    subst h
    exact ⟨rfl, rfl⟩
  | cons a rest ih =>
    intro s0 st h
    unfold parseArguments at h
    split at h
    · have h' := ih _ _ h
      exact h'
    · split at h
      · have h' := ih _ _ h
        exact h'
      · split at h
        · have h' := ih _ _ h
          exact h'
        · split at h
          · have h' := ih _ _ h
            exact h'
          · split at h
            · have h' := ih _ _ h
              exact h'
            · exact absurd h (by simp)

/-- C11 as stated fails: without `--verbose`, a missing `rs_data` is passed over in silence.
The run `EternalModLoader /game` with `/game/base/` present and no `rs_data` goes on to mod
discovery with an empty catalog and has printed nothing. -/
theorem missing_catalog_is_silent :
    demoMainEnv.pathExists ("/game/base/" ++ ResourceDataFileName) = false ∧
    main demoMainEnv "EternalModLoader" ["/game"] =
      .findMods { BasePath := "/game/base/", listResources := false, Verbose := false,
                  SlowMode := false, CompressTextures := false, MultiThreading := true,
                  ResourceDataMap := [], output := [] } := by
  decide

/-- C11, as amended: in a patching run (arguments accepted, no `--list-res`), for every
setting of the flags: if `rs_data` is missing, the catalog map is empty and `main` goes on to
mod discovery, having printed the warning "rs_data was not found" when `--verbose` was given
and nothing otherwise; if `rs_data` exists but `ParseResourceData` throws or returns no
entries, the catalog map is empty, the line "ERROR: Failed to parse rs_data" is printed and
`main` goes on to mod discovery. The flags are left as the arguments set them. -/
theorem catalog_fails_soft (env : MainEnv) (argv0 arg1 : String) (rest : List String)
    (st : MainState)
    (hversion : arg1 ≠ "--version")
    (hbase : env.pathExists (arg1 ++ Separator ++ "base" ++ Separator) = true)
    (hargs : parseArguments rest (initialMainState (arg1 ++ Separator ++ "base" ++ Separator)) =
      .ok st)
    (hrun : st.listResources = false) :
    (env.pathExists (st.BasePath ++ ResourceDataFileName) = false →
      main env argv0 (arg1 :: rest) =
        .findMods { st with
          ResourceDataMap := [],
          output := st.output ++
            (if st.Verbose = true then [.resourceDataNotFound ResourceDataFileName]
             else []) }) ∧
    (env.pathExists (st.BasePath ++ ResourceDataFileName) = true →
      (env.ParseResourceData (st.BasePath ++ ResourceDataFileName) = none ∨
        env.ParseResourceData (st.BasePath ++ ResourceDataFileName) = some []) →
      main env argv0 (arg1 :: rest) =
        .findMods { st with
          ResourceDataMap := [],
          output := st.output ++ [.parseFailed ResourceDataFileName] }) := by
  have hmap : st.ResourceDataMap = [] := (parseArguments_keeps rest _ st hargs).1
  have hmain : main env argv0 (arg1 :: rest) = .findMods (loadResourceData env st) := by
    unfold main
    simp only [hversion, if_false, hbase, Bool.true_eq_false, hargs]
  have hst : ∀ o, ({ st with ResourceDataMap := [], output := o } : MainState) =
      { st with output := o } := by
    intro o
    rw [← hmap]
  constructor
  · intro hmissing
    rw [hmain, hst]
    unfold loadResourceData
    rw [if_pos hrun, if_neg (by rw [hmissing]; simp)]
    by_cases hv : st.Verbose = true
    · rw [if_pos hv, if_pos hv]
    · rw [if_neg hv, if_neg hv, List.append_nil]
  · intro hexists hparse
    rw [hmain, hst]
    unfold loadResourceData
    rw [if_pos hrun, if_pos hexists]
    rcases hparse with h | h
    · rw [h]
    · rw [h]
      simp only [List.isEmpty_nil, if_true]
      rw [← hmap]

/-- C11 as amended, at the run `EternalModLoader /game --verbose` with `rs_data` missing. -/
theorem catalog_fails_soft_witness :
    parseArguments ["--verbose"] (initialMainState ("/game" ++ Separator ++ "base" ++ Separator)) =
      .ok { BasePath := "/game/base/", listResources := false, Verbose := true,
            SlowMode := false, CompressTextures := false, MultiThreading := true,
            ResourceDataMap := [], output := [.verboseEnabled] } ∧
    main demoMainEnv "EternalModLoader" ["/game", "--verbose"] =
      .findMods { BasePath := "/game/base/", listResources := false, Verbose := true,
                  SlowMode := false, CompressTextures := false, MultiThreading := true,
                  ResourceDataMap := [],
                  output := [.verboseEnabled, .resourceDataNotFound "rs_data"] } :=
  ⟨rfl,
    (catalog_fails_soft demoMainEnv "EternalModLoader" "/game" ["--verbose"]
      { BasePath := "/game/base/", listResources := false, Verbose := true,
        SlowMode := false, CompressTextures := false, MultiThreading := true,
        ResourceDataMap := [], output := [.verboseEnabled] }
      (by decide) (by decide) rfl rfl).1 (by decide)⟩

/-! ## Containers of 4 GiB and more -/

theorem take_append_of_length (a b : List Byte) (n : Nat) (h : a.length = n) :
    (a ++ b).take n = a := by
  subst h
  exact List.take_left _ _

/-- When `resize_file` does not throw, the loop body sees of the container only its first
`soundModOffset` bytes: the rest is cut off. -/
theorem patchContainer_cut (w : World) (c : SoundContainer) (s : LoaderState) (name : String)
    (p : Prepared)
    (hres : w.resizeFails c.Path (newContainerSize s.mem p.FileBytes) = false) :
    patchContainer w c s name p =
      patchContainer w c { s with mem := s.mem.take (soundModOffset s.mem) } name p := by
  have ho : soundModOffset s.mem ≤ s.mem.length := by unfold soundModOffset; omega
  have hlt : soundModOffset s.mem < 4294967296 := by unfold soundModOffset; omega
  have hlen : (s.mem.take (soundModOffset s.mem)).length = soundModOffset s.mem := by
    rw [List.length_take]; omega
  have hoff : soundModOffset (s.mem.take (soundModOffset s.mem)) = soundModOffset s.mem := by
    have e : ∀ m : List Byte, soundModOffset m = m.length % 4294967296 := fun _ => rfl
    rw [e (s.mem.take _), hlen]; exact Nat.mod_eq_of_lt hlt
  have hgrow : growContainer (s.mem.take (soundModOffset s.mem)) p.FileBytes =
      growContainer s.mem p.FileBytes := by
    rw [growContainer_eq_take, growContainer_eq_take, hoff, List.take_take, Nat.min_self]
  unfold newContainerSize at hres
  unfold patchContainer newContainerSize
  simp only [hgrow, hoff, hres, Bool.false_eq_true, if_false]

theorem processSoundMod_cut (w : World) (c : SoundContainer) (s : LoaderState)
    (f : SoundModFile) (p : Prepared) (hprep : prepareSoundMod w s.scratch f = .ready p)
    (hres : w.resizeFails c.Path (newContainerSize s.mem p.FileBytes) = false) :
    processSoundMod w c s f =
      processSoundMod w c { s with mem := s.mem.take (soundModOffset s.mem) } f := by
  rw [processSoundMod_of_ready w c s f p hprep,
    processSoundMod_of_ready w c { s with mem := s.mem.take (soundModOffset s.mem) } f p hprep]
  exact patchContainer_cut w c s f.Name p hres

theorem demoMem_length : demoMem.length = 122 := by decide

theorem soundModOffset_eq (m : List Byte) (n : Nat) (h : m.length = n) :
    soundModOffset m = n % 4294967296 := by
  unfold soundModOffset; rw [h]

theorem cutMem_length : cutMem.length = 4294967340 := by
  unfold cutMem cutRest
  rw [List.length_append, List.length_replicate]
  have : (demoHeader ++ demoRecords.flatten).length = 108 := by decide
  rw [this]

theorem cutMem_offset : soundModOffset cutMem = 44 := by
  rw [soundModOffset_eq _ _ cutMem_length]

theorem cutMem_take :
    cutMem.take (soundModOffset cutMem) = demoHeader ++ demoRecord 5 10 108 10 3 := by
  rw [cutMem_offset]
  have e : cutMem = (demoHeader ++ demoRecord 5 10 108 10 3) ++
      ([demoRecord 42 4 118 4 2, demoRecord 42 4 118 4 3].flatten ++ cutRest) := by
    unfold cutMem demoRecords
    simp only [List.flatten_cons, List.flatten_nil, List.append_assoc, List.append_nil]
  rw [e]
  exact take_append_of_length _ _ _ (by decide)

theorem cutMem_layout : SoundLayout cutMem demoHeader demoRecords cutRest :=
  ⟨rfl, demo_layout.2⟩

theorem LoadSoundMods_single_cut (w : World) (c : SoundContainer) (mem : List Byte)
    (scratch : Scratch) (f : SoundModFile) (p : Prepared) (hitems : c.ModFileList = [f])
    (hprep : prepareSoundMod w scratch f = .ready p)
    (hres : w.resizeFails c.Path (newContainerSize mem p.FileBytes) = false) :
    LoadSoundMods w c mem scratch =
      LoadSoundMods w c (mem.take (soundModOffset mem)) scratch := by
  unfold LoadSoundMods
  rw [hitems, loadLoop, loadLoop,
    processSoundMod_cut w c
      { mem := mem, scratch := scratch, output := [], fileCount := 0, stores := [] } f p
      hprep hres]

theorem cutMem_table : readBytes cutMem 12 96 = some demoRecords.flatten := by
  have h := readBytes_mid demoHeader demoRecords.flatten cutRest 0 96 (by decide)
  have e1 : demoHeader.length + 0 = 12 := by decide
  have e2 : (demoRecords.flatten.drop 0).take 96 = demoRecords.flatten := by decide
  rw [e1, e2] at h
  exact h

theorem demo_9_long_prepared :
    prepareSoundMod demoWorld demoScratch demo9Long =
      .ready { soundModId := 9, FileBytes := List.replicate 64 7, encodedSize := 64,
               decodedSize := 64, format := 3, scratch := demoScratch } := by
  rfl

set_option maxRecDepth 100000 in
theorem cut_run_9 :
    Option.map (fun s => (s.mem, s.output, s.fileCount))
      (LoadSoundMods demoWorld demoContainer9Long
        (demoHeader ++ demoRecord 5 10 108 10 3) demoScratch) =
      some (demoHeader ++ demoRecord 5 10 108 10 3 ++ List.replicate 64 7,
        [.soundNotFound 9 "sfx.snd"], 0) := by
  decide

set_option maxRecDepth 100000 in
theorem cut_table_differs :
    readBytes (demoHeader ++ demoRecord 5 10 108 10 3 ++ List.replicate 64 7) 12 96 =
      some (demoRecord 5 10 108 10 3 ++ List.replicate 64 7) ∧
    demoRecord 5 10 108 10 3 ++ List.replicate 64 7 ≠ demoRecords.flatten := by
  decide

/-- C7, evaluated where it fails. The container `cutMem` has `2^32 + 44` bytes, a header and
three records (ids 5, 42, 42); the mod file `9.wem` (64 bytes) matches none of them. The
offset is computed modulo `2^32`: the file is cut to `44 + 64 = 108` bytes and the payload is
stored at byte 44, over the second and the third record. The one warning is printed and
nothing is counted, but the info table (bytes 12 to 108) is not what it was. -/
theorem unmatched_item_overwrites_table :
    SoundLayout cutMem demoHeader demoRecords cutRest ∧
    cutMem.length = 4294967340 ∧
    (∀ r ∈ demoRecords, recId r ≠ toUInt32 (deriveSoundModId (pathStem demo9Long.Name.toList))) ∧
    readBytes cutMem 12 96 = some demoRecords.flatten ∧
    ∃ s1, LoadSoundMods demoWorld demoContainer9Long cutMem demoScratch = some s1 ∧
      s1.mem = demoHeader ++ demoRecord 5 10 108 10 3 ++ List.replicate 64 7 ∧
      s1.output = [.soundNotFound 9 "sfx.snd"] ∧ s1.fileCount = 0 ∧
      readBytes s1.mem 12 96 = some (demoRecord 5 10 108 10 3 ++ List.replicate 64 7) ∧
      demoRecord 5 10 108 10 3 ++ List.replicate 64 7 ≠ demoRecords.flatten := by
  refine ⟨cutMem_layout, cutMem_length, by decide, cutMem_table, ?_⟩
  have hcut := LoadSoundMods_single_cut demoWorld demoContainer9Long cutMem demoScratch
    demo9Long _ rfl demo_9_long_prepared rfl
  rw [cutMem_take] at hcut
  have hrun := cut_run_9
  rw [← hcut] at hrun
  cases hs : LoadSoundMods demoWorld demoContainer9Long cutMem demoScratch with
  | none => rw [hs] at hrun; exact absurd hrun (by simp)
  | some s1 =>
    rw [hs, Option.map_some', Option.some.injEq, Prod.mk.injEq, Prod.mk.injEq] at hrun
    obtain ⟨g1, g2, g3⟩ := hrun
    refine ⟨s1, rfl, g1, g2, g3, ?_, cut_table_differs.2⟩
    rw [g1]
    exact cut_table_differs.1

theorem header_fields_of_append (a b : List Byte) (h : 12 ≤ a.length) :
    infoSizeOf (a ++ b) = infoSizeOf a ∧ headerSizeOf (a ++ b) = headerSizeOf a := by
  unfold infoSizeOf headerSizeOf
  rw [List.drop_append_of_le_length (by omega), List.drop_append_of_le_length (by omega),
    List.take_append_of_le_length (by rw [List.length_drop]; omega),
    List.take_append_of_le_length (by rw [List.length_drop]; omega)]
  exact ⟨rfl, rfl⟩

theorem cutMem_header : infoSizeOf cutMem = 96 ∧ headerSizeOf cutMem = 0 := by
  have h := header_fields_of_append demoHeader (demoRecords.flatten ++ cutRest) (by decide)
  have e : cutMem = demoHeader ++ (demoRecords.flatten ++ cutRest) := by
    unfold cutMem; rw [List.append_assoc]
  rw [e, h.1, h.2]
  decide

theorem demo_42_long_prepared :
    prepareSoundMod demoWorld demoScratch demo42Long =
      .ready { soundModId := 42, FileBytes := demo42Long.FileBytes, encodedSize := 64,
               decodedSize := 64, format := 3, scratch := demoScratch } := by
  rfl

theorem demo_9_short_prepared :
    prepareSoundMod demoWorld demoScratch demo9Short =
      .ready { soundModId := 9, FileBytes := [1], encodedSize := 1,
               decodedSize := 1, format := 3, scratch := demoScratch } := by
  rfl

set_option maxRecDepth 100000 in
theorem cut_run_42 :
    Option.map (fun s => (s.mem.drop 44, s.mem.length, s.stores))
      (LoadSoundMods demoWorld demoContainer42Long
        (demoHeader ++ demoRecord 5 10 108 10 3) demoScratch) =
      some (List.replicate 8 7 ++ le32 42 ++ le32 64 ++ le32 44 ++ le32 64 ++
          List.replicate 40 7, 108, [(44, 64), (56, 4), (60, 4), (64, 4)]) := by
  decide

set_option maxRecDepth 100000 in
theorem cut_run_9_short :
    Option.map (fun s => s.mem)
      (LoadSoundMods demoWorld demoContainer9Short
        (demoHeader ++ demoRecord 5 10 108 10 3) demoScratch) = none := by
  decide

set_option maxRecDepth 100000 in
theorem cut_payload_differs :
    List.replicate 8 7 ++ le32 42 ++ le32 64 ++ le32 44 ++ le32 64 ++ List.replicate 40 7 ≠
      demo42Long.FileBytes := by
  decide

/-- C13, evaluated where it fails. The container `cutMem` has `2^32 + 44` bytes; its header
has `headerSize = 0 ≤ infoSize = 96`, and the table of three records ends at byte 108, inside
the container. The offset is computed modulo `2^32`, so the file is cut to 44 bytes plus the
payload. With the 64-byte mod file `42.wem` the payload is stored at bytes 44 to 108, inside the
table; the scan finds sound id 42 in the payload's own bytes and stores the three fields at
bytes 56, 60 and 64, over the payload it has just appended. With the one-byte mod file `9.wem`
the file is 45 bytes long and the scan of the second record leaves the mapping. -/
theorem scan_overwrites_payload :
    headerSizeOf cutMem ≤ infoSizeOf cutMem ∧
    headerSizeOf cutMem + 12 + 32 * ((infoSizeOf cutMem - headerSizeOf cutMem) / 32) ≤
      cutMem.length ∧
    cutMem.length = 4294967340 ∧
    (∃ s1, LoadSoundMods demoWorld demoContainer42Long cutMem demoScratch = some s1 ∧
      s1.stores = [(44, 64), (56, 4), (60, 4), (64, 4)] ∧
      s1.mem.length = 108 ∧
      s1.mem.drop 44 = List.replicate 8 7 ++ le32 42 ++ le32 64 ++ le32 44 ++ le32 64 ++
        List.replicate 40 7 ∧
      s1.mem.drop 44 ≠ demo42Long.FileBytes) ∧
    LoadSoundMods demoWorld demoContainer9Short cutMem demoScratch = none := by
  refine ⟨?_, ?_, cutMem_length, ?_, ?_⟩
  · rw [cutMem_header.1, cutMem_header.2]; decide
  · rw [cutMem_header.1, cutMem_header.2, cutMem_length]; decide
  · have hcut := LoadSoundMods_single_cut demoWorld demoContainer42Long cutMem demoScratch
      demo42Long _ rfl demo_42_long_prepared rfl
    rw [cutMem_take] at hcut
    have hrun := cut_run_42
    rw [← hcut] at hrun
    cases hs : LoadSoundMods demoWorld demoContainer42Long cutMem demoScratch with
    | none => rw [hs] at hrun; exact absurd hrun (by simp)
    | some s1 =>
      rw [hs, Option.map_some', Option.some.injEq, Prod.mk.injEq, Prod.mk.injEq] at hrun
      obtain ⟨g1, g2, g3⟩ := hrun
      refine ⟨s1, rfl, g3, g2, g1, ?_⟩
      rw [g1]
      exact cut_payload_differs
  · have hcut := LoadSoundMods_single_cut demoWorld demoContainer9Short cutMem demoScratch
      demo9Short _ rfl demo_9_short_prepared rfl
    rw [cutMem_take] at hcut
    have hrun := cut_run_9_short
    rw [← hcut] at hrun
    cases hs : LoadSoundMods demoWorld demoContainer9Short cutMem demoScratch with
    | none => rfl
    | some s1 => rw [hs] at hrun; exact absurd hrun (by simp)

/-! ## Any list of mod files -/

theorem recId_of_take (r r' : List Byte) (h : r'.take 12 = r.take 12) : recId r' = recId r := by
  unfold recId
  have e : ∀ x : List Byte, (x.drop 8).take 4 = (x.take 12).drop 8 := by
    intro x; rw [List.drop_take]
  rw [e r', e r, h]

theorem rewriteRecord_keeps (id e d : Int) (off : Nat) (r : List Byte) (hr : r.length = 32) :
    (rewriteRecord id e d off r).length = 32 ∧
    (rewriteRecord id e d off r).take 12 = r.take 12 ∧
    (rewriteRecord id e d off r).drop 24 = r.drop 24 := by
  by_cases h : recId r = toUInt32 id
  · obtain ⟨-, -, -, -, -, g6, g7⟩ := rewriteRecord_fields id e d off r hr h
    exact ⟨rewriteRecord_length id e d off r hr, g6, g7⟩
  · rw [rewriteRecord_of_ne id e d off r h]
    exact ⟨hr, rfl, rfl⟩

theorem loadLoop_append (w : World) (c : SoundContainer) :
    ∀ (l1 l2 : List SoundModFile) (s s1 : LoaderState),
      loadLoop w c l1 s = some (s1, true) →
      loadLoop w c (l1 ++ l2) s = loadLoop w c l2 s1 := by
  intro l1
  induction l1 with
  | nil =>
    intro l2 s s1 h
    rw [loadLoop] at h
    injection h with h
    injection h with h _
    subst h
    rfl
  | cons f fs ih =>
    intro l2 s s1 h
    rw [List.cons_append, loadLoop]
    rw [loadLoop] at h
    cases hp : processSoundMod w c s f with
    | fault => rw [hp] at h; exact absurd h (by simp)
    | returned s' =>
      rw [hp] at h
      simp only [Option.some.injEq, Prod.mk.injEq] at h
      exact absurd h.2 (by simp)
    | next s' =>
      rw [hp] at h
      exact ih l2 s' s1 h

/-- The loop over any list of mod files, when `resize_file` never throws and the container is
shorter than `2^32` bytes whenever a mod file is taken up: the loop runs to its end, every
record keeps its bytes 0-11 and 24-31, payloads are only appended, and a record whose sound id
no mod file of the list carries is left as it is. -/
theorem loadLoop_maps_records (w : World) (c : SoundContainer)
    (hres : ∀ size, w.resizeFails c.Path size = false) :
    ∀ (items : List SoundModFile) (s : LoaderState) (recs : List (List Byte))
      (hdr rest : List Byte),
      SoundLayout s.mem hdr recs rest →
      (∀ (k : Nat) (s1 : LoaderState) (b : Bool),
        loadLoop w c (items.take k) s = some (s1, b) → s1.mem.length < 4294967296) →
      ∃ (s1 : LoaderState) (g : List Byte → List Byte) (extra : List Byte),
        loadLoop w c items s = some (s1, true) ∧
        s1.mem = hdr ++ (recs.map g).flatten ++ (rest ++ extra) ∧
        SoundLayout s1.mem hdr (recs.map g) (rest ++ extra) ∧
        s1.mem.length = s.mem.length + extra.length ∧
        (∀ r : List Byte, r.length = 32 →
          (g r).length = 32 ∧ (g r).take 12 = r.take 12 ∧ (g r).drop 24 = r.drop 24) ∧
        (∀ X : Nat,
          (∀ f ∈ items, toUInt32 (deriveSoundModId (pathStem f.Name.toList)) ≠ X) →
          ∀ r : List Byte, r.length = 32 → recId r = X → g r = r) := by
  intro items
  induction items with
  | nil =>
    intro s recs hdr rest hlay _
    refine ⟨s, id, [], rfl, ?_, ?_, by simp, fun r hr => ⟨hr, rfl, rfl⟩, fun _ _ _ _ _ => rfl⟩
    · rw [List.map_id, List.append_nil]; exact hlay.1
    · rw [List.map_id, List.append_nil]; exact hlay
  | cons f fs ih =>
    intro s recs hdr rest hlay hstay
    have hL : s.mem.length < 4294967296 := hstay 0 s true rfl
    have hstep : ∀ s', processSoundMod w c s f = .next s' →
        ∀ (k : Nat) (s1 : LoaderState) (b : Bool),
          loadLoop w c (fs.take k) s' = some (s1, b) → s1.mem.length < 4294967296 := by
      intro s' hs' k s1 b hk
      apply hstay (k + 1) s1 b
      rw [List.take_succ_cons, loadLoop, hs']
      exact hk
    cases hprep : prepareSoundMod w s.scratch f with
    | skip line sc =>
      have hp := processSoundMod_of_skip w c s f line sc hprep
      obtain ⟨s1, g, extra, h1, h2, h3, h4, h5, h6⟩ :=
        ih { s with scratch := sc, output := s.output ++ [line] } recs hdr rest hlay
          (hstep _ hp)
      refine ⟨s1, g, extra, ?_, h2, h3, h4, h5, ?_⟩
      · rw [loadLoop, hp]; exact h1
      · intro X hX
        exact h6 X (fun x hx => hX x (List.mem_cons_of_mem _ hx))
    | ready p =>
      have hp := processSoundMod_of_ready w c s f p hprep
      obtain ⟨o', hpatch, -, -⟩ :=
        patchContainer_layout w c s f.Name p hdr recs rest hlay hL (hres _)
      rw [← hp] at hpatch
      have hlen32 := hlay.2.2.2.2
      have hlen := rewritten_layout_length hdr recs rest p.FileBytes p.soundModId
        p.encodedSize p.decodedSize s.mem.length hlen32
      rw [← hlay.1] at hlen
      obtain ⟨s1, g, extra, h1, h2, h3, h4, h5, h6⟩ :=
        ih _ (recs.map (rewriteRecord p.soundModId p.encodedSize p.decodedSize s.mem.length))
          hdr (rest ++ p.FileBytes)
          (SoundLayout_rewrite s.mem hdr recs rest p.FileBytes _ _ _ _ hlay)
          (hstep _ hpatch)
      have hmap : (recs.map (rewriteRecord p.soundModId p.encodedSize p.decodedSize
          s.mem.length)).map g = recs.map (g ∘ rewriteRecord p.soundModId p.encodedSize
          p.decodedSize s.mem.length) := List.map_map _ _ _
      rw [hmap] at h2 h3
      rw [List.append_assoc rest] at h2 h3
      refine ⟨s1, _, p.FileBytes ++ extra, ?_, h2, h3, ?_, ?_, ?_⟩
      · rw [loadLoop, hpatch]; exact h1
      · rw [h4]
        show (hdr ++ _ ++ (rest ++ p.FileBytes)).length + _ = _
        rw [hlen, List.length_append]; omega
      · intro r hr
        obtain ⟨k1, k2, k3⟩ := rewriteRecord_keeps p.soundModId p.encodedSize p.decodedSize
          s.mem.length r hr
        obtain ⟨m1, m2, m3⟩ := h5 _ k1
        exact ⟨m1, m2.trans k2, m3.trans k3⟩
      · intro X hX r hr hid
        have hpid := (prepareSoundMod_ready w s.scratch f p hprep).1
        have hne : recId r ≠ toUInt32 p.soundModId := by
          rw [hid, hpid]
          exact fun h => hX f (List.mem_cons_self _ _) h.symm
        show g (rewriteRecord _ _ _ _ r) = r
        rw [rewriteRecord_of_ne _ _ _ _ r hne]
        exact h6 X (fun x hx => hX x (List.mem_cons_of_mem _ hx)) r hr hid

theorem take_of_append (pre post : List SoundModFile) (k : Nat) :
    ∃ k', pre.take k = (pre ++ post).take k' := by
  by_cases h : k ≤ pre.length
  · exact ⟨k, (List.take_append_of_le_length h).symm⟩
  · refine ⟨pre.length, ?_⟩
    rw [List.take_left, List.take_of_length_le (by omega)]

/-- The bound on the length, from `LoadSoundMods` on the prefixes of the list to its loop. -/
theorem loop_stays_of_LoadSoundMods (w : World) (c : SoundContainer) (mem : List Byte)
    (scratch : Scratch)
    (hstay : ∀ (k : Nat) (s1 : LoaderState),
      LoadSoundMods w { c with ModFileList := c.ModFileList.take k } mem scratch = some s1 →
        s1.mem.length < 4294967296) :
    ∀ (k : Nat) (s1 : LoaderState) (b : Bool),
      loadLoop w c (c.ModFileList.take k)
        { mem := mem, scratch := scratch, output := [], fileCount := 0, stores := [] } =
        some (s1, b) → s1.mem.length < 4294967296 := by
  intro k s1 b hk
  have hk' : loadLoop w { c with ModFileList := c.ModFileList.take k }
      ({ c with ModFileList := c.ModFileList.take k } : SoundContainer).ModFileList
      { mem := mem, scratch := scratch, output := [], fileCount := 0, stores := [] } =
      some (s1, b) :=
    (loadLoop_congr w c { c with ModFileList := c.ModFileList.take k } rfl rfl _ _).trans hk
  obtain ⟨s2, g1, g2, -⟩ := LoadSoundMods_of_loadLoop w _ mem scratch s1 b hk'
  rw [← g2]
  exact hstay k s2 g1

/-- The state `LoadSoundMods` leaves after a prefix of the list of mod files. -/
theorem prefix_state (w : World) (c : SoundContainer) (mem : List Byte) (scratch : Scratch)
    (hdr : List Byte) (recs : List (List Byte)) (rest : List Byte)
    (hres : ∀ size, w.resizeFails c.Path size = false)
    (hlay : SoundLayout mem hdr recs rest)
    (hstay : ∀ (k : Nat) (s1 : LoaderState) (b : Bool),
      loadLoop w c (c.ModFileList.take k)
        { mem := mem, scratch := scratch, output := [], fileCount := 0, stores := [] } =
        some (s1, b) → s1.mem.length < 4294967296)
    (l1 l2 : List SoundModFile) (hsplit : c.ModFileList = l1 ++ l2) (s : LoaderState)
    (hs : LoadSoundMods w { c with ModFileList := l1 } mem scratch = some s) :
    ∃ (s0 : LoaderState) (g : List Byte → List Byte) (extra : List Byte),
      loadLoop w c l1
        { mem := mem, scratch := scratch, output := [], fileCount := 0, stores := [] } =
        some (s0, true) ∧
      s.mem = s0.mem ∧ s.scratch = s0.scratch ∧
      s0.mem = hdr ++ (recs.map g).flatten ++ (rest ++ extra) ∧
      SoundLayout s0.mem hdr (recs.map g) (rest ++ extra) ∧
      s0.mem.length = mem.length + extra.length ∧
      s0.mem.length < 4294967296 ∧
      (∀ r : List Byte, r.length = 32 →
        (g r).length = 32 ∧ (g r).take 12 = r.take 12 ∧ (g r).drop 24 = r.drop 24) := by
  have hst1 : ∀ (k : Nat) (s1 : LoaderState) (b : Bool),
      loadLoop w c (l1.take k)
        { mem := mem, scratch := scratch, output := [], fileCount := 0, stores := [] } =
        some (s1, b) → s1.mem.length < 4294967296 := by
    intro k s1 b hk
    obtain ⟨k', hk'⟩ := take_of_append l1 l2 k
    rw [hk', ← hsplit] at hk
    exact hstay k' s1 b hk
  obtain ⟨s0, g, extra, h1, h2, h3, h4, h5, -⟩ :=
    loadLoop_maps_records w c hres l1
      { mem := mem, scratch := scratch, output := [], fileCount := 0, stores := [] }
      recs hdr rest hlay hst1
  have h1' : loadLoop w { c with ModFileList := l1 }
      ({ c with ModFileList := l1 } : SoundContainer).ModFileList
      { mem := mem, scratch := scratch, output := [], fileCount := 0, stores := [] } =
      some (s0, true) :=
    (loadLoop_congr w c { c with ModFileList := l1 } rfl rfl _ _).trans h1
  obtain ⟨s2, g1, g2, -, -, g5⟩ := LoadSoundMods_of_loadLoop w _ mem scratch s0 true h1'
  rw [hs] at g1
  injection g1 with g1
  subst g1
  have hlt : s0.mem.length < 4294967296 := by
    apply hstay l1.length s0 true
    rw [hsplit, List.take_left]
    exact h1
  exact ⟨s0, g, extra, h1, g2, g5, h2, h3, h4, hlt, h5⟩

/-- One mod file that reaches the scan of a well laid out container shorter than `2^32`
bytes. -/
theorem processSoundMod_ready_layout (w : World) (c : SoundContainer) (s : LoaderState)
    (f : SoundModFile) (p : Prepared) (hdr : List Byte) (recs : List (List Byte))
    (rest : List Byte) (hlay : SoundLayout s.mem hdr recs rest)
    (hL : s.mem.length < 4294967296) (hprep : prepareSoundMod w s.scratch f = .ready p)
    (hres : ∀ size, w.resizeFails c.Path size = false) :
    ∃ s1, processSoundMod w c s f = .next s1 ∧
      s1.mem = hdr ++ (recs.map (rewriteRecord p.soundModId p.encodedSize p.decodedSize
        s.mem.length)).flatten ++ (rest ++ p.FileBytes) ∧
      SoundLayout s1.mem hdr (recs.map (rewriteRecord p.soundModId p.encodedSize p.decodedSize
        s.mem.length)) (rest ++ p.FileBytes) ∧
      s1.mem.length = s.mem.length + p.FileBytes.length := by
  obtain ⟨o', hpatch, -, -⟩ :=
    patchContainer_layout w c s f.Name p hdr recs rest hlay hL (hres _)
  have hlen := rewritten_layout_length hdr recs rest p.FileBytes p.soundModId
    p.encodedSize p.decodedSize s.mem.length hlay.2.2.2.2
  rw [← hlay.1] at hlen
  exact ⟨_, (processSoundMod_of_ready w c s f p hprep).trans hpatch, rfl,
    SoundLayout_rewrite s.mem hdr recs rest p.FileBytes _ _ _ _ hlay, hlen⟩

/-- C9, as amended: any list of mod files `pre ++ B :: post` applied to a well laid out
container that stays shorter than `2^32` bytes (before the first mod file and after each one),
`resize_file` never throwing, where `B` reaches the scan and no mod file after `B` carries its
sound id. After `LoadSoundMods` every record of that sound id reflects `B` only: encoded size =
length of `B`'s payload, offset = the container length just before `B` was taken up, which is
where `B`'s payload starts, decoded size = `B`'s decoded size, all other bytes as in the
original record, whatever the mod files before `B` stored. When the mod file `A` just before
`B` reaches the scan, that offset is the length before `A` plus the length of `A`'s payload. -/
theorem later_item_wins (w : World) (c : SoundContainer) (mem : List Byte) (scratch : Scratch)
    (pre post : List SoundModFile) (B : SoundModFile) (sB : LoaderState) (pB : Prepared)
    (hdr : List Byte) (recs : List (List Byte)) (rest : List Byte)
    (hitems : c.ModFileList = pre ++ B :: post)
    (hlay : SoundLayout mem hdr recs rest)
    (hres : ∀ size, w.resizeFails c.Path size = false)
    (hstay : ∀ (k : Nat) (s1 : LoaderState),
      LoadSoundMods w { c with ModFileList := c.ModFileList.take k } mem scratch = some s1 →
        s1.mem.length < 4294967296)
    (hpre : LoadSoundMods w { c with ModFileList := pre } mem scratch = some sB)
    (hB : prepareSoundMod w sB.scratch B = .ready pB)
    (hlast : ∀ f ∈ post,
      toUInt32 (deriveSoundModId (pathStem f.Name.toList)) ≠ toUInt32 pB.soundModId) :
    ∃ (s2 : LoaderState) (recs2 : List (List Byte)) (rest2 later : List Byte),
      LoadSoundMods w c mem scratch = some s2 ∧
      SoundLayout s2.mem hdr recs2 rest2 ∧ recs2.length = recs.length ∧
      mem.length ≤ sB.mem.length ∧
      s2.mem.length = sB.mem.length + pB.FileBytes.length + later.length ∧
      readBytes s2.mem sB.mem.length pB.FileBytes.length = some pB.FileBytes ∧
      (∀ (i : Nat) (h : i < recs.length) (h2 : i < recs2.length),
        recId (recs.get ⟨i, h⟩) = toUInt32 pB.soundModId →
          recId (recs2.get ⟨i, h2⟩) = toUInt32 pB.soundModId ∧
          recEncodedSize (recs2.get ⟨i, h2⟩) = pB.FileBytes.length ∧
          recOffset (recs2.get ⟨i, h2⟩) = sB.mem.length ∧
          recDecodedSize (recs2.get ⟨i, h2⟩) = toUInt32 pB.decodedSize ∧
          (recs2.get ⟨i, h2⟩).take 12 = (recs.get ⟨i, h⟩).take 12 ∧
          (recs2.get ⟨i, h2⟩).drop 24 = (recs.get ⟨i, h⟩).drop 24) ∧
      (∀ (pre' : List SoundModFile) (A : SoundModFile) (sA : LoaderState) (pA : Prepared),
        pre = pre' ++ [A] →
        LoadSoundMods w { c with ModFileList := pre' } mem scratch = some sA →
        prepareSoundMod w sA.scratch A = .ready pA →
        sB.mem.length = sA.mem.length + pA.FileBytes.length) := by
  have hloop := loop_stays_of_LoadSoundMods w c mem scratch hstay
  have hlen32 := hlay.2.2.2.2
  -- the mod files before `B`
  obtain ⟨sB0, g1, extra1, hrun1, hm, hsc, hmem1, hlay1, hlen1, hlt1, hg1⟩ :=
    prefix_state w c mem scratch hdr recs rest hres hlay hloop pre (B :: post) hitems sB hpre
  -- the mod file `B`
  have hB0 : prepareSoundMod w sB0.scratch B = .ready pB := by rw [← hsc]; exact hB
  obtain ⟨s', hstepB, hmem', hlay', hlen'⟩ :=
    processSoundMod_ready_layout w c sB0 B pB hdr _ _ hlay1 hlt1 hB0 hres
  have hrunB : loadLoop w c (pre ++ [B])
      { mem := mem, scratch := scratch, output := [], fileCount := 0, stores := [] } =
      some (s', true) := by
    rw [loadLoop_append w c pre [B] _ sB0 hrun1, loadLoop, hstepB]
    rfl
  have hlt' : s'.mem.length < 4294967296 := by
    apply hloop (pre.length + 1) s' true
    have e : (pre ++ B :: post).take (pre.length + 1) = pre ++ [B] := by
      rw [List.take_append, List.take_succ_cons, List.take_zero]
    rw [hitems, e]
    exact hrunB
  -- the mod files after `B`
  have hst3 : ∀ (k : Nat) (s1 : LoaderState) (b : Bool),
      loadLoop w c (post.take k) s' = some (s1, b) → s1.mem.length < 4294967296 := by
    intro k s1 b hk
    apply hloop (pre.length + (k + 1)) s1 b
    have e : (pre ++ B :: post).take (pre.length + (k + 1)) = (pre ++ [B]) ++ post.take k := by
      rw [List.take_append, List.take_succ_cons, List.append_assoc, List.singleton_append]
    rw [hitems, e, loadLoop_append w c (pre ++ [B]) _ _ s' hrunB]
    exact hk
  obtain ⟨s20, g3, extra3, hrun3, hmem3, hlay3, hlen3, hg3, hfix3⟩ :=
    loadLoop_maps_records w c hres post s' _ hdr _ hlay' hst3
  have hrun : loadLoop w c c.ModFileList
      { mem := mem, scratch := scratch, output := [], fileCount := 0, stores := [] } =
      some (s20, true) := by
    have e : pre ++ B :: post = (pre ++ [B]) ++ post := by simp
    rw [hitems, e, loadLoop_append w c (pre ++ [B]) post _ s' hrunB]
    exact hrun3
  obtain ⟨s2, k1, k2, -⟩ := LoadSoundMods_of_loadLoop w c mem scratch s20 true hrun
  obtain ⟨-, -, hencB⟩ := prepareSoundMod_ready w sB0.scratch B pB hB0
  have hn : pB.FileBytes.length < 4294967296 := by omega
  refine ⟨s2, _, _, extra3, k1, by rw [k2]; exact hlay3, ?_, ?_, ?_, ?_, ?_, ?_⟩
  · simp only [List.length_map]
  · rw [hm, hlen1]; omega
  · rw [k2, hlen3, hlen', hm]
  · rw [k2, hmem3, hm]
    have hf1 := flatten_length_32 _ hlay1.2.2.2.2
    have hf3 := flatten_length_32 _ hlay3.2.2.2.2
    simp only [List.length_map] at hf1 hf3
    have hpos0 : sB0.mem.length = hdr.length + 32 * recs.length + (rest ++ extra1).length := by
      conv_lhs => rw [hmem1]
      simp only [List.length_append, hf1]
    generalize (((recs.map g1).map (rewriteRecord pB.soundModId pB.encodedSize pB.decodedSize
      sB0.mem.length)).map g3).flatten = R at hf3 ⊢
    have hpos : sB0.mem.length = (hdr ++ R ++ (rest ++ extra1)).length + 0 := by
      rw [hpos0]
      simp only [List.length_append, hf3]
      omega
    have hsplit : hdr ++ R ++ (rest ++ extra1 ++ pB.FileBytes ++ extra3) =
        (hdr ++ R ++ (rest ++ extra1)) ++ pB.FileBytes ++ extra3 := by
      simp only [List.append_assoc]
    rw [hsplit, hpos,
      readBytes_mid _ pB.FileBytes extra3 0 pB.FileBytes.length (by omega), List.drop_zero,
      List.take_length]
  · intro i h h2 hid
    have hr : (recs.get ⟨i, h⟩).length = 32 := hlen32 _ (List.get_mem _ _ _)
    obtain ⟨a1, a2, a3⟩ := hg1 _ hr
    have hid1 : recId (g1 (recs.get ⟨i, h⟩)) = toUInt32 pB.soundModId := by
      rw [recId_of_take _ _ a2]; exact hid
    obtain ⟨b1, b2, b3, b4, -, b6, b7⟩ := rewriteRecord_fields pB.soundModId pB.encodedSize
      pB.decodedSize sB0.mem.length (g1 (recs.get ⟨i, h⟩)) a1 hid1
    have hlen2 := rewriteRecord_length pB.soundModId pB.encodedSize pB.decodedSize
      sB0.mem.length (g1 (recs.get ⟨i, h⟩)) a1
    have hfix := hfix3 (toUInt32 pB.soundModId) hlast _ hlen2 (b1.trans hid1)
    have hget : (((recs.map g1).map (rewriteRecord pB.soundModId pB.encodedSize
        pB.decodedSize sB0.mem.length)).map g3).get ⟨i, h2⟩ =
        g3 (rewriteRecord pB.soundModId pB.encodedSize pB.decodedSize sB0.mem.length
          (g1 (recs.get ⟨i, h⟩))) := by simp
    rw [hget, hfix, hm]
    refine ⟨b1.trans hid1, ?_, ?_, b4, b6.trans a2, b7.trans a3⟩
    · rw [b2, hencB, toUInt32_toInt32, toUInt32_natCast]
      exact Nat.mod_eq_of_lt hn
    · rw [b3]
      exact Nat.mod_eq_of_lt hlt1
  · intro pre' A sA pA hpre' hsA hA
    have hsplitA : c.ModFileList = pre' ++ (A :: B :: post) := by
      rw [hitems, hpre']; simp
    obtain ⟨sA0, gA, extraA, hrunA, hmA, hscA, -, hlayA, -, hltA, -⟩ :=
      prefix_state w c mem scratch hdr recs rest hres hlay hloop pre' (A :: B :: post)
        hsplitA sA hsA
    have hA0 : prepareSoundMod w sA0.scratch A = .ready pA := by rw [← hscA]; exact hA
    obtain ⟨sA', hstepA, -, -, hlenA⟩ :=
      processSoundMod_ready_layout w c sA0 A pA hdr _ _ hlayA hltA hA0 hres
    have hrunA' : loadLoop w c pre
        { mem := mem, scratch := scratch, output := [], fileCount := 0, stores := [] } =
        some (sA', true) := by
      rw [hpre', loadLoop_append w c pre' [A] _ sA0 hrunA, loadLoop, hstepA]
      rfl
    rw [hrun1] at hrunA'
    injection hrunA' with hrunA'
    injection hrunA' with hrunA' _
    rw [hm, hmA, hrunA', hlenA]

set_option maxRecDepth 100000 in
theorem demo_A9B_run :
    Option.map (fun s => (s.mem, s.fileCount))
        (LoadSoundMods demoWorld demoContainerA9B demoMem demoScratch) =
      some (demoHeader ++
        [demoRecord 5 10 108 10 3, demoRecord 42 2 127 2 2, demoRecord 42 2 127 2 3].flatten ++
        (demoRest ++ [1, 2, 3] ++ [1, 2] ++ [4, 5]), 2) := by
  decide

set_option maxRecDepth 100000 in
theorem demo_ABW_run :
    Option.map (fun s => (s.mem, s.fileCount))
        (LoadSoundMods demoWorld demoContainerABW demoMem demoScratch) =
      some (demoHeader ++
        [demoRecord 5 10 108 10 3, demoRecord 42 5 127 5 2, demoRecord 42 5 127 5 3].flatten ++
        (demoRest ++ [1, 2, 3] ++ [4, 5] ++ [1, 2, 3, 4, 5]), 3) := by
  decide

theorem demo_A_end : demoMem.length + demoA.FileBytes.length = 125 := by
  rw [demoMem_length]; rfl

/-- C9 as stated fails for two kinds of lists. In `42.wem`, `9.wem`, `x_id#42.wem` both mod
files for sound id 42 are applied, `A` = `42.wem` (3 bytes) before `B` = `x_id#42.wem`, and the
records end with offset 127, not `122 + 3 = 125`: the payload of `9.wem` lies between. In
`42.wem`, `x_id#42.wem`, `foo_id#42.wem` the records end with encoded size 5 and offset 127,
the values of the third mod file, not with those of `B` (2 and 125). -/
theorem later_item_in_longer_lists :
    (Option.map (fun s => (s.mem, s.fileCount))
        (LoadSoundMods demoWorld demoContainerA9B demoMem demoScratch) =
      some (demoHeader ++
        [demoRecord 5 10 108 10 3, demoRecord 42 2 127 2 2, demoRecord 42 2 127 2 3].flatten ++
        (demoRest ++ [1, 2, 3] ++ [1, 2] ++ [4, 5]), 2) ∧
      recOffset (demoRecord 42 2 127 2 2) = 127 ∧
      demoMem.length + demoA.FileBytes.length = 125) ∧
    (Option.map (fun s => (s.mem, s.fileCount))
        (LoadSoundMods demoWorld demoContainerABW demoMem demoScratch) =
      some (demoHeader ++
        [demoRecord 5 10 108 10 3, demoRecord 42 5 127 5 2, demoRecord 42 5 127 5 3].flatten ++
        (demoRest ++ [1, 2, 3] ++ [4, 5] ++ [1, 2, 3, 4, 5]), 3) ∧
      recEncodedSize (demoRecord 42 5 127 5 2) = 5 ∧ recOffset (demoRecord 42 5 127 5 2) = 127 ∧
      demoB.FileBytes.length = 2 ∧ demoMem.length + demoA.FileBytes.length = 125) :=
  ⟨⟨demo_A9B_run, by decide, demo_A_end⟩, demo_ABW_run, by decide, by decide, rfl, demo_A_end⟩

set_option maxRecDepth 100000 in
theorem demo_A9B_length :
    ∀ k : Nat, Option.map (fun s => s.mem.length)
      (LoadSoundMods demoWorld { demoContainerA9B with
        ModFileList := demoContainerA9B.ModFileList.take k } demoMem demoScratch) =
      some (if k = 0 then 122 else if k = 1 then 125 else if k = 2 then 127 else 129) := by
  intro k
  match k with
  | 0 => decide
  | 1 => decide
  | 2 => decide
  | k + 3 =>
    have h1 : demoContainerA9B.ModFileList.take (k + 3) = [demoA, demo9Wem, demoB] := by
      simp [demoContainerA9B]
    rw [h1, if_neg (by omega), if_neg (by omega), if_neg (by omega)]
    decide

theorem demo_A9B_stays :
    ∀ (k : Nat) (s1 : LoaderState),
      LoadSoundMods demoWorld { demoContainerA9B with
        ModFileList := demoContainerA9B.ModFileList.take k } demoMem demoScratch = some s1 →
        s1.mem.length < 4294967296 := by
  intro k s1 h
  have h1 := demo_A9B_length k
  rw [h] at h1
  simp only [Option.map_some', Option.some.injEq] at h1
  rw [h1]
  split
  · omega
  · split
    · omega
    · split <;> omega

set_option maxRecDepth 100000 in
theorem demo_A9_run :
    Option.map (fun s => s.mem.length)
      (LoadSoundMods demoWorld { demoContainerA9B with ModFileList := [demoA, demo9Wem] }
        demoMem demoScratch) = some 127 := by
  decide

theorem demo_ids_42 :
    recId (demoRecords.get ⟨1, by decide⟩) =
      toUInt32 (deriveSoundModId (pathStem demoB.Name.toList)) := by
  decide

/-- C9 as amended, at the sample container with `42.wem`, `9.wem` and `x_id#42.wem`: the
second record ends with the values of `x_id#42.wem` and offset 127, the length of the container
when that mod file was taken up. -/
theorem later_item_wins_witness :
    SoundLayout demoMem demoHeader demoRecords demoRest ∧
    ∃ (s2 : LoaderState) (recs2 : List (List Byte)) (rest2 : List Byte),
      LoadSoundMods demoWorld demoContainerA9B demoMem demoScratch = some s2 ∧
      SoundLayout s2.mem demoHeader recs2 rest2 ∧
      ∀ h2 : 1 < recs2.length,
        recEncodedSize (recs2.get ⟨1, h2⟩) = 2 ∧ recOffset (recs2.get ⟨1, h2⟩) = 127 := by
  refine ⟨demo_layout, ?_⟩
  cases hs : LoadSoundMods demoWorld { demoContainerA9B with ModFileList := [demoA, demo9Wem] }
      demoMem demoScratch with
  | none =>
    have h := demo_A9_run
    rw [hs] at h
    exact absurd h (by simp)
  | some sB =>
    have hlen : sB.mem.length = 127 := by
      have h := demo_A9_run
      rw [hs] at h
      simpa using h
    obtain ⟨s2, recs2, rest2, later, h1, h2, -, -, -, -, h7, -⟩ :=
      later_item_wins demoWorld demoContainerA9B demoMem demoScratch [demoA, demo9Wem] []
        demoB sB _ demoHeader demoRecords demoRest rfl demo_layout (fun _ => rfl)
        demo_A9B_stays hs (prepareSoundMod_wem demoWorld sB.scratch demoB (by decide) (by decide))
        (fun f hf => absurd hf (List.not_mem_nil f))
    refine ⟨s2, recs2, rest2, h1, h2, ?_⟩
    intro h2'
    obtain ⟨-, g2, g3, -⟩ := h7 1 (by decide) h2' demo_ids_42
    rw [hlen] at g3
    exact ⟨g2, g3⟩

theorem hexValue_hexDigit : ∀ n : Nat, n < 32 →
    hexValue (hexDigit (n / 16)) = some (n / 16) ∧
    hexValue (hexDigit (n % 16)) = some (n % 16) := by
  decide

theorem hexValue_zero : hexValue '0' = some 0 := by decide

theorem parseStringBody_cons_quote (rest : List Char) :
    parseStringBody ('"' :: rest) = some ([], rest) := by
  rw [parseStringBody.eq_def]; rfl

theorem parseStringBody_plain (c : Char) (rest : List Char) (h1 : c ≠ '"') (h2 : c ≠ '\\') :
    parseStringBody (c :: rest) =
      (parseStringBody rest).map (fun r => (c :: r.1, r.2)) := by
  rw [parseStringBody.eq_def]
  simp only [if_neg h1, if_neg h2]

theorem parseStringBody_escaped (e x : Char) (rest : List Char) (h1 : e ≠ 'u')
    (h2 : unescapeChar e = some x) :
    parseStringBody ('\\' :: e :: rest) =
      (parseStringBody rest).map (fun r => (x :: r.1, r.2)) := by
  rw [parseStringBody.eq_def]
  simp only [show ('\\' : Char) ≠ '"' from by decide, if_false, if_true, if_neg h1, h2]

theorem parseStringBody_unicode (h1 h2 h3 h4 : Char) (a b c d : Nat) (rest : List Char)
    (e1 : hexValue h1 = some a) (e2 : hexValue h2 = some b) (e3 : hexValue h3 = some c)
    (e4 : hexValue h4 = some d) :
    parseStringBody ('\\' :: 'u' :: h1 :: h2 :: h3 :: h4 :: rest) =
      (parseStringBody rest).map
        (fun r => (Char.ofNat (4096 * a + 256 * b + 16 * c + d) :: r.1, r.2)) := by
  rw [parseStringBody.eq_def]
  simp only [show ('\\' : Char) ≠ '"' from by decide, if_false, if_true, e1, e2, e3, e4]

/-- A string as written, read back: the characters, and the text after the closing quote. -/
theorem parseStringBody_escapeString (s rest : List Char) :
    parseStringBody (escapeString s ++ '"' :: rest) = some (s, rest) := by
  induction s with
  | nil => exact parseStringBody_cons_quote rest
  | cons c cs ih =>
    rw [escapeString, List.append_assoc]
    unfold escapeChar
    by_cases h1 : c = '"'
    · rw [if_pos h1, h1]
      show parseStringBody ('\\' :: '"' :: (escapeString cs ++ '"' :: rest)) = _
      rw [parseStringBody_escaped '"' '"' _ (by decide) (by decide), ih]
      rfl
    · rw [if_neg h1]
      by_cases h2 : c = '\\'
      · rw [if_pos h2, h2]
        show parseStringBody ('\\' :: '\\' :: (escapeString cs ++ '"' :: rest)) = _
        rw [parseStringBody_escaped '\\' '\\' _ (by decide) (by decide), ih]
        rfl
      · rw [if_neg h2]
        by_cases h3 : c.toNat < 32
        · rw [if_pos h3]
          obtain ⟨g1, g2⟩ := hexValue_hexDigit c.toNat h3
          show parseStringBody ('\\' :: 'u' :: '0' :: '0' :: hexDigit (c.toNat / 16) ::
            hexDigit (c.toNat % 16) :: (escapeString cs ++ '"' :: rest)) = _
          rw [parseStringBody_unicode _ _ _ _ 0 0 _ _ _ hexValue_zero hexValue_zero g1 g2, ih]
          have e : 4096 * 0 + 256 * 0 + 16 * (c.toNat / 16) + c.toNat % 16 = c.toNat := by
            omega
          simp only [Option.map_some', e, Char.ofNat_toNat]
        · rw [if_neg h3]
          show parseStringBody (c :: (escapeString cs ++ '"' :: rest)) = _
          rw [parseStringBody_plain c _ h1 h2, ih]
          rfl

theorem printNumber_intCast (n : Int) :
    printNumber (n : ℚ) = (if n < 0 then ['-'] else []) ++ Nat.toDigits 10 n.natAbs := by
  unfold printNumber
  simp only [Rat.intCast_num, Rat.intCast_den, Nat.div_one, if_true, List.append_nil]

theorem digits_then_other (ds : List Char) (c : Char) (rest : List Char)
    (hdig : ∀ x ∈ ds, x.isDigit = true) (hc : c.isDigit = false) :
    (ds ++ c :: rest).takeWhile Char.isDigit = ds ∧
    (ds ++ c :: rest).dropWhile Char.isDigit = c :: rest := by
  induction ds with
  | nil =>
    constructor
    · exact List.takeWhile_cons_of_neg (by rw [hc]; simp)
    · exact List.dropWhile_cons_of_neg (by rw [hc]; simp)
  | cons d ds ih =>
    obtain ⟨i1, i2⟩ := ih (fun x hx => hdig x (List.mem_cons_of_mem _ hx))
    have hd := hdig d (List.mem_cons_self _ _)
    constructor
    · rw [List.cons_append, List.takeWhile_cons_of_pos hd, i1]
    · rw [List.cons_append, List.dropWhile_cons_of_pos hd, i2]

theorem parseUnsigned_digits (m : Nat) (c : Char) (rest : List Char)
    (hc : c.isDigit = false) (hdot : c ≠ '.') :
    parseUnsigned (Nat.toDigits 10 m ++ c :: rest) = some ((m : ℚ), c :: rest) := by
  obtain ⟨hne, hdig, hval⟩ := toDigits_digits m
  obtain ⟨t1, t2⟩ := digits_then_other _ c rest hdig hc
  unfold parseUnsigned
  rw [t1, t2, if_neg hne]
  simp only [if_neg hdot, hval]

/-- An integer as written, read back, when a character that is neither a digit nor a period
follows. -/
theorem parseNumber_printNumber (n : Int) (c : Char) (rest : List Char)
    (hc : c.isDigit = false) (hdot : c ≠ '.') :
    parseNumber (printNumber (n : ℚ) ++ c :: rest) = some ((n : ℚ), c :: rest) := by
  obtain ⟨hne, hdig, -⟩ := toDigits_digits n.natAbs
  obtain ⟨d, ds, hds⟩ := List.exists_cons_of_ne_nil hne
  have hd : d.isDigit = true := hdig d (by rw [hds]; exact List.mem_cons_self _ _)
  have hdm : d ≠ '-' := isDigit_ne d '-' hd (by decide)
  have hu := parseUnsigned_digits n.natAbs c rest hc hdot
  have hcast : ((n.natAbs : Nat) : ℚ) = (((n.natAbs : Nat) : Int) : ℚ) :=
    (Int.cast_natCast _).symm
  rw [printNumber_intCast]
  by_cases hneg : n < 0
  · rw [if_pos hneg]
    show parseNumber ('-' :: (Nat.toDigits 10 n.natAbs ++ c :: rest)) = _
    rw [parseNumber, if_pos rfl, hu, Option.map_some', hcast]
    have : ((n.natAbs : Nat) : Int) = -n := by omega
    rw [this, Int.cast_neg, neg_neg]
  · rw [if_neg hneg, List.nil_append]
    rw [hds] at hu ⊢
    show parseNumber (d :: (ds ++ c :: rest)) = _
    rw [parseNumber, if_neg hdm]
    show parseUnsigned (d :: ds ++ c :: rest) = _
    rw [hu, hcast]
    have : ((n.natAbs : Nat) : Int) = n := by omega
    rw [this]

theorem numberToInt32_intCast (n : Int) (h1 : -2147483648 ≤ n) (h2 : n ≤ 2147483647) :
    numberToInt32 (n : ℚ) = some n := by
  unfold numberToInt32
  simp only [Rat.intCast_num, Rat.intCast_den, Nat.cast_one, Int.ediv_one, neg_neg, ite_self]
  rw [if_pos ⟨h1, h2⟩]

theorem skipWhitespace_cons (c : Char) (cs : List Char) (h : isWhitespace c = false) :
    skipWhitespace (c :: cs) = c :: cs := by
  unfold skipWhitespace
  exact List.dropWhile_cons_of_neg (by rw [h]; simp)

/-- A string value as written, read back. -/
theorem parseValue_string (fuel : Nat) (s rest : List Char) :
    parseValue (fuel + 1) ('"' :: (escapeString s ++ '"' :: rest)) =
      some (Json.string (String.mk s), rest) := by
  rw [parseValue.eq_def]
  simp only [skipWhitespace_cons '"' _ (by decide), if_true, parseStringBody_escapeString,
    Option.map_some']

theorem printNumber_head (n : Int) :
    ∃ (d : Char) (ds : List Char), printNumber (n : ℚ) = d :: ds ∧
      (d = '-' ∨ d.isDigit = true) := by
  obtain ⟨hne, hdig, -⟩ := toDigits_digits n.natAbs
  obtain ⟨d, ds, hds⟩ := List.exists_cons_of_ne_nil hne
  rw [printNumber_intCast]
  by_cases hneg : n < 0
  · rw [if_pos hneg]
    exact ⟨'-', _, rfl, Or.inl rfl⟩
  · rw [if_neg hneg, List.nil_append, hds]
    exact ⟨d, ds, rfl, Or.inr (hdig d (by rw [hds]; exact List.mem_cons_self _ _))⟩

theorem number_head_facts (d : Char) (h : d = '-' ∨ d.isDigit = true) :
    isWhitespace d = false ∧ d ≠ '"' ∧ d ≠ '[' ∧ d ≠ '{' ∧ d ≠ 't' ∧ d ≠ 'f' ∧ d ≠ 'n' := by
  rcases h with h | h
  · rw [h]; decide
  · refine ⟨?_, isDigit_ne d _ h (by decide), isDigit_ne d _ h (by decide),
      isDigit_ne d _ h (by decide), isDigit_ne d _ h (by decide), isDigit_ne d _ h (by decide),
      isDigit_ne d _ h (by decide)⟩
    unfold isWhitespace
    simp [isDigit_ne d ' ' h (by decide), isDigit_ne d '\t' h (by decide),
      isDigit_ne d '\n' h (by decide), isDigit_ne d '\r' h (by decide)]

/-- An integer value as written, read back, when a character that is neither a digit nor a
period follows. -/
theorem parseValue_number (fuel : Nat) (n : Int) (c : Char) (rest : List Char)
    (hc : c.isDigit = false) (hdot : c ≠ '.') :
    parseValue (fuel + 1) (printNumber (n : ℚ) ++ c :: rest) =
      some (Json.number (n : ℚ), c :: rest) := by
  have hp := parseNumber_printNumber n c rest hc hdot
  obtain ⟨d, ds, hds, hd⟩ := printNumber_head n
  obtain ⟨f1, f2, f3, f4, f5, f6, f7⟩ := number_head_facts d hd
  rw [hds] at hp ⊢
  rw [List.cons_append] at hp ⊢
  rw [parseValue.eq_def]
  simp only [skipWhitespace_cons d _ f1, if_neg f2, if_neg f3, if_neg f4, List.take_succ_cons,
    List.cons.injEq, f5, f6, f7, false_and, if_false, hp, Option.map_some']

theorem Reads_mono (e e' : Nat) (v : Json) (h : Reads e v) (he : e ≤ e') : Reads e' v :=
  ⟨h.1, fun fuel hf rest hr => h.2 fuel (Nat.le_trans he hf) rest hr⟩

theorem Reads_string (s : String) : Reads 1 (.string s) := by
  refine ⟨⟨'"', escapeString s.toList ++ ['"'], by rw [printJson]; rfl, by decide, by decide⟩,
    ?_⟩
  intro fuel hf rest _
  obtain ⟨g, rfl⟩ : ∃ g, fuel = g + 1 := ⟨fuel - 1, by omega⟩
  rw [printJson]
  have h := parseValue_string g s.toList rest
  have e : '"' :: escapeString s.toList ++ ['"'] ++ rest =
      '"' :: (escapeString s.toList ++ '"' :: rest) := by
    simp only [List.cons_append, List.append_assoc, List.nil_append]
  rw [e, h]
  rfl

theorem Reads_number (n : Int) : Reads 1 (.number (n : ℚ)) := by
  obtain ⟨d, ds, hds, hd⟩ := printNumber_head n
  obtain ⟨f1, -⟩ := number_head_facts d hd
  have hb : d ≠ ']' := by
    rcases hd with h | h
    · rw [h]; decide
    · exact isDigit_ne d _ h (by decide)
  refine ⟨⟨d, ds, by rw [printJson, hds], f1, hb⟩, ?_⟩
  intro fuel hf rest hrest
  obtain ⟨g, rfl⟩ : ∃ g, fuel = g + 1 := ⟨fuel - 1, by omega⟩
  rw [printJson]
  cases rest with
  | nil =>
    -- nothing follows: the digits run to the end of the text
    obtain ⟨f1, f2, f3, f4, f5, f6, f7⟩ := number_head_facts d hd
    have hp : parseNumber (printNumber (n : ℚ)) = some ((n : ℚ), []) := by
      obtain ⟨hne, hdig, hval⟩ := toDigits_digits n.natAbs
      have t1 : (Nat.toDigits 10 n.natAbs).takeWhile Char.isDigit = Nat.toDigits 10 n.natAbs :=
        List.takeWhile_eq_self_iff.mpr hdig
      have t2 : (Nat.toDigits 10 n.natAbs).dropWhile Char.isDigit = [] :=
        List.dropWhile_eq_nil_iff.mpr hdig
      have hu : parseUnsigned (Nat.toDigits 10 n.natAbs) = some ((n.natAbs : ℚ), []) := by
        unfold parseUnsigned
        rw [t1, t2, if_neg hne]
        simp only [hval]
      obtain ⟨x, xs, hxs⟩ := List.exists_cons_of_ne_nil hne
      have hx : x.isDigit = true := hdig x (by rw [hxs]; exact List.mem_cons_self _ _)
      have hxm : x ≠ '-' := isDigit_ne x '-' hx (by decide)
      have hcast : ((n.natAbs : Nat) : ℚ) = (((n.natAbs : Nat) : Int) : ℚ) :=
        (Int.cast_natCast _).symm
      rw [printNumber_intCast]
      by_cases hneg : n < 0
      · rw [if_pos hneg]
        show parseNumber ('-' :: Nat.toDigits 10 n.natAbs) = _
        rw [parseNumber, if_pos rfl, hu, Option.map_some', hcast]
        have : ((n.natAbs : Nat) : Int) = -n := by omega
        rw [this, Int.cast_neg, neg_neg]
      · rw [if_neg hneg, List.nil_append]
        rw [hxs] at hu ⊢
        rw [parseNumber, if_neg hxm, hu, hcast]
        have : ((n.natAbs : Nat) : Int) = n := by omega
        rw [this]
    rw [List.append_nil]
    rw [hds] at hp ⊢
    rw [parseValue.eq_def]
    simp only [skipWhitespace_cons d _ f1, if_neg f2, if_neg f3, if_neg f4, List.take_succ_cons,
      List.cons.injEq, f5, f6, f7, false_and, if_false, hp, Option.map_some']
  | cons c rest =>
    obtain ⟨hc, hdot⟩ := hrest c (by simp)
    exact parseValue_number g n c rest hc hdot

theorem printMembersTail_head (ms : List (String × Json)) :
    ∃ (c : Char) (t : List Char), printMembersTail ms = c :: t ∧ (c = ',' ∨ c = '}') := by
  cases ms with
  | nil => exact ⟨'}', [], by rw [printMembersTail], Or.inr rfl⟩
  | cons m ms =>
    obtain ⟨k, v⟩ := m
    exact ⟨',', _, by rw [printMembersTail]; rfl, Or.inl rfl⟩

theorem printItemsTail_head (vs : List Json) :
    ∃ (c : Char) (t : List Char), printItemsTail vs = c :: t ∧ (c = ',' ∨ c = ']') := by
  cases vs with
  | nil => exact ⟨']', [], by rw [printItemsTail], Or.inr rfl⟩
  | cons v vs => exact ⟨',', _, by rw [printItemsTail]; rfl, Or.inl rfl⟩

theorem separator_follows (c : Char) (t rest : List Char)
    (h : c = ',' ∨ c = '}' ∨ c = ']') :
    ∀ x ∈ (c :: t ++ rest).head?, x.isDigit = false ∧ x ≠ '.' := by
  intro x hx
  simp only [List.cons_append, List.head?_cons, Option.mem_def, Option.some.injEq] at hx
  subst hx
  rcases h with h | h | h <;> rw [h] <;> decide

/-- The members of an object as written, read back. -/
theorem parseMembers_print (e : Nat) :
    ∀ (ms : List (String × Json)) (k : String) (v : Json), Reads e v →
      (∀ m ∈ ms, Reads e m.2) →
      ∀ fuel, e + ms.length + 1 ≤ fuel → ∀ rest : List Char,
        parseMembers fuel ('"' :: (escapeString k.toList ++ '"' :: ':' ::
          (printJson v ++ (printMembersTail ms ++ rest)))) = some ((k, v) :: ms, rest) := by
  intro ms
  induction ms with
  | nil =>
    intro k v hv _ fuel hf rest
    obtain ⟨g, rfl⟩ : ∃ g, fuel = g + 1 := ⟨fuel - 1, by omega⟩
    have hval := hv.2 g (by simp at hf; omega) (printMembersTail [] ++ rest) (by
      rw [printMembersTail]
      exact separator_follows '}' [] rest (Or.inr (Or.inl rfl)))
    rw [parseMembers.eq_def]
    simp only [skipWhitespace_cons '"' _ (by decide), if_true, parseStringBody_escapeString,
      skipWhitespace_cons ':' _ (by decide), hval]
    rw [printMembersTail]
    simp only [List.singleton_append, skipWhitespace_cons '}' _ (by decide), if_true]
    rfl
  | cons m ms ih =>
    intro k v hv hms fuel hf rest
    obtain ⟨k', v'⟩ := m
    obtain ⟨g, rfl⟩ : ∃ g, fuel = g + 1 := ⟨fuel - 1, by omega⟩
    simp only [List.length_cons] at hf
    have hval := hv.2 g (by omega) (printMembersTail ((k', v') :: ms) ++ rest) (by
      rw [printMembersTail]
      exact separator_follows ',' _ rest (Or.inl rfl))
    have hrec := ih k' v' (hms (k', v') (List.mem_cons_self _ _))
      (fun x hx => hms x (List.mem_cons_of_mem _ hx)) g (by omega) rest
    rw [parseMembers.eq_def]
    simp only [skipWhitespace_cons '"' _ (by decide), if_true, parseStringBody_escapeString,
      skipWhitespace_cons ':' _ (by decide), hval]
    rw [printMembersTail]
    simp only [List.cons_append, List.append_assoc, skipWhitespace_cons ',' _ (by decide),
      show (',' : Char) ≠ '}' from by decide, if_false, if_true, hrec, Option.map_some']
    rfl

/-- An object as written, read back, when no key occurs twice. -/
theorem Reads_object (e : Nat) (k : String) (v : Json) (ms : List (String × Json))
    (hv : Reads e v) (hms : ∀ m ∈ ms, Reads e m.2)
    (hkeys : ((k, v) :: ms).foldl (fun acc m => objectPut acc m.1 m.2) [] = (k, v) :: ms) :
    Reads (e + ms.length + 2) (.object ((k, v) :: ms)) := by
  refine ⟨⟨'{', _, by rw [printJson]; rfl, by decide, by decide⟩, ?_⟩
  intro fuel hf rest _
  obtain ⟨g, rfl⟩ : ∃ g, fuel = g + 1 := ⟨fuel - 1, by omega⟩
  have hm := parseMembers_print e ms k v hv hms g (by omega) rest
  rw [printJson, parseValue.eq_def]
  simp only [List.cons_append, List.append_assoc, skipWhitespace_cons '{' _ (by decide),
    show ('{' : Char) ≠ '"' from by decide, show ('{' : Char) ≠ '[' from by decide,
    show ('"' : Char) ≠ '}' from by decide, if_false, if_true,
    skipWhitespace_cons '"' _ (by decide), hm, Option.map_some', hkeys]

/-- The elements of an array after the first one, as written, read back. -/
theorem parseItemsTail_print (e : Nat) :
    ∀ (vs : List Json), (∀ v ∈ vs, Reads e v) →
      ∀ fuel, e + vs.length + 1 ≤ fuel → ∀ rest : List Char,
        parseItemsTail fuel (printItemsTail vs ++ rest) = some (vs, rest) := by
  intro vs
  induction vs with
  | nil =>
    intro _ fuel hf rest
    obtain ⟨g, rfl⟩ : ∃ g, fuel = g + 1 := ⟨fuel - 1, by omega⟩
    rw [printItemsTail, parseItemsTail.eq_def]
    simp only [List.singleton_append, skipWhitespace_cons ']' _ (by decide), if_true]
  | cons v vs ih =>
    intro hvs fuel hf rest
    obtain ⟨g, rfl⟩ : ∃ g, fuel = g + 1 := ⟨fuel - 1, by omega⟩
    simp only [List.length_cons] at hf
    obtain ⟨c, t, hc, hsep⟩ := printItemsTail_head vs
    have hval := (hvs v (List.mem_cons_self _ _)).2 g (by omega) (printItemsTail vs ++ rest) (by
      rw [hc]
      exact separator_follows c t rest (by rcases hsep with h | h <;> simp [h]))
    have hrec := ih (fun x hx => hvs x (List.mem_cons_of_mem _ hx)) g (by omega) rest
    rw [printItemsTail, parseItemsTail.eq_def]
    simp only [List.cons_append, List.append_assoc, skipWhitespace_cons ',' _ (by decide),
      show (',' : Char) ≠ ']' from by decide, if_false, if_true, hval, hrec, Option.map_some']

/-- An array as written, read back. -/
theorem Reads_array (e : Nat) (vs : List Json) (hvs : ∀ v ∈ vs, Reads e v) :
    Reads (e + vs.length + 2) (.array vs) := by
  cases vs with
  | nil =>
    refine ⟨⟨'[', _, by rw [printJson], by decide, by decide⟩, ?_⟩
    intro fuel hf rest _
    obtain ⟨g, rfl⟩ : ∃ g, fuel = g + 1 := ⟨fuel - 1, by omega⟩
    rw [printJson, parseValue.eq_def]
    simp only [List.cons_append, List.nil_append, skipWhitespace_cons '[' _ (by decide),
      show ('[' : Char) ≠ '"' from by decide, if_false, if_true,
      skipWhitespace_cons ']' _ (by decide)]
  | cons v vs =>
    refine ⟨⟨'[', _, by rw [printJson]; rfl, by decide, by decide⟩, ?_⟩
    intro fuel hf rest _
    obtain ⟨g, rfl⟩ : ∃ g, fuel = g + 1 := ⟨fuel - 1, by omega⟩
    simp only [List.length_cons] at hf
    obtain ⟨⟨d, t, hd, hws, hb⟩, hread⟩ := hvs v (List.mem_cons_self _ _)
    obtain ⟨c, t', hc, hsep⟩ := printItemsTail_head vs
    have hval := hread g (by omega) (printItemsTail vs ++ rest) (by
      rw [hc]
      exact separator_follows c t' rest (by rcases hsep with h | h <;> simp [h]))
    have htail := parseItemsTail_print e vs (fun x hx => hvs x (List.mem_cons_of_mem _ hx)) g
      (by omega) rest
    rw [hd] at hval
    rw [printJson, parseValue.eq_def, hd]
    simp only [List.cons_append, List.append_assoc, skipWhitespace_cons '[' _ (by decide),
      show ('[' : Char) ≠ '"' from by decide, if_false, if_true,
      skipWhitespace_cons d _ hws, if_neg hb]
    simp only [List.cons_append] at hval
    rw [hval]
    simp only [htail, Option.map_some']

/-- The object built by `Dump`, member by member. -/
theorem dumpObject_eq (p : PackageMapSpec) :
    p.dumpObject =
      [("files", .array (p.Files.map (fun file => Json.object [("name", .string file.Name)]))),
       ("mapFileRefs", .array (p.MapFileRefs.map (fun mapFileRef =>
          Json.object [("file", .number mapFileRef.File), ("map", .number mapFileRef.Map)]))),
       ("maps", .array (p.Maps.map (fun map => Json.object [("name", .string map.Name)])))] := by
  have e1 : ("files" = "mapFileRefs") = False := by decide
  have e2 : ("files" = "maps") = False := by decide
  have e3 : ("mapFileRefs" = "maps") = False := by decide
  have e4 : ("file" = "map") = False := by decide
  simp only [PackageMapSpec.dumpObject, objectPut, e1, e2, e3, e4, if_false]

theorem readFiles_map (fs : List PackageMapSpecFile) :
    readFiles (fs.map (fun file => Json.object [("name", .string file.Name)])) = some fs := by
  induction fs with
  | nil => rfl
  | cons f fs ih =>
    simp only [List.map_cons, readFiles, ih, getString, objectGet, if_true]

theorem readMaps_map (ms : List PackageMapSpecMap) :
    readMaps (ms.map (fun map => Json.object [("name", .string map.Name)])) = some ms := by
  induction ms with
  | nil => rfl
  | cons m ms ih =>
    simp only [List.map_cons, readMaps, ih, getString, objectGet, if_true]

theorem readMapFileRefs_map (rs : List PackageMapSpecMapFileRef)
    (h : ∀ r ∈ rs, (-2147483648 ≤ r.File ∧ r.File ≤ 2147483647) ∧
      (-2147483648 ≤ r.Map ∧ r.Map ≤ 2147483647)) :
    readMapFileRefs (rs.map (fun mapFileRef =>
      Json.object [("file", .number mapFileRef.File), ("map", .number mapFileRef.Map)]))
      = some rs := by
  induction rs with
  | nil => rfl
  | cons r rs ih =>
    have hr := h r (List.mem_cons_self _ _)
    have ih1 := ih (fun x hx => h x (List.mem_cons_of_mem _ hx))
    have e4 : ("file" = "map") = False := by decide
    simp only [List.map_cons, readMapFileRefs, ih1, getNumber, objectGet, if_true, e4, if_false,
      numberToInt32_intCast _ hr.1.1 hr.1.2, numberToInt32_intCast _ hr.2.1 hr.2.2]

theorem Reads_name_object (s : String) : Reads 3 (Json.object [("name", .string s)]) :=
  Reads_object 1 "name" (.string s) [] (Reads_string s)
    (fun m hm => absurd hm (List.not_mem_nil m)) rfl

theorem Reads_ref_object (file map : Int) :
    Reads 4 (Json.object [("file", .number (file : ℚ)), ("map", .number (map : ℚ))]) := by
  have e4 : ("file" = "map") = False := by decide
  refine Reads_object 1 "file" (.number (file : ℚ)) [("map", .number (map : ℚ))]
    (Reads_number file) ?_ ?_
  · intro m hm
    rw [List.mem_singleton] at hm
    rw [hm]
    exact Reads_number map
  · simp only [List.foldl_cons, List.foldl_nil, objectPut, e4, if_false]

theorem printItemsTail_length (vs : List Json) :
    vs.length + 1 ≤ (printItemsTail vs).length := by
  induction vs with
  | nil => rw [printItemsTail]; simp
  | cons v vs ih =>
    rw [printItemsTail]
    simp only [List.cons_append, List.length_cons, List.length_append]
    omega

theorem print_array_length (vs : List Json) :
    vs.length + 1 ≤ (printJson (.array vs)).length := by
  cases vs with
  | nil => rw [printJson]; simp
  | cons v vs =>
    have := printItemsTail_length vs
    rw [printJson]
    simp only [List.cons_append, List.length_cons, List.length_append]
    omega

/-- The text written by `Dump`, read back by `parse`: the object that `Dump` built. -/
theorem objectParse_Dump (p : PackageMapSpec) :
    objectParse p.Dump = some p.dumpObject := by
  have e1 : ("files" = "mapFileRefs") = False := by decide
  have e2 : ("files" = "maps") = False := by decide
  have e3 : ("mapFileRefs" = "maps") = False := by decide
  have hA : Reads (p.Files.length + p.MapFileRefs.length + p.Maps.length + 6)
      (.array (p.Files.map (fun file => Json.object [("name", .string file.Name)]))) := by
    refine Reads_mono _ _ _ (Reads_array 3 _ ?_) (by simp only [List.length_map]; omega)
    intro v hv
    obtain ⟨x, -, rfl⟩ := List.mem_map.mp hv
    exact Reads_name_object x.Name
  have hB : Reads (p.Files.length + p.MapFileRefs.length + p.Maps.length + 6)
      (.array (p.MapFileRefs.map (fun mapFileRef =>
        Json.object [("file", .number mapFileRef.File), ("map", .number mapFileRef.Map)]))) := by
    refine Reads_mono _ _ _ (Reads_array 4 _ ?_) (by simp only [List.length_map]; omega)
    intro v hv
    obtain ⟨x, -, rfl⟩ := List.mem_map.mp hv
    exact Reads_ref_object x.File x.Map
  have hC : Reads (p.Files.length + p.MapFileRefs.length + p.Maps.length + 6)
      (.array (p.Maps.map (fun map => Json.object [("name", .string map.Name)]))) := by
    refine Reads_mono _ _ _ (Reads_array 3 _ ?_) (by simp only [List.length_map]; omega)
    intro v hv
    obtain ⟨x, -, rfl⟩ := List.mem_map.mp hv
    exact Reads_name_object x.Name
  have htop := Reads_object _ "files" _
    [("mapFileRefs", Json.array (p.MapFileRefs.map (fun mapFileRef =>
        Json.object [("file", .number mapFileRef.File), ("map", .number mapFileRef.Map)]))),
     ("maps", Json.array (p.Maps.map (fun map =>
        Json.object [("name", .string map.Name)])))] hA (by
      intro m hm
      simp only [List.mem_cons, List.mem_singleton, List.not_mem_nil, or_false] at hm
      rcases hm with rfl | rfl
      · exact hB
      · exact hC) (by
      simp only [List.foldl_cons, List.foldl_nil, objectPut, e1, e2, e3, if_false])
  rw [← dumpObject_eq p] at htop
  have hlen : p.Files.length + p.MapFileRefs.length + p.Maps.length + 6 +
      [("mapFileRefs", Json.array (p.MapFileRefs.map (fun mapFileRef =>
        Json.object [("file", .number mapFileRef.File), ("map", .number mapFileRef.Map)]))),
       ("maps", Json.array (p.Maps.map (fun map =>
        Json.object [("name", .string map.Name)])))].length + 2 ≤
      (printJson (.object p.dumpObject)).length + 1 := by
    have a1 := print_array_length (p.Files.map (fun file =>
      Json.object [("name", .string file.Name)]))
    have a2 := print_array_length (p.MapFileRefs.map (fun mapFileRef =>
      Json.object [("file", .number mapFileRef.File), ("map", .number mapFileRef.Map)]))
    have a3 := print_array_length (p.Maps.map (fun map =>
      Json.object [("name", .string map.Name)]))
    rw [dumpObject_eq p, printJson, printMembersTail, printMembersTail, printMembersTail]
    simp only [List.length_map] at a1 a2 a3
    simp only [List.cons_append, List.length_cons, List.length_append, List.length_nil]
    omega
  have hparse := htop.2 _ hlen [] (by simp)
  rw [List.append_nil] at hparse
  unfold objectParse PackageMapSpec.Dump objectJson
  show (match parseValue ((printJson (.object p.dumpObject)).length + 1)
      (printJson (.object p.dumpObject)) with
    | some (.object members, rest) => if skipWhitespace rest = [] then some members else none
    | _ => none) = _
  rw [hparse]
  rfl

/-- C14: the round trip of `PackageMapSpec` through JSON text. For every value `p` whose `File`
and `Map` indices are `int32_t` values, the text of `p.Dump()` is read back by `parse` as the
object that `Dump` built, and the constructor applied to that text succeeds and yields `p`: the
same `Files`, `MapFileRefs` and `Maps`, with the same lengths and the same order. The object
handed to `json()` has exactly the three members `files`, `mapFileRefs` and `maps`, each an
array with one object per element. -/
theorem dump_then_construct (p : PackageMapSpec)
    (hrange : ∀ r ∈ p.MapFileRefs, (-2147483648 ≤ r.File ∧ r.File ≤ 2147483647) ∧
      (-2147483648 ≤ r.Map ∧ r.Map ≤ 2147483647)) :
    objectParse p.Dump = some p.dumpObject
    ∧ PackageMapSpec.fromJson p.Dump = some p
    ∧ (∀ q, PackageMapSpec.fromJson p.Dump = some q →
        q.Files = p.Files ∧ q.MapFileRefs = p.MapFileRefs ∧ q.Maps = p.Maps
        ∧ q.Files.length = p.Files.length ∧ q.MapFileRefs.length = p.MapFileRefs.length
        ∧ q.Maps.length = p.Maps.length
        ∧ (∀ i, q.Files.get? i = p.Files.get? i)
        ∧ (∀ i, q.MapFileRefs.get? i = p.MapFileRefs.get? i)
        ∧ (∀ i, q.Maps.get? i = p.Maps.get? i))
    ∧ p.dumpObject =
        [("files", .array (p.Files.map (fun file => Json.object [("name", .string file.Name)]))),
         ("mapFileRefs", .array (p.MapFileRefs.map (fun mapFileRef =>
            Json.object [("file", .number mapFileRef.File), ("map", .number mapFileRef.Map)]))),
         ("maps", .array (p.Maps.map (fun map => Json.object [("name", .string map.Name)])))]
    ∧ (∃ files mapFileRefs maps,
        getArray p.dumpObject "files" = some files
        ∧ getArray p.dumpObject "mapFileRefs" = some mapFileRefs
        ∧ getArray p.dumpObject "maps" = some maps
        ∧ files.length = p.Files.length ∧ mapFileRefs.length = p.MapFileRefs.length
        ∧ maps.length = p.Maps.length
        ∧ (∀ v ∈ files ++ mapFileRefs ++ maps, ∃ members, v = Json.object members)) := by
  have hobj := dumpObject_eq p
  have hparse := objectParse_Dump p
  have e1 : ("files" = "mapFileRefs") = False := by decide
  have e2 : ("files" = "maps") = False := by decide
  have e3 : ("mapFileRefs" = "maps") = False := by decide
  have g1 : getArray p.dumpObject "files"
      = some (p.Files.map (fun file => Json.object [("name", .string file.Name)])) := by
    rw [hobj]; simp only [getArray, objectGet, if_true]
  have g2 : getArray p.dumpObject "mapFileRefs"
      = some (p.MapFileRefs.map (fun mapFileRef =>
          Json.object [("file", .number mapFileRef.File), ("map", .number mapFileRef.Map)])) := by
    rw [hobj]; simp only [getArray, objectGet, e1, if_false, if_true]
  have g3 : getArray p.dumpObject "maps"
      = some (p.Maps.map (fun map => Json.object [("name", .string map.Name)])) := by
    rw [hobj]; simp only [getArray, objectGet, e2, e3, if_false, if_true]
  have main : PackageMapSpec.fromJson p.Dump = some p := by
    unfold PackageMapSpec.fromJson
    simp only [hparse, Option.getD_some, g1, g2, g3, readFiles_map, readMaps_map,
      readMapFileRefs_map _ hrange]
  refine ⟨hparse, main, ?_, hobj, ?_⟩
  · intro q hq
    rw [main] at hq
    have hqp : p = q := Option.some.inj hq
    subst hqp
    exact ⟨rfl, rfl, rfl, rfl, rfl, rfl, fun _ => rfl, fun _ => rfl, fun _ => rfl⟩
  · refine ⟨_, _, _, g1, g2, g3, List.length_map _ _, List.length_map _ _,
      List.length_map _ _, ?_⟩
    intro v hv
    simp only [List.mem_append, List.mem_map] at hv
    rcases hv with (⟨x, _, hx⟩ | ⟨x, _, hx⟩) | ⟨x, _, hx⟩
    · exact ⟨_, hx.symm⟩
    · exact ⟨_, hx.symm⟩
    · exact ⟨_, hx.symm⟩

theorem demo_indices_in_range :
    ∀ r ∈ demoPackageMapSpec.MapFileRefs, (-2147483648 ≤ r.File ∧ r.File ≤ 2147483647) ∧
      (-2147483648 ≤ r.Map ∧ r.Map ≤ 2147483647) := by
  decide

set_option maxRecDepth 100000 in
theorem demo_dump_text :
    demoPackageMapSpec.Dump =
      "\x7b\"files\":[\x7b\"name\":\"gameresources.resources\"\x7d," ++
      "\x7b\"name\":\"e1\\\"m1\\\\intro\\u000a.resources\"\x7d]," ++
      "\"mapFileRefs\":[\x7b\"file\":0,\"map\":0\x7d,\x7b\"file\":1,\"map\":1\x7d," ++
      "\x7b\"file\":-2147483648,\"map\":2147483647\x7d]," ++
      "\"maps\":[\x7b\"name\":\"common\"\x7d,\x7b\"name\":\"game/sp/e1m1_intro/e1m1_intro\"\x7d]\x7d" := by
  decide

/-- C14 at the sample value, whose second file name holds a quote, a reverse solidus and a line
feed: the text that `Dump` writes, and the value the constructor reads back from it. -/
theorem dump_then_construct_witness :
    (∀ r ∈ demoPackageMapSpec.MapFileRefs, (-2147483648 ≤ r.File ∧ r.File ≤ 2147483647) ∧
      (-2147483648 ≤ r.Map ∧ r.Map ≤ 2147483647)) ∧
    demoPackageMapSpec.Dump =
      "\x7b\"files\":[\x7b\"name\":\"gameresources.resources\"\x7d," ++
      "\x7b\"name\":\"e1\\\"m1\\\\intro\\u000a.resources\"\x7d]," ++
      "\"mapFileRefs\":[\x7b\"file\":0,\"map\":0\x7d,\x7b\"file\":1,\"map\":1\x7d," ++
      "\x7b\"file\":-2147483648,\"map\":2147483647\x7d]," ++
      "\"maps\":[\x7b\"name\":\"common\"\x7d,\x7b\"name\":\"game/sp/e1m1_intro/e1m1_intro\"\x7d]\x7d" ∧
    PackageMapSpec.fromJson demoPackageMapSpec.Dump = some demoPackageMapSpec :=
  ⟨demo_indices_in_range, demo_dump_text,
    (dump_then_construct demoPackageMapSpec demo_indices_in_range).2.1⟩

end EternalModLoader
